import Mathlib

/-!
2D platformer simulation loop (main.cpp)

A shallow embedding of `main.cpp`: the entity model (`Vector2`, `GameObject`
and its three subclasses), the `PhysicsSystem`, `Scene` / `SceneManager`, and
the body of the `while (!gameOver)` loop of `main`.

Modelling conventions.

* `float` values are exact rationals (`ℚ`) in the embedding of the whole
  program: rounding, infinities and NaN are outside that layer.  The literals
  `9.8f` and `0.016f` are `49/5` and `2/125`.
* Where the outcome of a comparison depends on a rounded sum, an infinity or
  NaN (`checkCollision`, `Player::update`, `Enemy::update`), the function is
  embedded a second time, in the namespace `F32`, over `Float32`: the finite
  binary32 values as rationals, the two infinities and NaN, with
  round-to-nearest, ties-to-even arithmetic and comparisons that are false on
  NaN.
* A `GameObject*` is a value of `GameObject` carrying its dynamic type in
  `kind`; a `std::vector<GameObject*>` is a `List GameObject`, and a write
  through `objects[i]` is `List.set`.
* Standard output is a list of `Event`s, one per `std::cout` statement group.
* A `for` loop with `break` is a left fold over its index range whose
  accumulator carries a "broke" flag.
* The array `grid[10][10]` of `Scene::render` is a function from row and
  column to the character; `static_cast<int>` is truncation toward zero.
* Where the identity of a `Scene` instance matters (`setScene`), the pointer
  is an address and the heap is the list of live addresses (`SceneStore`).
-/

namespace Game2D

/-! ## Vector2 -/

/-- The struct `Vector2` (lines 8-15). -/
structure Vector2 where
  x : ℚ
  y : ℚ
deriving DecidableEq, Repr

/-- The member `Vector2::operator+` (line 11). -/
def Vector2.add (a other : Vector2) : Vector2 :=
  ⟨a.x + other.x, a.y + other.y⟩

/-- The member `Vector2::operator*` (line 14). -/
def Vector2.mul (a : Vector2) (scalar : ℚ) : Vector2 :=
  ⟨a.x * scalar, a.y * scalar⟩

/-! ## GameObject and its subclasses -/

/-- Dynamic type of a `GameObject` (what `dynamic_cast` inspects). -/
inductive Kind where
  | Player
  | Platform
  | Enemy
deriving DecidableEq, Repr

/-- The class `GameObject` (lines 18-31) together with its dynamic type. -/
structure GameObject where
  kind : Kind
  position : Vector2
  velocity : Vector2
deriving DecidableEq, Repr

/-- The accessor `setPosition` (line 28). -/
def GameObject.setPosition (o : GameObject) (pos : Vector2) : GameObject :=
  { o with position := pos }

/-- The accessor `setVelocity` (line 29). -/
def GameObject.setVelocity (o : GameObject) (vel : Vector2) : GameObject :=
  { o with velocity := vel }

/-- Constructor `Player(x, y)` (line 36). -/
def Player.new (x y : ℚ) : GameObject :=
  { kind := Kind.Player, position := ⟨x, y⟩, velocity := ⟨0, 0⟩ }

/-- Constructor `Platform(x, y)` (line 58). -/
def Platform.new (x y : ℚ) : GameObject :=
  { kind := Kind.Platform, position := ⟨x, y⟩, velocity := ⟨0, 0⟩ }

/-- Constructor `Enemy(x, y)` (line 68): `velocity.x = -1.0f`. -/
def Enemy.new (x y : ℚ) : GameObject :=
  { kind := Kind.Enemy, position := ⟨x, y⟩, velocity := ⟨-1, 0⟩ }

/-- The method `Player::update` (lines 37-44). -/
def Player.update (o : GameObject) (deltaTime : ℚ) : GameObject :=
  let p0 := o.position.add (o.velocity.mul deltaTime)
  let p1 := if p0.x < 0 then { p0 with x := 0 } else p0
  let p2 := if p1.x > 9 then { p1 with x := 9 } else p1
  let p3 := if p2.y < 0 then { p2 with y := 0 } else p2
  let p4 := if p3.y > 9 then { p3 with y := 9 } else p3
  { o with position := p4 }

/-- The method `Platform::update` (line 59): empty body. -/
def Platform.update (o : GameObject) (_deltaTime : ℚ) : GameObject := o

/-- The method `Enemy::update` (lines 69-73). -/
def Enemy.update (o : GameObject) (deltaTime : ℚ) : GameObject :=
  let o0 := { o with position := o.position.add (o.velocity.mul deltaTime) }
  let o1 :=
    if o0.position.x < 0 then
      { o0 with position := { o0.position with x := 0 },
                velocity := { o0.velocity with x := 1 } }
    else o0
  let o2 :=
    if o1.position.x > 9 then
      { o1 with position := { o1.position with x := 9 },
                velocity := { o1.velocity with x := -1 } }
    else o1
  o2

/-- Virtual dispatch of `GameObject::update` on the dynamic type. -/
def GameObject.update (o : GameObject) (deltaTime : ℚ) : GameObject :=
  match o.kind with
  | Kind.Player => Player.update o deltaTime
  | Kind.Platform => Platform.update o deltaTime
  | Kind.Enemy => Enemy.update o deltaTime

/-- The method `Player::jump` (line 49). -/
def Player.jump (o : GameObject) : GameObject :=
  { o with velocity := { o.velocity with y := -5 } }

/-- The method `Player::moveLeft` (line 50). -/
def Player.moveLeft (o : GameObject) : GameObject :=
  { o with velocity := { o.velocity with x := -2 } }

/-- The method `Player::moveRight` (line 51). -/
def Player.moveRight (o : GameObject) : GameObject :=
  { o with velocity := { o.velocity with x := 2 } }

/-- The method `Player::stopHorizontal` (line 52). -/
def Player.stopHorizontal (o : GameObject) : GameObject :=
  { o with velocity := { o.velocity with x := 0 } }

/-! ## Output events -/

/-- One entry per group of `std::cout` statements of the program. -/
inductive Event where
  | menuCreated
  | commandRequest
  | invalidCommand
  | landed
  | hitEnemy
  | renderMenu
  | renderScene (objects : List GameObject)
  | gameEnded
deriving DecidableEq, Repr

/-! ## PhysicsSystem -/

/-- The member `PhysicsSystem::gravity` (line 147), `9.8f`. -/
def gravity : ℚ := 49 / 5

/-- The method `PhysicsSystem::applyPhysics` (lines 149-153). -/
def applyPhysics (obj : GameObject) (deltaTime : ℚ) : GameObject :=
  if obj.kind = Kind.Platform then obj
  else
    let o1 := obj.setVelocity ⟨obj.velocity.x, obj.velocity.y + gravity * deltaTime⟩
    o1.setPosition (o1.position.add (o1.velocity.mul deltaTime))

/-- The local `collided` of `checkCollision` (lines 157-159), with
`width = height = 1`. -/
def collided (posA posB : Vector2) : Bool :=
  decide (posA.x < posB.x + 1 ∧ posA.x + 1 > posB.x ∧
          posA.y < posB.y + 1 ∧ posA.y + 1 > posB.y)

/-- What one call of `checkCollision` leaves behind: the returned flag, the
two objects after the call, and what was printed. -/
structure CollisionResult where
  result : Bool
  a : GameObject
  b : GameObject
  out : List Event
deriving DecidableEq, Repr

/-- The method `PhysicsSystem::checkCollision` (lines 154-172). -/
def checkCollision (a b : GameObject) : CollisionResult :=
  let posA := a.position
  let posB := b.position
  if collided posA posB then
    if a.kind = Kind.Player ∧ b.kind = Kind.Platform then
      let a1 := a.setPosition ⟨posA.x, posB.y - 1⟩
      let a2 := a1.setVelocity ⟨a1.velocity.x, 0⟩
      { result := false, a := a2, b := b, out := [Event.landed] }
    else if a.kind = Kind.Player ∧ b.kind = Kind.Enemy then
      { result := true, a := a, b := b, out := [Event.hitEnemy] }
    else
      { result := false, a := a, b := b, out := [] }
  else
    { result := false, a := a, b := b, out := [] }

/-! ## Scene and SceneManager -/

/-- Dynamic type of a `Scene`. -/
inductive SceneKind where
  | MenuScene
  | GameScene
deriving DecidableEq, Repr

/-- Modelled from the spec: the field `position` that `MenuScene::update`
(lines 120-126) reads and writes is declared nowhere in the source; the spec
calls it the menu's own, otherwise unused, position field.  The rest is the
class `Scene` (lines 81-112) with its dynamic type. -/
structure Scene where
  kind : SceneKind
  objects : List GameObject
  position : Vector2
deriving DecidableEq, Repr

/-- Constructor `MenuScene()` (lines 117-119): no objects. -/
def MenuScene.new : Scene :=
  { kind := SceneKind.MenuScene, objects := [], position := ⟨0, 0⟩ }

/-- Constructor `GameScene()` (lines 136-142). -/
def GameScene.new : Scene :=
  { kind := SceneKind.GameScene,
    objects := [Player.new 5 5, Platform.new 4 7, Platform.new 5 7,
                Platform.new 6 7, Enemy.new 8 6],
    position := ⟨0, 0⟩ }

/-- The method `MenuScene::update` (lines 120-126). -/
def MenuScene.update (s : Scene) (_deltaTime : ℚ) : Scene :=
  let p0 := s.position
  let p1 := if p0.x < 0 then { p0 with x := 0 } else p0
  let p2 := if p1.x > 19 then { p1 with x := 19 } else p1
  let p3 := if p2.y < 0 then { p2 with y := 0 } else p2
  let p4 := if p3.y > 9 then { p3 with y := 9 } else p3
  { s with position := p4 }

/-- The method `Scene::update` (lines 86-88), with the override of
`MenuScene` selected by the dynamic type. -/
def Scene.update (s : Scene) (deltaTime : ℚ) : Scene :=
  match s.kind with
  | SceneKind.MenuScene => MenuScene.update s deltaTime
  | SceneKind.GameScene =>
      { s with objects := s.objects.map (fun obj => obj.update deltaTime) }

/-- What `Scene::render` / `MenuScene::render` print (lines 89-109, 127-130). -/
def Scene.render (s : Scene) : List Event :=
  match s.kind with
  | SceneKind.MenuScene => [Event.renderMenu]
  | SceneKind.GameScene => [Event.renderScene s.objects]

/-- The class `SceneManager` (lines 176-184): one owning pointer, possibly null. -/
structure SceneManager where
  currentScene : Option Scene
deriving DecidableEq, Repr

/-- The method `SceneManager::setScene` (line 180). -/
def SceneManager.setScene (_m : SceneManager) (scene : Scene) : SceneManager :=
  { currentScene := some scene }

/-- The method `SceneManager::getCurrentScene` (line 183). -/
def SceneManager.getCurrentScene (m : SceneManager) : Option Scene :=
  m.currentScene

/-- The method `SceneManager::update` (line 181). -/
def SceneManager.update (m : SceneManager) (deltaTime : ℚ) : SceneManager :=
  match m.currentScene with
  | some s => { currentScene := some (s.update deltaTime) }
  | none => m

/-- The method `SceneManager::render` (line 182). -/
def SceneManager.render (m : SceneManager) : List Event :=
  match m.currentScene with
  | some s => s.render
  | none => []

/-! ## The main loop -/

/-- The literal `0.016f` passed to physics and scene update (lines 234, 249). -/
def frameDt : ℚ := 2 / 125

/-- State of one collision pass (lines 236-246): the objects, the flag
`gameOver`, what was printed, and the list of index pairs on which
`checkCollision` has been called so far (kept for reasoning only). -/
structure PassState where
  objects : List GameObject
  gameOver : Bool
  out : List Event
  calls : List (Nat × Nat)
deriving DecidableEq, Repr

/-- Body of the inner loop `for j` (lines 239-244) at index `j`; the Boolean
of the accumulator records that `break` (line 242) has left this inner loop. -/
def innerBody (i : Nat) (acc : PassState × Bool) (j : Nat) : PassState × Bool :=
  if acc.2 then acc
  else
    match acc.1.objects[i]?, acc.1.objects[j]? with
    | some a, some b =>
      let r := checkCollision a b
      let st1 : PassState :=
        { objects := (acc.1.objects.set i r.a).set j r.b,
          gameOver := acc.1.gameOver,
          out := acc.1.out ++ r.out,
          calls := acc.1.calls ++ [(i, j)] }
      if r.result then
        if r.a.kind = Kind.Player ∧ r.b.kind = Kind.Enemy then
          ({ st1 with gameOver := true }, true)
        else (st1, false)
      else (st1, false)
    | _, _ => acc

/-- The inner loop `for (j = i + 1; j < objects.size(); ++j)` (line 238). -/
def innerLoop (st : PassState) (i : Nat) : PassState :=
  ((List.range' (i + 1) (st.objects.length - (i + 1))).foldl (innerBody i) (st, false)).1

/-- The outer loop `for (i = 0; i < objects.size(); ++i)` (line 237), started
with the current value of `gameOver`. -/
def collisionPass (objects : List GameObject) (gameOver : Bool) : PassState :=
  (List.range objects.length).foldl innerLoop
    { objects := objects, gameOver := gameOver, out := [], calls := [] }

/-- The search loop of lines 216-221: index of the first `Player`. -/
def findPlayer : List GameObject → Option Nat
  | [] => none
  | obj :: rest =>
    if obj.kind = Kind.Player then some 0 else (findPlayer rest).map (fun k => k + 1)

/-- How the body of the `while` loop is left. -/
inductive Flow where
  | next
  | cont
  | brk
deriving DecidableEq, Repr

/-- The variables of `main` (lines 188-191) and the output so far;
`terminated` records that control has left the `while` loop. -/
structure Game where
  sceneManager : SceneManager
  gameOver : Bool
  terminated : Bool
  out : List Event
deriving DecidableEq, Repr

/-- Lines 188-191: a `MenuScene` is installed and `gameOver` is false. -/
def mainInit : Game :=
  { sceneManager := (SceneManager.mk none).setScene MenuScene.new,
    gameOver := false,
    terminated := false,
    out := [Event.menuCreated] }

/-- The input check of line 200. -/
def validCommand (input : Char) : Bool :=
  !(input != 'w' && input != 'a' && input != 'd' && input != 's' && input != 'q')

/-- The write through the pointer `player` (lines 223-227): the object at
index `k` of the scene is replaced. -/
def setPlayer (g : Game) (sc : Scene) (k : Nat) (player : GameObject) : Game :=
  { g with sceneManager := { currentScene := some { sc with objects := sc.objects.set k player } } }

/-- Lines 205-229: command dispatch on the dynamic type of the current scene. -/
def dispatch (g : Game) (input : Char) : Flow × Game :=
  match g.sceneManager.getCurrentScene with
  | none => (Flow.next, g)
  | some sc =>
    match sc.kind with
    | SceneKind.MenuScene =>
      if input = 's' then
        (Flow.next, { g with sceneManager := g.sceneManager.setScene GameScene.new })
      else if input = 'q' then (Flow.brk, g)
      else (Flow.next, g)
    | SceneKind.GameScene =>
      match findPlayer sc.objects with
      | none => (Flow.next, g)
      | some k =>
        match sc.objects[k]? with
        | none => (Flow.next, g)
        | some player =>
          if input = 'w' then (Flow.next, setPlayer g sc k (Player.jump player))
          else if input = 'a' then (Flow.next, setPlayer g sc k (Player.moveLeft player))
          else if input = 'd' then (Flow.next, setPlayer g sc k (Player.moveRight player))
          else if input = 'q' then (Flow.brk, g)
          else (Flow.next, setPlayer g sc k (Player.stopHorizontal player))

/-- Lines 233-246: physics on every object with `dt = 0.016`, then the
collision pass. -/
def framePass (objects : List GameObject) (gameOver : Bool) : PassState :=
  collisionPass (objects.map (fun obj => applyPhysics obj frameDt)) gameOver

/-- Lines 231-247: the simulation runs when the current scene is a `GameScene`. -/
def simulate (g : Game) : Game :=
  match g.sceneManager.getCurrentScene with
  | none => g
  | some sc =>
    match sc.kind with
    | SceneKind.MenuScene => g
    | SceneKind.GameScene =>
      let p := framePass sc.objects g.gameOver
      { g with sceneManager := { currentScene := some { sc with objects := p.objects } },
               gameOver := p.gameOver,
               out := g.out ++ p.out }

/-- Lines 249-250: scene update and render. -/
def updateAndRender (g : Game) : Game :=
  let m := g.sceneManager.update frameDt
  { g with sceneManager := m, out := g.out ++ m.render }

/-- One pass through the body of the `while` loop (lines 194-254) on the
character read by line 198. -/
def loopBody (g : Game) (input : Char) : Flow × Game :=
  let g0 := { g with out := g.out ++ [Event.commandRequest] }
  if validCommand input = false then
    (Flow.cont, { g0 with out := g0.out ++ [Event.invalidCommand] })
  else
    match dispatch g0 input with
    | (Flow.brk, g1) => (Flow.brk, g1)
    | (_, g1) => (Flow.next, updateAndRender (simulate g1))

/-- Line 257 after the loop has been left. -/
def leave (g : Game) : Game :=
  { g with terminated := true, out := g.out ++ [Event.gameEnded] }

/-- One command: nothing once the loop has been left; otherwise the loop
body, after which the loop is left on `break` or when the test
`!gameOver` of line 193 fails. -/
def step (g : Game) (input : Char) : Game :=
  if g.terminated then g
  else
    match loopBody g input with
    | (Flow.brk, g1) => leave g1
    | (_, g1) => if g1.gameOver then leave g1 else g1

/-- The program run on a sequence of input characters. -/
def run (inputs : List Char) : Game :=
  inputs.foldl step mainInit

/-! ## Predicates used in the statements -/

/-- The 10x10 world of `Player::update`: `0 <= x <= 9` and `0 <= y <= 9`. -/
def inWorld (p : Vector2) : Prop :=
  0 ≤ p.x ∧ p.x ≤ 9 ∧ 0 ≤ p.y ∧ p.y ≤ 9

instance (p : Vector2) : Decidable (inWorld p) := by
  unfold inWorld; infer_instance

/-- What must never change in an object: its dynamic type, and for a
Platform also its position and velocity. -/
def staticView (o : GameObject) : Kind × Option (Vector2 × Vector2) :=
  (o.kind, if o.kind = Kind.Platform then some (o.position, o.velocity) else none)

/-- What holds of the active scene along every run of `main`: it is the
menu as constructed, or a game scene whose Players are inside the world and
whose static views are those of a fresh `GameScene`. -/
def sceneOK (sc : Scene) : Prop :=
  sc = MenuScene.new ∨
  (sc.kind = SceneKind.GameScene ∧
   (∀ o ∈ sc.objects, o.kind = Kind.Player → inWorld o.position) ∧
   sc.objects.map staticView = GameScene.new.objects.map staticView)

instance (sc : Scene) : Decidable (sceneOK sc) := by
  unfold sceneOK; infer_instance

/-- What holds of the variables of `main` along every run: inside the loop
`gameOver` is false, and the active scene satisfies `sceneOK`. -/
def gameOK (g : Game) : Prop :=
  (g.terminated = false → g.gameOver = false) ∧
  ∃ sc, g.sceneManager.currentScene = some sc ∧ sceneOK sc

instance (g : Game) : Decidable (gameOK g) := by
  unfold gameOK
  cases h : g.sceneManager.currentScene with
  | none => exact isFalse (fun hh => by obtain ⟨_, sc, hsc, _⟩ := hh; simp at hsc)
  | some sc =>
    by_cases hok : sceneOK sc
    · by_cases hg : g.terminated = false → g.gameOver = false
      · exact isTrue ⟨hg, sc, rfl, hok⟩
      · exact isFalse (fun hh => hg hh.1)
    · exact isFalse (fun hh => by
        obtain ⟨_, sc0, hsc, hok0⟩ := hh
        have : sc0 = sc := (Option.some.inj hsc).symm
        exact hok (this ▸ hok0))

/-! ## The grid of `Scene::render` -/

/-- The conversion `static_cast<int>` of lines 97-98: truncation toward zero. -/
def truncInt (q : ℚ) : Int :=
  if 0 ≤ q then ⌊q⌋ else ⌈q⌉

/-- The glyph chosen by the `dynamic_cast` chain of lines 100-102. -/
def glyph (k : Kind) : Char :=
  match k with
  | Kind.Player => 'P'
  | Kind.Platform => '#'
  | Kind.Enemy => 'E'

/-- Body of the loop of lines 96-104 on the array `grid[row][column]`. -/
def plot (grid : Nat → Nat → Char) (obj : GameObject) : Nat → Nat → Char :=
  let x := truncInt obj.position.x
  let y := truncInt obj.position.y
  if x ≥ 0 ∧ x < 10 ∧ y ≥ 0 ∧ y < 10 then
    fun r c => if r = y.toNat ∧ c = x.toNat then glyph obj.kind else grid r c
  else grid

/-- The grid computed by `Scene::render` (lines 92-104): all cells `.`, then
every object plotted in insertion order. -/
def Scene.grid (objects : List GameObject) : Nat → Nat → Char :=
  objects.foldl plot (fun _ _ => '.')

/-- The cell of the specification: the glyph of the last-inserted object whose
truncated position is `(x = c, y = r)`, and `.` when there is none. -/
def cellSpec (objects : List GameObject) (r c : Nat) : Char :=
  match (objects.filter (fun o =>
      decide (truncInt o.position.x = (c : Int) ∧ truncInt o.position.y = (r : Int)))).getLast? with
  | some o => glyph o.kind
  | none => '.'

/-! ## SceneManager at the level of addresses -/

/-- The pointer `SceneManager::currentScene` (line 177) as an address, with
the addresses of the `Scene` objects that are allocated and not yet deleted.
`SceneManager` above is the same class with the pointer replaced by the
scene it points to. -/
structure SceneStore where
  currentScene : Option Nat
  live : List Nat
deriving DecidableEq, Repr

/-- The method `SceneManager::setScene` (line 180) on addresses:
`delete currentScene; currentScene = scene;`. -/
def SceneStore.setScene (m : SceneStore) (scene : Nat) : SceneStore :=
  { currentScene := some scene,
    live := match m.currentScene with
      | some old => m.live.filter (fun a => a ≠ old)
      | none => m.live }

/-- The method `SceneManager::getCurrentScene` (line 183) on addresses. -/
def SceneStore.getCurrentScene (m : SceneStore) : Option Nat :=
  m.currentScene

/-! ## The pair iteration policy of the specification -/

/-- Row `i` of the pair list: the pairs `(i, j)` with `i < j < n`, `j` ascending. -/
def pairRow (n i : Nat) : List (Nat × Nat) :=
  (List.range' (i + 1) (n - (i + 1))).map (fun j => (i, j))

/-- All pairs `(i, j)` with `i < j < n` in lexicographic order. -/
def allPairs (n : Nat) : List (Nat × Nat) :=
  (List.range n).flatMap (pairRow n)

/-- One call `checkCollision(objects[i], objects[j])` with its effects
written back, no `break`. -/
def checkPair (st : PassState) (ij : Nat × Nat) : PassState :=
  match st.objects[ij.1]?, st.objects[ij.2]? with
  | some a, some b =>
    let r := checkCollision a b
    { objects := (st.objects.set ij.1 r.a).set ij.2 r.b,
      gameOver := st.gameOver || r.result,
      out := st.out ++ r.out,
      calls := st.calls ++ [ij] }
  | _, _ => st

/-- The collision pass as the specification words it: the fold of
`checkCollision` over the list of all pairs `i < j`. -/
def foldPass (objects : List GameObject) (gameOver : Bool) : PassState :=
  (allPairs objects.length).foldl checkPair
    { objects := objects, gameOver := gameOver, out := [], calls := [] }

/-! ## The scene built by `GameScene()` -/

/-- The Player after the three Player / Platform calls of row 0 of the
collision pass in a scene built by `GameScene()` (pairs `(0,1)`, `(0,2)`,
`(0,3)` against the Platforms at `(4,7)`, `(5,7)`, `(6,7)`). -/
def landed (p : GameObject) : GameObject :=
  (checkCollision (checkCollision (checkCollision p (Platform.new 4 7)).a
    (Platform.new 5 7)).a (Platform.new 6 7)).a

/-- What the three Player / Platform calls of row 0 print. -/
def landedOut (p : GameObject) : List Event :=
  (checkCollision p (Platform.new 4 7)).out ++
  (checkCollision (checkCollision p (Platform.new 4 7)).a (Platform.new 5 7)).out ++
  (checkCollision (checkCollision (checkCollision p (Platform.new 4 7)).a
    (Platform.new 5 7)).a (Platform.new 6 7)).out

/-- What relates the Player `p` and the Enemy `e` of the scene built by
`GameScene()` along every run: the Enemy is at least one unit below the
Player, falls at least as fast, never rises, is never above its starting
height 6, and patrols at horizontal speed 1. -/
def duelOK (p e : GameObject) : Prop :=
  p.kind = Kind.Player ∧ e.kind = Kind.Enemy ∧
  1 ≤ e.position.y - p.position.y ∧
  p.velocity.y ≤ e.velocity.y ∧
  0 ≤ e.velocity.y ∧
  6 ≤ e.position.y ∧
  (e.velocity.x = -1 ∨ e.velocity.x = 1)

instance (p e : GameObject) : Decidable (duelOK p e) := by
  unfold duelOK; infer_instance

/-- A game scene of the shape built by `GameScene()` whose Player and Enemy
satisfy `duelOK`, with the Player inside the world and the Enemy between
the walls. -/
def duelScene (sc : Scene) : Prop :=
  match sc.objects with
  | [p, q1, q2, q3, e] =>
    sc.kind = SceneKind.GameScene ∧ sc.position = ⟨0, 0⟩ ∧
    q1 = Platform.new 4 7 ∧ q2 = Platform.new 5 7 ∧ q3 = Platform.new 6 7 ∧
    duelOK p e ∧ inWorld p.position ∧ 0 ≤ e.position.x ∧ e.position.x ≤ 9
  | _ => False

instance (sc : Scene) : Decidable (duelScene sc) := by
  unfold duelScene; split <;> infer_instance

/-- What holds of the variables of `main` along every run, in exact
arithmetic: `gameOver` is never set, and the active scene is the menu as
constructed or a `duelScene`. -/
def runOK (g : Game) : Prop :=
  g.gameOver = false ∧
  match g.sceneManager.currentScene with
  | some sc => sc = MenuScene.new ∨ duelScene sc
  | none => False

instance (g : Game) : Decidable (runOK g) := by
  unfold runOK; split <;> infer_instance

/-! ## The arithmetic of `float`

The results that depend on a rounded sum, on an infinity or on NaN are stated
over `Float32`: the finite values of IEEE 754 binary32 as rationals, the two
infinities and NaN, with round-to-nearest, ties-to-even arithmetic. -/

/-- Round to the nearest integer, ties to the even one. -/
def roundHalfEven (x : ℚ) : ℤ :=
  if x - ⌊x⌋ < 1 / 2 then ⌊x⌋
  else if x - ⌊x⌋ > 1 / 2 then ⌊x⌋ + 1
  else if ⌊x⌋ % 2 = 0 then ⌊x⌋ else ⌊x⌋ + 1

/-- The search behind `ulp32`: `p` runs through the powers of two downwards
until `p ≤ q` or the fuel is used up; the result is `p / 2 ^ 23`. -/
def ulpFrom : Nat → ℚ → ℚ → ℚ
  | 0, p, _ => p / 2 ^ 23
  | fuel + 1, p, q => if p ≤ q then p / 2 ^ 23 else ulpFrom fuel (p / 2) q

/-- Distance between neighbouring binary32 values at a positive `q`:
`2 ^ (e - 23)` for the largest exponent `e` of a binary32 value with
`2 ^ e ≤ q` (`e` from -126 to 127), and `2 ^ (-149)` below `2 ^ (-126)`
(the subnormal range). -/
def ulp32 (q : ℚ) : ℚ :=
  ulpFrom 253 (2 ^ 127) q

/-- Rounding of a non-negative rational to the nearest multiple of `ulp32`. -/
def roundPos (q : ℚ) : ℚ :=
  roundHalfEven (q / ulp32 q) * ulp32 q

/-- Round to nearest, ties to even, onto the multiples of `ulp32`; a result
beyond the largest finite binary32 value stands for an overflow. -/
def round32 (q : ℚ) : ℚ :=
  if q < 0 then -roundPos (-q) else roundPos q

/-- The largest finite binary32 value, `(2 ^ 24 - 1) * 2 ^ 104`. -/
def maxFinite32 : ℚ := (2 ^ 24 - 1) * 2 ^ 104

/-- A value of the type `float`. -/
inductive Float32 where
  | nan
  | negInf
  | fin (q : ℚ)
  | posInf
deriving DecidableEq, Repr

/-- The `float` that an exact result is rounded to; beyond the largest
finite value the result is an infinity. -/
def Float32.ofRat (q : ℚ) : Float32 :=
  if maxFinite32 < round32 q then Float32.posInf
  else if round32 q < -maxFinite32 then Float32.negInf
  else Float32.fin (round32 q)

/-- Being a value that a `float` variable can hold: a finite value is one
that rounding leaves alone and that is not beyond the largest finite value. -/
def Float32.isValue : Float32 → Prop
  | Float32.fin q => round32 q = q ∧ |q| ≤ maxFinite32
  | _ => True

instance (f : Float32) : Decidable f.isValue := by
  cases f <;> unfold Float32.isValue <;> infer_instance

/-- The operator `+` on `float`. -/
def Float32.add : Float32 → Float32 → Float32
  | Float32.nan, _ => Float32.nan
  | _, Float32.nan => Float32.nan
  | Float32.posInf, Float32.negInf => Float32.nan
  | Float32.negInf, Float32.posInf => Float32.nan
  | Float32.posInf, _ => Float32.posInf
  | _, Float32.posInf => Float32.posInf
  | Float32.negInf, _ => Float32.negInf
  | _, Float32.negInf => Float32.negInf
  | Float32.fin a, Float32.fin b => Float32.ofRat (a + b)

/-- The unary operator `-` on `float`. -/
def Float32.neg : Float32 → Float32
  | Float32.nan => Float32.nan
  | Float32.negInf => Float32.posInf
  | Float32.fin a => Float32.fin (-a)
  | Float32.posInf => Float32.negInf

/-- The operator `-` on `float`. -/
def Float32.sub (a b : Float32) : Float32 :=
  a.add b.neg

/-- The product of an infinity with the sign `neg` and a finite `q`. -/
def Float32.infMul (neg : Bool) (q : ℚ) : Float32 :=
  if q = 0 then Float32.nan
  else if decide (q < 0) = neg then Float32.posInf
  else Float32.negInf

/-- The operator `*` on `float`. -/
def Float32.mul : Float32 → Float32 → Float32
  | Float32.nan, _ => Float32.nan
  | _, Float32.nan => Float32.nan
  | Float32.fin a, Float32.fin b => Float32.ofRat (a * b)
  | Float32.fin a, Float32.posInf => Float32.infMul false a
  | Float32.fin a, Float32.negInf => Float32.infMul true a
  | Float32.posInf, Float32.fin b => Float32.infMul false b
  | Float32.negInf, Float32.fin b => Float32.infMul true b
  | Float32.posInf, Float32.posInf => Float32.posInf
  | Float32.negInf, Float32.negInf => Float32.posInf
  | Float32.posInf, Float32.negInf => Float32.negInf
  | Float32.negInf, Float32.posInf => Float32.negInf

/-- The operator `<` on `float`: false whenever an operand is NaN. -/
def Float32.lt : Float32 → Float32 → Bool
  | Float32.nan, _ => false
  | _, Float32.nan => false
  | Float32.fin a, Float32.fin b => decide (a < b)
  | Float32.negInf, Float32.negInf => false
  | Float32.negInf, _ => true
  | Float32.fin _, Float32.posInf => true
  | Float32.fin _, Float32.negInf => false
  | Float32.posInf, _ => false

/-- The operator `>` on `float`. -/
def Float32.gt (a b : Float32) : Bool :=
  b.lt a

/-- The operator `<=` on `float`: false whenever an operand is NaN. -/
def Float32.le : Float32 → Float32 → Bool
  | Float32.nan, _ => false
  | _, Float32.nan => false
  | Float32.fin a, Float32.fin b => decide (a ≤ b)
  | Float32.negInf, _ => true
  | Float32.fin _, Float32.posInf => true
  | Float32.fin _, Float32.negInf => false
  | Float32.posInf, Float32.posInf => true
  | Float32.posInf, _ => false

namespace F32

/-- The struct `Vector2` (lines 8-15) over `float`. -/
structure Vector2 where
  x : Float32
  y : Float32
deriving DecidableEq, Repr

/-- The member `Vector2::operator+` (line 11); `operator+=` (line 12) adds
the same way. -/
def Vector2.add (a other : Vector2) : Vector2 :=
  ⟨a.x.add other.x, a.y.add other.y⟩

/-- The member `Vector2::operator*` (line 14). -/
def Vector2.mul (a : Vector2) (scalar : Float32) : Vector2 :=
  ⟨a.x.mul scalar, a.y.mul scalar⟩

/-- The class `GameObject` (lines 18-31) over `float`, with its dynamic type. -/
structure GameObject where
  kind : Kind
  position : Vector2
  velocity : Vector2
deriving DecidableEq, Repr

/-- The accessor `setPosition` (line 28). -/
def GameObject.setPosition (o : GameObject) (pos : Vector2) : GameObject :=
  { o with position := pos }

/-- The accessor `setVelocity` (line 29). -/
def GameObject.setVelocity (o : GameObject) (vel : Vector2) : GameObject :=
  { o with velocity := vel }

/-- The method `Player::update` (lines 37-44); the `int` literals `0` and
`9` are converted to `float`. -/
def Player.update (o : GameObject) (deltaTime : Float32) : GameObject :=
  let p0 := o.position.add (o.velocity.mul deltaTime)
  let p1 := if p0.x.lt (Float32.fin 0) then { p0 with x := Float32.fin 0 } else p0
  let p2 := if p1.x.gt (Float32.fin 9) then { p1 with x := Float32.fin 9 } else p1
  let p3 := if p2.y.lt (Float32.fin 0) then { p2 with y := Float32.fin 0 } else p2
  let p4 := if p3.y.gt (Float32.fin 9) then { p3 with y := Float32.fin 9 } else p3
  { o with position := p4 }

/-- The method `Enemy::update` (lines 69-73). -/
def Enemy.update (o : GameObject) (deltaTime : Float32) : GameObject :=
  let o0 := { o with position := o.position.add (o.velocity.mul deltaTime) }
  let o1 :=
    if o0.position.x.lt (Float32.fin 0) then
      { o0 with position := { o0.position with x := Float32.fin 0 },
                velocity := { o0.velocity with x := Float32.fin 1 } }
    else o0
  let o2 :=
    if o1.position.x.gt (Float32.fin 9) then
      { o1 with position := { o1.position with x := Float32.fin 9 },
                velocity := { o1.velocity with x := Float32.fin (-1) } }
    else o1
  o2

/-- The local `collided` of `checkCollision` (lines 157-159), with
`width = height = 1.0f`: every sum is a `float`. -/
def collided (posA posB : Vector2) : Bool :=
  posA.x.lt (posB.x.add (Float32.fin 1)) && (posA.x.add (Float32.fin 1)).gt posB.x &&
  posA.y.lt (posB.y.add (Float32.fin 1)) && (posA.y.add (Float32.fin 1)).gt posB.y

/-- What one call of `checkCollision` leaves behind: the returned flag, the
two objects after the call, and what was printed. -/
structure CollisionResult where
  result : Bool
  a : GameObject
  b : GameObject
  out : List Event
deriving DecidableEq, Repr

/-- The method `PhysicsSystem::checkCollision` (lines 154-172). -/
def checkCollision (a b : GameObject) : CollisionResult :=
  let posA := a.position
  let posB := b.position
  if collided posA posB then
    if a.kind = Kind.Player ∧ b.kind = Kind.Platform then
      let a1 := a.setPosition ⟨posA.x, posB.y.sub (Float32.fin 1)⟩
      let a2 := a1.setVelocity ⟨a1.velocity.x, Float32.fin 0⟩
      { result := false, a := a2, b := b, out := [Event.landed] }
    else if a.kind = Kind.Player ∧ b.kind = Kind.Enemy then
      { result := true, a := a, b := b, out := [Event.hitEnemy] }
    else
      { result := false, a := a, b := b, out := [] }
  else
    { result := false, a := a, b := b, out := [] }

/-- The world of `Player::update` on `float` positions: `0 <= x <= 9` and
`0 <= y <= 9`, false for NaN. -/
def inWorld (p : Vector2) : Bool :=
  (Float32.fin 0).le p.x && p.x.le (Float32.fin 9) &&
  (Float32.fin 0).le p.y && p.y.le (Float32.fin 9)

end F32

/-- One step of the pass read as a fold over the pair list, with the row
that `break` has left as second component: a pair of that row is skipped;
on any other pair `checkCollision` is called as in `checkPair`, and a true
return marks the row of the pair as left. -/
def checkPairBreak (acc : PassState × Option Nat) (ij : Nat × Nat) : PassState × Option Nat :=
  if acc.2 = some ij.1 then acc
  else
    match acc.1.objects[ij.1]?, acc.1.objects[ij.2]? with
    | some a, some b =>
      (checkPair acc.1 ij, if (checkCollision a b).result then some ij.1 else acc.2)
    | _, _ => acc

/-- The collision pass as the fold over the list of all pairs `i < j` in
which, once a call of row `i` has returned true, the remaining pairs of row
`i` are skipped. -/
def breakPass (objects : List GameObject) (gameOver : Bool) : PassState :=
  ((allPairs objects.length).foldl checkPairBreak
    ({ objects := objects, gameOver := gameOver, out := [], calls := [] }, none)).1

end Game2D


namespace Game2D

/-! ## Collision resolution -/

/-- The flag `collided` is exactly the four strict inequalities of the box test. -/
theorem collided_iff (posA posB : Vector2) :
    collided posA posB = true ↔
      posA.x < posB.x + 1 ∧ posA.x + 1 > posB.x ∧
      posA.y < posB.y + 1 ∧ posA.y + 1 > posB.y := by
  simp [collided]

/-- Without overlap `checkCollision` does nothing and returns false. -/
theorem checkCollision_of_not_collided (a b : GameObject)
    (hc : collided a.position b.position = false) :
    checkCollision a b = { result := false, a := a, b := b, out := [] } := by
  simp [checkCollision, hc]

/-- Overlapping Player / Platform: the landing branch (lines 161-165). -/
theorem checkCollision_player_platform (a b : GameObject)
    (hc : collided a.position b.position = true)
    (ha : a.kind = Kind.Player) (hb : b.kind = Kind.Platform) :
    checkCollision a b =
      { result := false,
        a := { kind := a.kind, position := ⟨a.position.x, b.position.y - 1⟩,
               velocity := ⟨a.velocity.x, 0⟩ },
        b := b, out := [Event.landed] } := by
  simp [checkCollision, hc, ha, hb, GameObject.setPosition, GameObject.setVelocity]

/-- Overlapping Player / Enemy: the game-over branch (lines 166-169). -/
theorem checkCollision_player_enemy (a b : GameObject)
    (hc : collided a.position b.position = true)
    (ha : a.kind = Kind.Player) (hb : b.kind = Kind.Enemy) :
    checkCollision a b = { result := true, a := a, b := b, out := [Event.hitEnemy] } := by
  simp [checkCollision, hc, ha, hb]

/-- Any other pair of dynamic types: nothing happens, false is returned. -/
theorem checkCollision_other_kinds (a b : GameObject)
    (h1 : ¬ (a.kind = Kind.Player ∧ b.kind = Kind.Platform))
    (h2 : ¬ (a.kind = Kind.Player ∧ b.kind = Kind.Enemy)) :
    checkCollision a b = { result := false, a := a, b := b, out := [] } := by
  unfold checkCollision
  simp only [h1, h2, if_false, ite_self]

/-- A true return comes from the Player / Enemy branch, which writes nothing. -/
theorem checkCollision_result_true (a b : GameObject)
    (h : (checkCollision a b).result = true) :
    a.kind = Kind.Player ∧ b.kind = Kind.Enemy ∧ (checkCollision a b).a = a := by
  by_cases h2 : a.kind = Kind.Player ∧ b.kind = Kind.Enemy
  · by_cases hc : collided a.position b.position = true
    · rw [checkCollision_player_enemy a b hc h2.1 h2.2]
      exact ⟨h2.1, h2.2, rfl⟩
    · rw [checkCollision_of_not_collided a b (by simpa using hc)] at h
      simp at h
  · by_cases h1 : a.kind = Kind.Player ∧ b.kind = Kind.Platform
    · by_cases hc : collided a.position b.position = true
      · rw [checkCollision_player_platform a b hc h1.1 h1.2] at h
        simp at h
      · rw [checkCollision_of_not_collided a b (by simpa using hc)] at h
        simp at h
    · rw [checkCollision_other_kinds a b h1 h2] at h
      simp at h

/-- C9 (no resolution for other pairs): for an ordered pair that is neither
(Player, Platform) nor (Player, Enemy), and for any pair whose unit boxes do
not overlap, `checkCollision a b` returns false, prints nothing and leaves
both objects unchanged. -/
theorem checkCollision_no_resolution (a b : GameObject)
    (h : (¬ (a.kind = Kind.Player ∧ b.kind = Kind.Platform) ∧
          ¬ (a.kind = Kind.Player ∧ b.kind = Kind.Enemy)) ∨
         ¬ (a.position.x < b.position.x + 1 ∧ a.position.x + 1 > b.position.x ∧
            a.position.y < b.position.y + 1 ∧ a.position.y + 1 > b.position.y)) :
    (checkCollision a b).result = false ∧
    (checkCollision a b).a = a ∧
    (checkCollision a b).b = b ∧
    (checkCollision a b).out = [] := by
  have hiff := collided_iff a.position b.position
  rcases h with h | h
  · rw [checkCollision_other_kinds a b h.1 h.2]
    exact ⟨rfl, rfl, rfl, rfl⟩
  · have hc : collided a.position b.position = false := by
      cases hcol : collided a.position b.position
      · rfl
      · exact absurd (hiff.1 hcol) h
    rw [checkCollision_of_not_collided a b hc]
    exact ⟨rfl, rfl, rfl, rfl⟩

/-- C9 at an overlapping Platform / Enemy pair and at an overlapping
Enemy / Player pair. -/
theorem checkCollision_no_resolution_witness :
    ((checkCollision (Platform.new 5 7) (Enemy.new 5 7)).result = false ∧
     (checkCollision (Platform.new 5 7) (Enemy.new 5 7)).a = Platform.new 5 7 ∧
     (checkCollision (Platform.new 5 7) (Enemy.new 5 7)).b = Enemy.new 5 7 ∧
     (checkCollision (Platform.new 5 7) (Enemy.new 5 7)).out = []) ∧
    ((checkCollision (Enemy.new 5 5) (Player.new 5 5)).result = false ∧
     (checkCollision (Enemy.new 5 5) (Player.new 5 5)).a = Enemy.new 5 5 ∧
     (checkCollision (Enemy.new 5 5) (Player.new 5 5)).b = Player.new 5 5 ∧
     (checkCollision (Enemy.new 5 5) (Player.new 5 5)).out = []) :=
  ⟨checkCollision_no_resolution (Platform.new 5 7) (Enemy.new 5 7)
      (Or.inl ⟨by simp [Platform.new], by simp [Platform.new]⟩),
   checkCollision_no_resolution (Enemy.new 5 5) (Player.new 5 5)
      (Or.inl ⟨by simp [Enemy.new], by simp [Enemy.new]⟩)⟩

/-! ## Rounding to binary32 -/

/-- Rounding to nearest does not go below the floor. -/
theorem roundHalfEven_ge (x : ℚ) : ⌊x⌋ ≤ roundHalfEven x := by
  unfold roundHalfEven
  split_ifs <;> omega

/-- The search for the spacing stops at the binary exponent `t` of `q`. -/
theorem ulpFrom_eq (fuel : ℕ) : ∀ (e t : ℤ) (q : ℚ), (2 : ℚ) ^ t ≤ q → q < (2 : ℚ) ^ (t + 1) →
    t ≤ e → e - t ≤ fuel → ulpFrom fuel ((2 : ℚ) ^ e) q = (2 : ℚ) ^ (t - 23) := by
  induction fuel with
  | zero =>
    intro e t q _ _ hle hf
    have : e = t := by omega
    subst this
    simp only [ulpFrom]
    rw [zpow_sub₀ (by norm_num : (2 : ℚ) ≠ 0)]
    norm_num
  | succ n ih =>
    intro e t q h1 h2 hle hf
    simp only [ulpFrom]
    split_ifs with hp
    · have hlt : (2 : ℚ) ^ e < (2 : ℚ) ^ (t + 1) := lt_of_le_of_lt hp h2
      have : e < t + 1 := (zpow_lt_zpow_iff_right₀ (by norm_num : (1 : ℚ) < 2)).1 hlt
      have : e = t := by omega
      subst this
      rw [zpow_sub₀ (by norm_num : (2 : ℚ) ≠ 0)]
      norm_num
    · have hne : e ≠ t := by
        intro h; subst h; exact hp h1
      have hhalf : (2 : ℚ) ^ e / 2 = (2 : ℚ) ^ (e - 1) := by
        rw [zpow_sub_one₀ (by norm_num : (2 : ℚ) ≠ 0)]; rfl
      rw [hhalf]
      exact ih (e - 1) t q h1 h2 (by omega) (by push_cast at hf; omega)

/-- From `16` on, the search for the spacing stops at an exponent `t ≥ 4`
with `2 ^ t ≤ q`. -/
theorem ulpFrom_large (fuel : ℕ) : ∀ (e : ℤ) (q : ℚ), 16 ≤ q → 4 ≤ e → e - 4 ≤ fuel →
    ∃ t : ℤ, 4 ≤ t ∧ (2 : ℚ) ^ t ≤ q ∧ ulpFrom fuel ((2 : ℚ) ^ e) q = (2 : ℚ) ^ (t - 23) := by
  induction fuel with
  | zero =>
    intro e q hq he hf
    have : e = 4 := by omega
    subst this
    refine ⟨4, le_refl _, by norm_num; exact hq, ?_⟩
    simp only [ulpFrom]
    rw [zpow_sub₀ (by norm_num : (2 : ℚ) ≠ 0)]
    norm_num
  | succ n ih =>
    intro e q hq he hf
    simp only [ulpFrom]
    split_ifs with hp
    · refine ⟨e, he, hp, ?_⟩
      rw [zpow_sub₀ (by norm_num : (2 : ℚ) ≠ 0)]
      norm_num
    · have hne : e ≠ 4 := by
        intro h; subst h; apply hp; norm_num; exact hq
      have hhalf : (2 : ℚ) ^ e / 2 = (2 : ℚ) ^ (e - 1) := by
        rw [zpow_sub_one₀ (by norm_num : (2 : ℚ) ≠ 0)]; rfl
      rw [hhalf]
      exact ih (e - 1) q hq (by omega) (by push_cast at hf; omega)

/-- The starting power of the search as an integer power. -/
theorem two_pow_127 : ((2 : ℚ) ^ 127) = (2 : ℚ) ^ (127 : ℤ) := by
  norm_num

/-- Between 8 and 16 neighbouring binary32 values are `2 ^ (-20)` apart. -/
theorem ulp32_near_nine (s : ℚ) (h1 : 8 ≤ s) (h2 : s < 16) : ulp32 s = 1 / 2 ^ 20 := by
  unfold ulp32
  rw [two_pow_127, ulpFrom_eq 253 127 3 s (by norm_num; exact h1) (by norm_num; exact h2)
    (by norm_num) (by norm_num)]
  norm_num

/-- For `0 < q ≤ 2 ^ (-21)` the sum `9 + q` rounds to `9` (at `2 ^ (-21)`
the tie goes to the even significand of `9`). -/
theorem round32_nine_add_small (q : ℚ) (h0 : 0 < q) (h1 : q ≤ 1 / 2 ^ 21) :
    round32 (9 + q) = 9 := by
  have hu := ulp32_near_nine (9 + q) (by linarith) (by norm_num at h1 ⊢; linarith)
  have hpos : ¬ (9 + q < 0) := by linarith
  unfold round32
  rw [if_neg hpos]
  unfold roundPos
  rw [hu]
  have hx : (9 + q) / (1 / 2 ^ 20) = 9437184 + q * 2 ^ 20 := by ring
  rw [hx]
  have hfl : ⌊(9437184 : ℚ) + q * 2 ^ 20⌋ = 9437184 := by
    rw [Int.floor_eq_iff]
    constructor
    · push_cast; nlinarith
    · push_cast; norm_num at h1 ⊢; nlinarith
  have hr : roundHalfEven ((9437184 : ℚ) + q * 2 ^ 20) = 9437184 := by
    unfold roundHalfEven
    rw [hfl]
    have hle : ¬ ((9437184 : ℚ) + q * 2 ^ 20 - ((9437184 : ℤ) : ℚ) > 1 / 2) := by
      push_cast; norm_num at h1 ⊢; nlinarith
    split_ifs <;> first | rfl | omega
  rw [hr]
  norm_num

/-- From `16` on, rounding does not go below `16`. -/
theorem round32_ge_sixteen (s : ℚ) (h : 16 ≤ s) : 16 ≤ round32 s := by
  obtain ⟨e, he4, hle, hulp⟩ := ulpFrom_large 253 127 s h (by norm_num) (by norm_num)
  unfold round32
  rw [if_neg (by linarith)]
  unfold roundPos ulp32
  rw [two_pow_127, hulp]
  have hu : (0 : ℚ) < (2 : ℚ) ^ (e - 23) := by positivity
  have h23 : ((2 : ℚ) ^ (23 : ℕ)) * (2 : ℚ) ^ (e - 23) = (2 : ℚ) ^ e := by
    rw [← zpow_natCast, ← zpow_add₀ (by norm_num : (2 : ℚ) ≠ 0)]
    congr 1
    omega
  have hx : (((2 : ℤ) ^ (23 : ℕ) : ℤ) : ℚ) ≤ s / (2 : ℚ) ^ (e - 23) := by
    rw [le_div_iff₀ hu]
    push_cast
    have h23b : (8388608 : ℚ) * (2 : ℚ) ^ (e - 23) = (2 : ℚ) ^ e := by
      rw [← h23]; norm_num
    rw [h23b]
    exact hle
  have hfl : (2 : ℤ) ^ (23 : ℕ) ≤ ⌊s / (2 : ℚ) ^ (e - 23)⌋ := Int.le_floor.2 hx
  have hr : (2 : ℤ) ^ (23 : ℕ) ≤ roundHalfEven (s / (2 : ℚ) ^ (e - 23)) :=
    le_trans hfl (roundHalfEven_ge _)
  have hr2 : ((2 : ℚ) ^ (23 : ℕ)) ≤ (roundHalfEven (s / (2 : ℚ) ^ (e - 23)) : ℚ) := by
    exact_mod_cast hr
  have h16 : (16 : ℚ) ≤ (2 : ℚ) ^ e := by
    have : (2 : ℚ) ^ (4 : ℤ) ≤ (2 : ℚ) ^ e := zpow_le_zpow_right₀ (by norm_num) he4
    norm_num at this
    exact this
  calc (16 : ℚ) ≤ (2 : ℚ) ^ e := h16
    _ = ((2 : ℚ) ^ (23 : ℕ)) * (2 : ℚ) ^ (e - 23) := h23.symm
    _ ≤ (roundHalfEven (s / (2 : ℚ) ^ (e - 23)) : ℚ) * (2 : ℚ) ^ (e - 23) :=
        mul_le_mul_of_nonneg_right hr2 (le_of_lt hu)

/-- For `q > 2 ^ (-21)` the sum `9 + q` rounds to a value above `9`. -/
theorem round32_nine_add_large (q : ℚ) (h1 : 1 / 2 ^ 21 < q) : 9 < round32 (9 + q) := by
  by_cases h16 : 9 + q < 16
  · have hq0 : 0 < q := lt_trans (by norm_num) h1
    have hu := ulp32_near_nine (9 + q) (by linarith) h16
    unfold round32
    rw [if_neg (by linarith)]
    unfold roundPos
    rw [hu]
    have hx : (9 + q) / (1 / 2 ^ 20) = 9437184 + q * 2 ^ 20 := by ring
    rw [hx]
    have hr : (9437185 : ℤ) ≤ roundHalfEven ((9437184 : ℚ) + q * 2 ^ 20) := by
      have hfl0 : (9437184 : ℤ) ≤ ⌊(9437184 : ℚ) + q * 2 ^ 20⌋ :=
        Int.le_floor.2 (by push_cast; nlinarith)
      by_cases hfl : ⌊(9437184 : ℚ) + q * 2 ^ 20⌋ = 9437184
      · unfold roundHalfEven
        rw [hfl]
        have hgt : (9437184 : ℚ) + q * 2 ^ 20 - ((9437184 : ℤ) : ℚ) > 1 / 2 := by
          push_cast; norm_num at h1 ⊢; nlinarith
        have hnlt : ¬ ((9437184 : ℚ) + q * 2 ^ 20 - ((9437184 : ℤ) : ℚ) < 1 / 2) := not_lt.2 hgt.le
        rw [if_neg hnlt, if_pos hgt]
        norm_num
      · have := roundHalfEven_ge ((9437184 : ℚ) + q * 2 ^ 20)
        omega
    have hr2 : (9437185 : ℚ) ≤ (roundHalfEven ((9437184 : ℚ) + q * 2 ^ 20) : ℚ) := by
      exact_mod_cast hr
    calc (9 : ℚ) < 9437185 * (1 / 2 ^ 20) := by norm_num
      _ ≤ (roundHalfEven ((9437184 : ℚ) + q * 2 ^ 20) : ℚ) * (1 / 2 ^ 20) :=
          mul_le_mul_of_nonneg_right hr2 (by norm_num)
  · have := round32_ge_sixteen (9 + q) (by linarith)
    linarith

/-- Rounding commutes with negation on positive values. -/
theorem round32_neg_of_pos (q : ℚ) (h : 0 < q) : round32 (-q) = -round32 q := by
  unfold round32
  rw [if_pos (by linarith), if_neg (by linarith), neg_neg]

/-- A finite value of `float` is the result of rounding itself. -/
theorem ofRat_of_isValue (q : ℚ) (h : (Float32.fin q).isValue) :
    Float32.ofRat q = Float32.fin q := by
  obtain ⟨h1, h2⟩ := h
  have h3 := abs_le.1 h2
  unfold Float32.ofRat
  rw [h1, if_neg (by linarith [h3.2]), if_neg (by linarith [h3.1])]

/-- A rounded result is never NaN. -/
theorem ofRat_ne_nan (q : ℚ) : Float32.ofRat q ≠ Float32.nan := by
  unfold Float32.ofRat
  split_ifs <;> simp

/-- The sum of a finite value and a value that is not NaN is not NaN. -/
theorem add_fin_ne_nan (a : ℚ) (v : Float32) (hv : v ≠ Float32.nan) :
    (Float32.fin a).add v ≠ Float32.nan := by
  cases v with
  | nan => exact absurd rfl hv
  | negInf => simp [Float32.add]
  | fin b => simpa [Float32.add] using ofRat_ne_nan (a + b)
  | posInf => simp [Float32.add]

/-- Rounding to nearest does not pass an integer above the argument. -/
theorem roundHalfEven_le_of_le (x : ℚ) (m : ℤ) (h : x ≤ m) : roundHalfEven x ≤ m := by
  have hfl : ⌊x⌋ ≤ m := Int.floor_le_iff.2 (by linarith [show (m : ℚ) < m + 1 by linarith])
  by_cases he : ⌊x⌋ = m
  · have hx : x = m := le_antisymm h (by rw [← he]; exact Int.floor_le x)
    unfold roundHalfEven
    rw [hx, Int.floor_intCast]
    simp
  · have h1 : roundHalfEven x ≤ ⌊x⌋ + 1 := by
      unfold roundHalfEven
      split_ifs <;> omega
    omega

/-- The spacing found by the search, with the exponent it stops at. -/
theorem ulpFrom_spec (fuel : ℕ) : ∀ (e : ℤ) (q : ℚ), (e = 127 ∨ q < (2 : ℚ) ^ (e + 1)) →
    e = (fuel : ℤ) - 126 → e ≤ 127 →
    ∃ t : ℤ, -126 ≤ t ∧ t ≤ 127 ∧ ulpFrom fuel ((2 : ℚ) ^ e) q = (2 : ℚ) ^ (t - 23) ∧
      (t = -126 ∨ (2 : ℚ) ^ t ≤ q) ∧ (t = 127 ∨ q < (2 : ℚ) ^ (t + 1)) := by
  induction fuel with
  | zero =>
    intro e q hup he _
    have he2 : e = -126 := by simpa using he
    subst he2
    refine ⟨-126, le_refl _, by norm_num, ?_, Or.inl rfl, hup⟩
    simp only [ulpFrom]
    rw [zpow_sub₀ (by norm_num : (2 : ℚ) ≠ 0)]
    norm_num
  | succ n ih =>
    intro e q hup he he127
    simp only [ulpFrom]
    split_ifs with hp
    · refine ⟨e, by push_cast at he; omega, he127, ?_, Or.inr hp, hup⟩
      rw [zpow_sub₀ (by norm_num : (2 : ℚ) ≠ 0)]
      norm_num
    · have hhalf : (2 : ℚ) ^ e / 2 = (2 : ℚ) ^ (e - 1) := by
        rw [zpow_sub_one₀ (by norm_num : (2 : ℚ) ≠ 0)]; rfl
      rw [hhalf]
      have hlt : q < (2 : ℚ) ^ (e - 1 + 1) := by
        rw [sub_add_cancel]; exact not_le.1 hp
      exact ih (e - 1) q (Or.inr hlt) (by push_cast at he; omega) (by omega)

/-- The spacing of binary32 values at `q` is `2 ^ (t - 23)` for an exponent
`t` between -126 and 127 that is the binary exponent of `q` unless `q` is
below `2 ^ (-126)` or from `2 ^ 128` on. -/
theorem ulp32_spec (q : ℚ) :
    ∃ t : ℤ, -126 ≤ t ∧ t ≤ 127 ∧ ulp32 q = (2 : ℚ) ^ (t - 23) ∧
      (t = -126 ∨ (2 : ℚ) ^ t ≤ q) ∧ (t = 127 ∨ q < (2 : ℚ) ^ (t + 1)) := by
  unfold ulp32
  rw [two_pow_127]
  exact ulpFrom_spec 253 127 q (Or.inl rfl) (by norm_num) (le_refl _)

/-- Of two non-negative rationals the smaller has the smaller exponent. -/
theorem exponent_mono (s f : ℚ) (ts tf : ℤ) (h : s ≤ f)
    (hs : ts = -126 ∨ (2 : ℚ) ^ ts ≤ s) (hf : tf = 127 ∨ f < (2 : ℚ) ^ (tf + 1))
    (hs127 : ts ≤ 127) (hf126 : -126 ≤ tf) : ts ≤ tf := by
  rcases hs with hs | hs
  · omega
  · rcases hf with hf | hf
    · omega
    · have : (2 : ℚ) ^ ts < (2 : ℚ) ^ (tf + 1) := lt_of_le_of_lt hs (lt_of_le_of_lt h hf)
      have := (zpow_lt_zpow_iff_right₀ (by norm_num : (1 : ℚ) < 2)).1 this
      omega

/-- Rounding to a multiple of the spacing does not pass a binary32 value
above the argument. -/
theorem roundPos_le_of_le (s f : ℚ) (h : s ≤ f) (hf : roundPos f = f) :
    roundPos s ≤ f := by
  obtain ⟨ts, hs1, hs2, hus, hsl, _⟩ := ulp32_spec s
  obtain ⟨tf, hf1, hf2, huf, _, hfu⟩ := ulp32_spec f
  have hmono : ts ≤ tf := exponent_mono s f ts tf h hsl hfu hs2 hf1
  have hupos : (0 : ℚ) < (2 : ℚ) ^ (ts - 23) := by positivity
  -- f is an integer multiple of the spacing at s
  obtain ⟨k, hk⟩ : ∃ k : ℕ, tf - ts = k := ⟨(tf - ts).toNat, by omega⟩
  have hsplit : (2 : ℚ) ^ (tf - 23) = ((2 ^ k : ℤ) : ℚ) * (2 : ℚ) ^ (ts - 23) := by
    push_cast
    rw [← zpow_natCast, ← zpow_add₀ (by norm_num : (2 : ℚ) ≠ 0)]
    congr 1
    omega
  have hfM : f = ((roundHalfEven (f / ulp32 f) * 2 ^ k : ℤ) : ℚ) * (2 : ℚ) ^ (ts - 23) := by
    conv_lhs => rw [← hf]
    unfold roundPos
    rw [huf, hsplit]
    push_cast
    ring
  unfold roundPos
  rw [hus]
  have hx : s / (2 : ℚ) ^ (ts - 23) ≤ ((roundHalfEven (f / ulp32 f) * 2 ^ k : ℤ) : ℚ) := by
    rw [div_le_iff₀ hupos, ← hfM]
    exact h
  have hr := roundHalfEven_le_of_le _ _ hx
  have hr2 : (roundHalfEven (s / (2 : ℚ) ^ (ts - 23)) : ℚ) ≤
      ((roundHalfEven (f / ulp32 f) * 2 ^ k : ℤ) : ℚ) := by exact_mod_cast hr
  calc (roundHalfEven (s / (2 : ℚ) ^ (ts - 23)) : ℚ) * (2 : ℚ) ^ (ts - 23)
      ≤ ((roundHalfEven (f / ulp32 f) * 2 ^ k : ℤ) : ℚ) * (2 : ℚ) ^ (ts - 23) :=
        mul_le_mul_of_nonneg_right hr2 hupos.le
    _ = f := hfM.symm

/-- Rounding to a multiple of the spacing does not go below a binary32 value
below the argument. -/
theorem le_roundPos_of_le (g s : ℚ) (h : g ≤ s) (hg : roundPos g = g) :
    g ≤ roundPos s := by
  obtain ⟨tg, hg1, hg2, hug, hgl, hgu⟩ := ulp32_spec g
  obtain ⟨ts, hs1, hs2, hus, hsl, hsu⟩ := ulp32_spec s
  have hmono : tg ≤ ts := exponent_mono g s tg ts h hgl hsu hg2 hs1
  have hupos : (0 : ℚ) < (2 : ℚ) ^ (ts - 23) := by positivity
  by_cases heq : tg = ts
  · subst heq
    have hgM : g = (roundHalfEven (g / ulp32 g) : ℚ) * (2 : ℚ) ^ (tg - 23) := by
      conv_lhs => rw [← hg]
      unfold roundPos
      rw [hug]
    unfold roundPos
    rw [hus]
    have hx : ((roundHalfEven (g / ulp32 g) : ℤ) : ℚ) ≤ s / (2 : ℚ) ^ (tg - 23) := by
      rw [le_div_iff₀ hupos, ← hgM]
      exact h
    have hfl : roundHalfEven (g / ulp32 g) ≤ ⌊s / (2 : ℚ) ^ (tg - 23)⌋ := Int.le_floor.2 hx
    have hr : roundHalfEven (g / ulp32 g) ≤ roundHalfEven (s / (2 : ℚ) ^ (tg - 23)) :=
      le_trans hfl (roundHalfEven_ge _)
    have hr2 : (roundHalfEven (g / ulp32 g) : ℚ) ≤
        (roundHalfEven (s / (2 : ℚ) ^ (tg - 23)) : ℚ) := by exact_mod_cast hr
    calc g = (roundHalfEven (g / ulp32 g) : ℚ) * (2 : ℚ) ^ (tg - 23) := hgM
      _ ≤ (roundHalfEven (s / (2 : ℚ) ^ (tg - 23)) : ℚ) * (2 : ℚ) ^ (tg - 23) :=
          mul_le_mul_of_nonneg_right hr2 hupos.le
  · have hlt : tg < ts := lt_of_le_of_ne hmono heq
    have hs_low : (2 : ℚ) ^ ts ≤ s := by
      rcases hsl with hsl | hsl
      · omega
      · exact hsl
    have hg_up : g < (2 : ℚ) ^ (tg + 1) := by
      rcases hgu with hgu | hgu
      · omega
      · exact hgu
    have hpow : (2 : ℚ) ^ (tg + 1) ≤ (2 : ℚ) ^ ts :=
      zpow_le_zpow_right₀ (by norm_num) (by omega)
    have h23 : ((2 : ℚ) ^ (23 : ℕ)) * (2 : ℚ) ^ (ts - 23) = (2 : ℚ) ^ ts := by
      rw [← zpow_natCast, ← zpow_add₀ (by norm_num : (2 : ℚ) ≠ 0)]
      congr 1
      omega
    have hx : (((2 : ℤ) ^ (23 : ℕ) : ℤ) : ℚ) ≤ s / (2 : ℚ) ^ (ts - 23) := by
      rw [le_div_iff₀ hupos]
      push_cast
      have h23b : (8388608 : ℚ) * (2 : ℚ) ^ (ts - 23) = (2 : ℚ) ^ ts := by
        rw [← h23]; norm_num
      rw [h23b]
      exact hs_low
    have hfl : (2 : ℤ) ^ (23 : ℕ) ≤ ⌊s / (2 : ℚ) ^ (ts - 23)⌋ := Int.le_floor.2 hx
    have hr : (2 : ℤ) ^ (23 : ℕ) ≤ roundHalfEven (s / (2 : ℚ) ^ (ts - 23)) :=
      le_trans hfl (roundHalfEven_ge _)
    have hr2 : ((2 : ℚ) ^ (23 : ℕ)) ≤ (roundHalfEven (s / (2 : ℚ) ^ (ts - 23)) : ℚ) := by
      exact_mod_cast hr
    unfold roundPos
    rw [hus]
    calc g ≤ (2 : ℚ) ^ (tg + 1) := hg_up.le
      _ ≤ (2 : ℚ) ^ ts := hpow
      _ = ((2 : ℚ) ^ (23 : ℕ)) * (2 : ℚ) ^ (ts - 23) := h23.symm
      _ ≤ (roundHalfEven (s / (2 : ℚ) ^ (ts - 23)) : ℚ) * (2 : ℚ) ^ (ts - 23) :=
          mul_le_mul_of_nonneg_right hr2 hupos.le

/-- Rounding a non-negative rational gives a non-negative rational. -/
theorem roundPos_nonneg (s : ℚ) (hs : 0 ≤ s) : 0 ≤ roundPos s := by
  obtain ⟨ts, _, _, hus, _, _⟩ := ulp32_spec s
  have hupos : (0 : ℚ) < (2 : ℚ) ^ (ts - 23) := by positivity
  unfold roundPos
  rw [hus]
  have hx : (0 : ℚ) ≤ s / (2 : ℚ) ^ (ts - 23) := div_nonneg hs hupos.le
  have hfl : (0 : ℤ) ≤ ⌊s / (2 : ℚ) ^ (ts - 23)⌋ := Int.le_floor.2 (by exact_mod_cast hx)
  have hr : (0 : ℤ) ≤ roundHalfEven (s / (2 : ℚ) ^ (ts - 23)) :=
    le_trans hfl (roundHalfEven_ge _)
  have hr2 : (0 : ℚ) ≤ (roundHalfEven (s / (2 : ℚ) ^ (ts - 23)) : ℚ) := by exact_mod_cast hr
  exact mul_nonneg hr2 hupos.le

/-- Rounding is monotone against binary32 values: it does not carry a
rational past a binary32 value above it. -/
theorem round32_le_of_le (s f : ℚ) (h : s ≤ f) (hf : round32 f = f) : round32 s ≤ f := by
  by_cases hs : s < 0
  · by_cases hf0 : f < 0
    · have hfr : roundPos (-f) = -f := by
        have := hf
        unfold round32 at this
        rw [if_pos hf0] at this
        linarith
      have := le_roundPos_of_le (-f) (-s) (by linarith) hfr
      unfold round32
      rw [if_pos hs]
      linarith
    · have := roundPos_nonneg (-s) (by linarith)
      unfold round32
      rw [if_pos hs]
      linarith
  · have hf0 : ¬ (f < 0) := by linarith
    have hfr : roundPos f = f := by
      have := hf
      unfold round32 at this
      rw [if_neg hf0] at this
      exact this
    unfold round32
    rw [if_neg hs]
    exact roundPos_le_of_le s f h hfr

/-- A binary32 value below a rounded result is below the exact result. -/
theorem lt_ofRat_exact (f s : ℚ) (hf : (Float32.fin f).isValue)
    (h : (Float32.fin f).lt (Float32.ofRat s) = true) : f < s := by
  by_contra hns
  have hle : round32 s ≤ f := round32_le_of_le s f (not_lt.1 hns) hf.1
  have hmax : f ≤ maxFinite32 := le_trans (le_abs_self f) hf.2
  unfold Float32.ofRat at h
  split_ifs at h with h1 h2
  · linarith
  · simp [Float32.lt] at h
  · have : f < round32 s := by simpa [Float32.lt] using h
    linarith

/-- Nothing is above `+infinity`. -/
theorem posInf_lt (x : Float32) : Float32.posInf.lt x = false := by
  cases x <;> rfl

/-- Two coordinates that pass both comparisons of one axis of the box test
are finite. -/
theorem axis_finite (u v : Float32)
    (h1 : u.lt (v.add (Float32.fin 1)) = true)
    (h2 : (u.add (Float32.fin 1)).gt v = true) :
    ∃ p q : ℚ, u = Float32.fin p ∧ v = Float32.fin q := by
  cases u <;> cases v <;>
    (try simp only [Float32.gt, Float32.add, posInf_lt] at h1 h2) <;>
    (try simp [Float32.lt] at h1 h2 ⊢)

/-- Two binary32 coordinates that pass both comparisons of one axis of the
box test are finite and overlap exactly on that axis. -/
theorem axis_exact (u v : Float32) (hu : u.isValue) (hv : v.isValue)
    (h1 : u.lt (v.add (Float32.fin 1)) = true)
    (h2 : (u.add (Float32.fin 1)).gt v = true) :
    ∃ p q : ℚ, u = Float32.fin p ∧ v = Float32.fin q ∧ p < q + 1 ∧ p + 1 > q := by
  obtain ⟨p, q, rfl, rfl⟩ := axis_finite u v h1 h2
  refine ⟨p, q, rfl, rfl, ?_, ?_⟩
  · exact lt_ofRat_exact p (q + 1) hu (by simpa [Float32.add] using h1)
  · exact lt_ofRat_exact q (p + 1) hv (by simpa [Float32.add, Float32.gt] using h2)

/-! ## Collision resolution on `float` -/

/-- The flag `collided` on `float` is the conjunction of the four comparisons
of rounded sums. -/
theorem collided32_iff (posA posB : F32.Vector2) :
    F32.collided posA posB = true ↔
      posA.x.lt (posB.x.add (Float32.fin 1)) = true ∧
      (posA.x.add (Float32.fin 1)).gt posB.x = true ∧
      posA.y.lt (posB.y.add (Float32.fin 1)) = true ∧
      (posA.y.add (Float32.fin 1)).gt posB.y = true := by
  simp [F32.collided, and_assoc]

/-- Without overlap of the rounded boxes `checkCollision` does nothing. -/
theorem checkCollision32_of_not_collided (a b : F32.GameObject)
    (hc : F32.collided a.position b.position = false) :
    F32.checkCollision a b = { result := false, a := a, b := b, out := [] } := by
  simp [F32.checkCollision, hc]

/-- Overlapping Player / Platform on `float`: the landing branch. -/
theorem checkCollision32_player_platform (a b : F32.GameObject)
    (hc : F32.collided a.position b.position = true)
    (ha : a.kind = Kind.Player) (hb : b.kind = Kind.Platform) :
    F32.checkCollision a b =
      { result := false,
        a := { kind := a.kind,
               position := ⟨a.position.x, b.position.y.sub (Float32.fin 1)⟩,
               velocity := ⟨a.velocity.x, Float32.fin 0⟩ },
        b := b, out := [Event.landed] } := by
  simp [F32.checkCollision, hc, ha, hb, F32.GameObject.setPosition, F32.GameObject.setVelocity]

/-- Overlapping Player / Enemy on `float`: the game-over branch. -/
theorem checkCollision32_player_enemy (a b : F32.GameObject)
    (hc : F32.collided a.position b.position = true)
    (ha : a.kind = Kind.Player) (hb : b.kind = Kind.Enemy) :
    F32.checkCollision a b = { result := true, a := a, b := b, out := [Event.hitEnemy] } := by
  simp [F32.checkCollision, hc, ha, hb]

/-- Any other pair of dynamic types on `float`: nothing happens. -/
theorem checkCollision32_other_kinds (a b : F32.GameObject)
    (h1 : ¬ (a.kind = Kind.Player ∧ b.kind = Kind.Platform))
    (h2 : ¬ (a.kind = Kind.Player ∧ b.kind = Kind.Enemy)) :
    F32.checkCollision a b = { result := false, a := a, b := b, out := [] } := by
  unfold F32.checkCollision
  simp only [h1, h2, if_false, ite_self]

/-- C1 (landing resolution, amended): when the unit boxes of a Player `a`
and a Platform `b` overlap in the arithmetic of the code, where each of the
four sums is rounded to binary32, `checkCollision a b` returns false, leaves
`a` at `(a.x, b.y - 1)` (the difference rounded) with velocity `(a.vx, 0)`
and the same dynamic type, and leaves `b` unchanged; when the coordinates
are finite and the four sums and the difference are binary32 values, the
overlap of the exact boxes suffices and `a` is left at the exact
`(a.x, b.y - 1)`. -/
theorem landing_binary32 (a b : F32.GameObject)
    (ha : a.kind = Kind.Player) (hb : b.kind = Kind.Platform) :
    (a.position.x.lt (b.position.x.add (Float32.fin 1)) = true →
     (a.position.x.add (Float32.fin 1)).gt b.position.x = true →
     a.position.y.lt (b.position.y.add (Float32.fin 1)) = true →
     (a.position.y.add (Float32.fin 1)).gt b.position.y = true →
      (F32.checkCollision a b).result = false ∧
      (F32.checkCollision a b).a.position =
        ⟨a.position.x, b.position.y.sub (Float32.fin 1)⟩ ∧
      (F32.checkCollision a b).a.velocity = ⟨a.velocity.x, Float32.fin 0⟩ ∧
      (F32.checkCollision a b).a.kind = Kind.Player ∧
      (F32.checkCollision a b).b = b) ∧
    (∀ ax ay bx bY : ℚ,
      a.position = ⟨Float32.fin ax, Float32.fin ay⟩ →
      b.position = ⟨Float32.fin bx, Float32.fin bY⟩ →
      Float32.ofRat (bx + 1) = Float32.fin (bx + 1) →
      Float32.ofRat (ax + 1) = Float32.fin (ax + 1) →
      Float32.ofRat (bY + 1) = Float32.fin (bY + 1) →
      Float32.ofRat (ay + 1) = Float32.fin (ay + 1) →
      Float32.ofRat (bY - 1) = Float32.fin (bY - 1) →
      ax < bx + 1 → ax + 1 > bx → ay < bY + 1 → ay + 1 > bY →
      (F32.checkCollision a b).result = false ∧
      (F32.checkCollision a b).a.position = ⟨Float32.fin ax, Float32.fin (bY - 1)⟩ ∧
      (F32.checkCollision a b).a.velocity = ⟨a.velocity.x, Float32.fin 0⟩ ∧
      (F32.checkCollision a b).a.kind = Kind.Player ∧
      (F32.checkCollision a b).b = b) := by
  constructor
  · intro hx1 hx2 hy1 hy2
    have hc : F32.collided a.position b.position = true :=
      (collided32_iff _ _).2 ⟨hx1, hx2, hy1, hy2⟩
    rw [checkCollision32_player_platform a b hc ha hb]
    exact ⟨rfl, rfl, rfl, ha, rfl⟩
  · intro ax ay bx bY hpa hpb e1 e2 e3 e4 e5 h1 h2 h3 h4
    have hc : F32.collided a.position b.position = true := by
      rw [collided32_iff, hpa, hpb]
      simp only [Float32.add, Float32.gt, e1, e2, e3, e4, Float32.lt]
      simp [h1, h2, h3, h4]
    have hsub : (Float32.fin bY).sub (Float32.fin 1) = Float32.fin (bY - 1) := by
      simp only [Float32.sub, Float32.neg, Float32.add]
      rw [← sub_eq_add_neg, e5]
    rw [checkCollision32_player_platform a b hc ha hb]
    refine ⟨rfl, ?_, rfl, ha, rfl⟩
    show (F32.Vector2.mk a.position.x (b.position.y.sub (Float32.fin 1))) = _
    rw [hpa, hpb, hsub]

/-- C1 at the example of the specification: a Player at `(5, 6.9f)` moving
down and the Platform at `(5, 7)` give Player `y = 6` and `velocity.y = 0`;
and at a Player at `(4.5, 6.5)`, where every sum is exact. -/
theorem landing_binary32_witness :
    ((F32.checkCollision
        ⟨Kind.Player, ⟨Float32.fin 5, Float32.ofRat (69 / 10)⟩, ⟨Float32.fin 0, Float32.fin 3⟩⟩
        ⟨Kind.Platform, ⟨Float32.fin 5, Float32.fin 7⟩, ⟨Float32.fin 0, Float32.fin 0⟩⟩).result
        = false ∧
     (F32.checkCollision
        ⟨Kind.Player, ⟨Float32.fin 5, Float32.ofRat (69 / 10)⟩, ⟨Float32.fin 0, Float32.fin 3⟩⟩
        ⟨Kind.Platform, ⟨Float32.fin 5, Float32.fin 7⟩, ⟨Float32.fin 0, Float32.fin 0⟩⟩).a.position
        = ⟨Float32.fin 5, Float32.fin 6⟩ ∧
     (F32.checkCollision
        ⟨Kind.Player, ⟨Float32.fin 5, Float32.ofRat (69 / 10)⟩, ⟨Float32.fin 0, Float32.fin 3⟩⟩
        ⟨Kind.Platform, ⟨Float32.fin 5, Float32.fin 7⟩, ⟨Float32.fin 0, Float32.fin 0⟩⟩).a.velocity
        = ⟨Float32.fin 0, Float32.fin 0⟩) ∧
    (F32.checkCollision
        ⟨Kind.Player, ⟨Float32.fin (9 / 2), Float32.fin (13 / 2)⟩, ⟨Float32.fin 2, Float32.fin 1⟩⟩
        ⟨Kind.Platform, ⟨Float32.fin 4, Float32.fin 7⟩, ⟨Float32.fin 0, Float32.fin 0⟩⟩).a.position
        = ⟨Float32.fin (9 / 2), Float32.fin (7 - 1)⟩ := by
  have h1 := (landing_binary32
    ⟨Kind.Player, ⟨Float32.fin 5, Float32.ofRat (69 / 10)⟩, ⟨Float32.fin 0, Float32.fin 3⟩⟩
    ⟨Kind.Platform, ⟨Float32.fin 5, Float32.fin 7⟩, ⟨Float32.fin 0, Float32.fin 0⟩⟩ rfl rfl).1
    (by decide!) (by decide!) (by decide!) (by decide!)
  have h2 := (landing_binary32
    ⟨Kind.Player, ⟨Float32.fin (9 / 2), Float32.fin (13 / 2)⟩, ⟨Float32.fin 2, Float32.fin 1⟩⟩
    ⟨Kind.Platform, ⟨Float32.fin 4, Float32.fin 7⟩, ⟨Float32.fin 0, Float32.fin 0⟩⟩ rfl rfl).2
    (9 / 2) (13 / 2) 4 7 rfl rfl (by decide!) (by decide!) (by decide!) (by decide!) (by decide!)
    (by norm_num) (by norm_num) (by norm_num) (by norm_num)
  refine ⟨⟨h1.1, ?_, h1.2.2.1⟩, h2.2.1⟩
  rw [h1.2.1]
  decide!

/-- C1 as stated fails: the Player at `(3 + 2^-22, 6.5)` and the Platform at
`(4, 7)` hold binary32 values whose exact unit boxes overlap, but the sum
`a.x + 1` rounds to `4`, the test `a.x + 1 > b.x` fails, and `checkCollision`
leaves the Player where it is. -/
theorem landing_exact_overlap_counterexample :
    ((3 + 1 / 2 ^ 22 : ℚ) < 4 + 1 ∧ (3 + 1 / 2 ^ 22 : ℚ) + 1 > 4 ∧
     (13 / 2 : ℚ) < 7 + 1 ∧ (13 / 2 : ℚ) + 1 > 7) ∧
    ((Float32.fin (3 + 1 / 2 ^ 22)).isValue ∧ (Float32.fin (13 / 2)).isValue ∧
     (Float32.fin 4).isValue ∧ (Float32.fin 7).isValue) ∧
    (Float32.fin (3 + 1 / 2 ^ 22)).add (Float32.fin 1) = Float32.fin 4 ∧
    F32.checkCollision
        ⟨Kind.Player, ⟨Float32.fin (3 + 1 / 2 ^ 22), Float32.fin (13 / 2)⟩,
          ⟨Float32.fin 0, Float32.fin 1⟩⟩
        ⟨Kind.Platform, ⟨Float32.fin 4, Float32.fin 7⟩, ⟨Float32.fin 0, Float32.fin 0⟩⟩ =
      { result := false,
        a := ⟨Kind.Player, ⟨Float32.fin (3 + 1 / 2 ^ 22), Float32.fin (13 / 2)⟩,
          ⟨Float32.fin 0, Float32.fin 1⟩⟩,
        b := ⟨Kind.Platform, ⟨Float32.fin 4, Float32.fin 7⟩, ⟨Float32.fin 0, Float32.fin 0⟩⟩,
        out := [] } ∧
    (F32.checkCollision
        ⟨Kind.Player, ⟨Float32.fin (3 + 1 / 2 ^ 22), Float32.fin (13 / 2)⟩,
          ⟨Float32.fin 0, Float32.fin 1⟩⟩
        ⟨Kind.Platform, ⟨Float32.fin 4, Float32.fin 7⟩, ⟨Float32.fin 0, Float32.fin 0⟩⟩).a.position
      ≠ ⟨Float32.fin (3 + 1 / 2 ^ 22), Float32.fin (7 - 1)⟩ := by
  decide!

/-- C2 (game-over signal, amended): `checkCollision a b` returns true exactly
when `a` is a Player, `b` is an Enemy and their unit boxes overlap in the
arithmetic of the code, where each of the four sums is rounded to binary32;
when it returns true both objects are unchanged; and on binary32 positions
it returns true only if the positions are finite and the exact unit boxes
overlap. -/
theorem gameOver_signal_binary32 (a b : F32.GameObject) :
    ((F32.checkCollision a b).result = true ↔
      (a.kind = Kind.Player ∧ b.kind = Kind.Enemy ∧
       a.position.x.lt (b.position.x.add (Float32.fin 1)) = true ∧
       (a.position.x.add (Float32.fin 1)).gt b.position.x = true ∧
       a.position.y.lt (b.position.y.add (Float32.fin 1)) = true ∧
       (a.position.y.add (Float32.fin 1)).gt b.position.y = true)) ∧
    ((F32.checkCollision a b).result = true →
      (F32.checkCollision a b).a = a ∧ (F32.checkCollision a b).b = b) ∧
    (a.position.x.isValue → a.position.y.isValue →
     b.position.x.isValue → b.position.y.isValue →
     (F32.checkCollision a b).result = true →
      ∃ ax ay bx bY : ℚ,
        a.position = ⟨Float32.fin ax, Float32.fin ay⟩ ∧
        b.position = ⟨Float32.fin bx, Float32.fin bY⟩ ∧
        ax < bx + 1 ∧ ax + 1 > bx ∧ ay < bY + 1 ∧ ay + 1 > bY) := by
  have hexact : a.position.x.isValue → a.position.y.isValue →
      b.position.x.isValue → b.position.y.isValue →
      F32.collided a.position b.position = true →
      ∃ ax ay bx bY : ℚ,
        a.position = ⟨Float32.fin ax, Float32.fin ay⟩ ∧
        b.position = ⟨Float32.fin bx, Float32.fin bY⟩ ∧
        ax < bx + 1 ∧ ax + 1 > bx ∧ ay < bY + 1 ∧ ay + 1 > bY := by
    intro hax hay hbx hby hc
    obtain ⟨h1, h2, h3, h4⟩ := (collided32_iff _ _).1 hc
    obtain ⟨ax, bx, eax, ebx, hx1, hx2⟩ := axis_exact _ _ hax hbx h1 h2
    obtain ⟨ay, bY, eay, eby, hy1, hy2⟩ := axis_exact _ _ hay hby h3 h4
    refine ⟨ax, ay, bx, bY, ?_, ?_, hx1, hx2, hy1, hy2⟩
    · rw [← eax, ← eay]
    · rw [← ebx, ← eby]
  have hiff := collided32_iff a.position b.position
  by_cases h2 : a.kind = Kind.Player ∧ b.kind = Kind.Enemy
  · by_cases hc : F32.collided a.position b.position = true
    · rw [checkCollision32_player_enemy a b hc h2.1 h2.2]
      exact ⟨⟨fun _ => ⟨h2.1, h2.2, hiff.1 hc⟩, fun _ => rfl⟩, fun _ => ⟨rfl, rfl⟩,
        fun hax hay hbx hby _ => hexact hax hay hbx hby hc⟩
    · rw [checkCollision32_of_not_collided a b (by simpa using hc)]
      refine ⟨⟨fun h => by simp at h, fun h => absurd (hiff.2 h.2.2) hc⟩, fun h => by simp at h,
        fun _ _ _ _ h => by simp at h⟩
  · have hres : (F32.checkCollision a b).result = false := by
      by_cases h1 : a.kind = Kind.Player ∧ b.kind = Kind.Platform
      · by_cases hc : F32.collided a.position b.position = true
        · rw [checkCollision32_player_platform a b hc h1.1 h1.2]
        · rw [checkCollision32_of_not_collided a b (by simpa using hc)]
      · rw [checkCollision32_other_kinds a b h1 h2]
    rw [hres]
    exact ⟨⟨fun h => by simp at h, fun h => absurd ⟨h.1, h.2.1⟩ h2⟩, fun h => by simp at h,
      fun _ _ _ _ h => by simp at h⟩

/-- C2 at a Player at `(5, 5)` and an Enemy at `(5.5, 5)`. -/
theorem gameOver_signal_binary32_witness :
    (F32.checkCollision
      ⟨Kind.Player, ⟨Float32.fin 5, Float32.fin 5⟩, ⟨Float32.fin 0, Float32.fin 0⟩⟩
      ⟨Kind.Enemy, ⟨Float32.fin (11 / 2), Float32.fin 5⟩, ⟨Float32.fin (-1), Float32.fin 0⟩⟩).result
      = true ∧
    (F32.checkCollision
      ⟨Kind.Player, ⟨Float32.fin 5, Float32.fin 5⟩, ⟨Float32.fin 0, Float32.fin 0⟩⟩
      ⟨Kind.Enemy, ⟨Float32.fin (11 / 2), Float32.fin 5⟩, ⟨Float32.fin (-1), Float32.fin 0⟩⟩).a =
      ⟨Kind.Player, ⟨Float32.fin 5, Float32.fin 5⟩, ⟨Float32.fin 0, Float32.fin 0⟩⟩ :=
  have h := (gameOver_signal_binary32
      ⟨Kind.Player, ⟨Float32.fin 5, Float32.fin 5⟩, ⟨Float32.fin 0, Float32.fin 0⟩⟩
      ⟨Kind.Enemy, ⟨Float32.fin (11 / 2), Float32.fin 5⟩, ⟨Float32.fin (-1), Float32.fin 0⟩⟩).1.2
      ⟨rfl, rfl, by decide!, by decide!, by decide!, by decide!⟩
  ⟨h, ((gameOver_signal_binary32
      ⟨Kind.Player, ⟨Float32.fin 5, Float32.fin 5⟩, ⟨Float32.fin 0, Float32.fin 0⟩⟩
      ⟨Kind.Enemy, ⟨Float32.fin (11 / 2), Float32.fin 5⟩, ⟨Float32.fin (-1), Float32.fin 0⟩⟩).2.1
      h).1⟩

/-- C2 as stated fails in the "if" direction: the Player at `(2^-30, 5)` and
the Enemy at `(1, 5)` hold binary32 values whose exact unit boxes overlap,
but the sum `a.x + 1` rounds to `1`, the test `a.x + 1 > b.x` fails, and
`checkCollision` returns false. -/
theorem gameOver_signal_counterexample :
    ((1 / 2 ^ 30 : ℚ) < 1 + 1 ∧ (1 / 2 ^ 30 : ℚ) + 1 > 1 ∧ (5 : ℚ) < 5 + 1 ∧ (5 : ℚ) + 1 > 5) ∧
    ((Float32.fin (1 / 2 ^ 30)).isValue ∧ (Float32.fin 5).isValue ∧ (Float32.fin 1).isValue) ∧
    (Float32.fin (1 / 2 ^ 30)).add (Float32.fin 1) = Float32.fin 1 ∧
    (F32.checkCollision
      ⟨Kind.Player, ⟨Float32.fin (1 / 2 ^ 30), Float32.fin 5⟩, ⟨Float32.fin 0, Float32.fin 0⟩⟩
      ⟨Kind.Enemy, ⟨Float32.fin 1, Float32.fin 5⟩, ⟨Float32.fin (-1), Float32.fin 0⟩⟩).result
      = false := by
  decide!

/-! ## Integration -/

/-- After `Player::update` the position is inside the world, whatever the
starting position, velocity and `dt`. -/
theorem Player_update_inWorld (o : GameObject) (dt : ℚ) :
    inWorld (Player.update o dt).position := by
  unfold Player.update inWorld
  simp only
  split_ifs <;> simp_all

/-- Every `update` keeps the dynamic type. -/
theorem GameObject.update_kind (o : GameObject) (dt : ℚ) :
    (o.update dt).kind = o.kind := by
  unfold GameObject.update
  cases hk : o.kind
  · simp [Player.update, hk]
  · simp [Platform.update, hk]
  · simp only [Enemy.update]
    split_ifs <;> simp [hk]

/-- Repeated updates of a Player that is inside the world stay inside. -/
theorem Player_updates_inWorld (dts : List ℚ) :
    ∀ o : GameObject, o.kind = Kind.Player → inWorld o.position →
      inWorld (dts.foldl GameObject.update o).position := by
  induction dts with
  | nil => intro o _ h; simpa using h
  | cons d rest ih =>
    intro o hk _
    rw [List.foldl_cons]
    apply ih
    · rw [GameObject.update_kind, hk]
    · have : o.update d = Player.update o d := by simp [GameObject.update, hk]
      rw [this]
      exact Player_update_inWorld o d

/-! ## What no operation changes -/

/-- A left fold keeps every property that each step keeps. -/
theorem foldl_keeps {σ ι : Type} (P : σ → Prop) (f : σ → ι → σ)
    (hf : ∀ s x, P s → P (f s x)) (l : List ι) :
    ∀ s, P s → P (l.foldl f s) := by
  induction l with
  | nil => intro s hs; simpa using hs
  | cons x rest ih => intro s hs; exact ih _ (hf s x hs)

/-- Writing back an equal value leaves a list as it is. -/
theorem set_same {α : Type} (l : List α) (i : Nat) (v : α) (h : l[i]? = some v) :
    l.set i v = l := by
  induction l generalizing i with
  | nil => simp
  | cons x rest ih =>
    cases i with
    | zero => simp at h; simp [h]
    | succ n => simp at h; simp [ih n h]

/-- Replacing an object by one with the same static view keeps the views. -/
theorem map_staticView_set (objs : List GameObject) (i : Nat) (x y : GameObject)
    (hx : objs[i]? = some x) (hv : staticView y = staticView x) :
    (objs.set i y).map staticView = objs.map staticView := by
  rw [List.map_set, hv]
  apply set_same
  simp [hx]

theorem staticView_applyPhysics (o : GameObject) (dt : ℚ) :
    staticView (applyPhysics o dt) = staticView o := by
  unfold applyPhysics
  by_cases h : o.kind = Kind.Platform
  · simp [h]
  · simp [h, staticView, GameObject.setVelocity, GameObject.setPosition]

theorem staticView_update (o : GameObject) (dt : ℚ) :
    staticView (o.update dt) = staticView o := by
  unfold GameObject.update
  cases hk : o.kind
  · simp [Player.update, staticView, hk]
  · simp [Platform.update]
  · simp only [Enemy.update]
    split_ifs <;> simp [staticView, hk]

/-- The second argument of `checkCollision` is never written. -/
theorem checkCollision_b (a b : GameObject) : (checkCollision a b).b = b := by
  simp only [checkCollision]
  split_ifs <;> rfl

/-- The first argument of `checkCollision` keeps its static view: it is
written only when it is a Player. -/
theorem staticView_checkCollision_a (a b : GameObject) :
    staticView (checkCollision a b).a = staticView a := by
  simp only [checkCollision]
  split_ifs with h1 h2
  · simp [staticView, GameObject.setVelocity, GameObject.setPosition, h2.1]
  · rfl
  · rfl
  · rfl

/-- An intent applied to a Player keeps the static view. -/
theorem staticView_of_velocity (p q : GameObject) (hp : p.kind = Kind.Player)
    (hk : q.kind = p.kind) : staticView q = staticView p := by
  simp [staticView, hk, hp]

/-! ## The collision pass -/

/-- Once `break` has been taken the inner loop does nothing more. -/
theorem innerBody_broke (i j : Nat) (st : PassState) :
    innerBody i (st, true) j = (st, true) := by
  simp [innerBody]

/-- One executed iteration of the inner loop, in terms of the call
`checkCollision a b` it makes. -/
theorem innerBody_run (i j : Nat) (st : PassState) (a b : GameObject)
    (ha : st.objects[i]? = some a) (hb : st.objects[j]? = some b) :
    innerBody i (st, false) j =
      ({ objects := (st.objects.set i (checkCollision a b).a).set j b,
         gameOver := st.gameOver || (checkCollision a b).result,
         out := st.out ++ (checkCollision a b).out,
         calls := st.calls ++ [(i, j)] },
       (checkCollision a b).result) := by
  simp only [innerBody, ha, hb, checkCollision_b]
  cases hr : (checkCollision a b).result
  · simp
  · obtain ⟨hka, hkb, hsame⟩ := checkCollision_result_true a b hr
    simp [hsame, hka, hkb]

/-- An index outside the vector: the iteration does nothing. -/
theorem innerBody_skip (i j : Nat) (acc : PassState × Bool)
    (h : acc.1.objects[i]? = none ∨ acc.1.objects[j]? = none) :
    innerBody i acc j = acc := by
  unfold innerBody
  split_ifs
  · rfl
  · rcases h with h | h
    · simp [h]
    · cases hi : acc.1.objects[i]? <;> simp [h]

/-- Case analysis of one iteration of the inner loop. -/
theorem innerBody_cases (i j : Nat) (acc : PassState × Bool) :
    innerBody i acc j = acc ∨
    ∃ a b, acc.1.objects[i]? = some a ∧ acc.1.objects[j]? = some b ∧ acc.2 = false ∧
      innerBody i acc j =
        ({ objects := (acc.1.objects.set i (checkCollision a b).a).set j b,
           gameOver := acc.1.gameOver || (checkCollision a b).result,
           out := acc.1.out ++ (checkCollision a b).out,
           calls := acc.1.calls ++ [(i, j)] },
         (checkCollision a b).result) := by
  obtain ⟨st, broke⟩ := acc
  cases broke
  · cases ha : st.objects[i]? with
    | none => exact Or.inl (innerBody_skip i j _ (Or.inl ha))
    | some a =>
      cases hb : st.objects[j]? with
      | none => exact Or.inl (innerBody_skip i j _ (Or.inr hb))
      | some b => exact Or.inr ⟨a, b, rfl, rfl, rfl, innerBody_run i j st a b ha hb⟩
  · exact Or.inl (innerBody_broke i j st)

/-- The inner loop keeps a property that every iteration keeps. -/
theorem innerLoop_keeps (P : PassState → Prop)
    (hP : ∀ i j acc, P acc.1 → P (innerBody i acc j).1) (st : PassState) (i : Nat)
    (h : P st) : P (innerLoop st i) := by
  unfold innerLoop
  exact foldl_keeps (fun acc => P acc.1) (innerBody i) (fun acc j hacc => hP i j acc hacc) _ (st, false) h

/-- The collision pass keeps a property that every iteration of its inner
loop keeps. -/
theorem collisionPass_keeps (P : PassState → Prop)
    (hP : ∀ i j acc, P acc.1 → P (innerBody i acc j).1)
    (objects : List GameObject) (gameOver : Bool)
    (h : P { objects := objects, gameOver := gameOver, out := [], calls := [] }) :
    P (collisionPass objects gameOver) := by
  unfold collisionPass
  exact foldl_keeps P innerLoop (fun st i hst => innerLoop_keeps P hP st i hst) _ _ h

/-- The collision pass changes no static view. -/
theorem collisionPass_staticView (objects : List GameObject) (gameOver : Bool) :
    (collisionPass objects gameOver).objects.map staticView = objects.map staticView := by
  apply collisionPass_keeps (fun st => st.objects.map staticView = objects.map staticView)
  · intro i j acc hacc
    rcases innerBody_cases i j acc with h | ⟨a, b, ha, hb, _, h⟩
    · rw [h]; exact hacc
    · rw [h]
      simp only [List.map_set, staticView_checkCollision_a, hacc]
      rw [← hacc, set_same _ i _ (by simp [ha]), set_same _ j _ (by simp [hb])]
  · rfl

/-! ## Command dispatch -/

/-- The search loop returns the index of a Player with no Player before it. -/
theorem findPlayer_some (objs : List GameObject) :
    ∀ k, findPlayer objs = some k →
      ∃ p, objs[k]? = some p ∧ p.kind = Kind.Player ∧
        ∀ i, i < k → ∀ o, objs[i]? = some o → o.kind ≠ Kind.Player := by
  induction objs with
  | nil => intro k h; simp [findPlayer] at h
  | cons x rest ih =>
    intro k h
    by_cases hx : x.kind = Kind.Player
    · simp [findPlayer, hx] at h
      subst h
      exact ⟨x, by simp, hx, fun i hi => absurd hi (Nat.not_lt_zero i)⟩
    · simp [findPlayer, hx] at h
      obtain ⟨k0, hk0, rfl⟩ := h
      obtain ⟨p, hp, hpk, hbefore⟩ := ih k0 hk0
      refine ⟨p, by simpa using hp, hpk, ?_⟩
      intro i hi o ho
      cases i with
      | zero => simp at ho; subst ho; exact hx
      | succ n => exact hbefore n (by omega) o (by simpa using ho)

/-- The search loop fails only when the vector holds no Player. -/
theorem findPlayer_none (objs : List GameObject) :
    findPlayer objs = none → ∀ o ∈ objs, o.kind ≠ Kind.Player := by
  induction objs with
  | nil => intro _ o ho; simp at ho
  | cons x rest ih =>
    intro h o ho
    by_cases hx : x.kind = Kind.Player
    · simp [findPlayer, hx] at h
    · simp [findPlayer, hx] at h
      rcases List.mem_cons.1 ho with rfl | hmem
      · exact hx
      · exact ih h o hmem

/-- In the menu, `s` installs a fresh game scene (lines 206-208). -/
theorem dispatch_menu_start (g : Game) (sc : Scene)
    (hsc : g.sceneManager.currentScene = some sc) (hk : sc.kind = SceneKind.MenuScene) :
    dispatch g 's' =
      (Flow.next, { g with sceneManager := { currentScene := some GameScene.new } }) := by
  simp [dispatch, SceneManager.getCurrentScene, hsc, hk, SceneManager.setScene]

/-- In the menu, `q` leaves the loop (lines 209-211). -/
theorem dispatch_menu_quit (g : Game) (sc : Scene)
    (hsc : g.sceneManager.currentScene = some sc) (hk : sc.kind = SceneKind.MenuScene) :
    dispatch g 'q' = (Flow.brk, g) := by
  simp [dispatch, SceneManager.getCurrentScene, hsc, hk]

/-- In the menu, any other command does nothing. -/
theorem dispatch_menu_other (g : Game) (sc : Scene) (c : Char)
    (hsc : g.sceneManager.currentScene = some sc) (hk : sc.kind = SceneKind.MenuScene)
    (hs : c ≠ 's') (hq : c ≠ 'q') :
    dispatch g c = (Flow.next, g) := by
  simp [dispatch, SceneManager.getCurrentScene, hsc, hk, hs, hq]

/-- In a game scene without Player every command is dropped (line 222). -/
theorem dispatch_game_noPlayer (g : Game) (sc : Scene) (c : Char)
    (hsc : g.sceneManager.currentScene = some sc) (hk : sc.kind = SceneKind.GameScene)
    (hf : findPlayer sc.objects = none) :
    dispatch g c = (Flow.next, g) := by
  simp [dispatch, SceneManager.getCurrentScene, hsc, hk, hf]

/-- In a game scene with a Player, `q` leaves the loop (line 226). -/
theorem dispatch_game_quit (g : Game) (sc : Scene) (k : Nat) (p : GameObject)
    (hsc : g.sceneManager.currentScene = some sc) (hk : sc.kind = SceneKind.GameScene)
    (hf : findPlayer sc.objects = some k) (hp : sc.objects[k]? = some p) :
    dispatch g 'q' = (Flow.brk, g) := by
  simp [dispatch, SceneManager.getCurrentScene, hsc, hk, hf, hp]

/-- In a game scene with a Player, a command other than `q` calls one of the
four intents on the first Player (lines 223-227). -/
theorem dispatch_game_intent (g : Game) (sc : Scene) (k : Nat) (p : GameObject) (c : Char)
    (hsc : g.sceneManager.currentScene = some sc) (hk : sc.kind = SceneKind.GameScene)
    (hf : findPlayer sc.objects = some k) (hp : sc.objects[k]? = some p) (hq : c ≠ 'q') :
    dispatch g c =
      (Flow.next, setPlayer g sc k
        (if c = 'w' then Player.jump p
         else if c = 'a' then Player.moveLeft p
         else if c = 'd' then Player.moveRight p
         else Player.stopHorizontal p)) := by
  simp only [dispatch, SceneManager.getCurrentScene, hsc, hk, hf, hp, hq, if_false]
  split_ifs <;> rfl

/-- Case analysis of the command dispatch: nothing happens, or the loop is
left with the state untouched, or the menu is replaced by a fresh game
scene, or the first Player receives an intent that keeps its position. -/
theorem dispatch_cases (g : Game) (c : Char) :
    dispatch g c = (Flow.next, g) ∨
    dispatch g c = (Flow.brk, g) ∨
    (∃ sc, g.sceneManager.currentScene = some sc ∧ sc.kind = SceneKind.MenuScene ∧
      dispatch g c = (Flow.next, { g with sceneManager := { currentScene := some GameScene.new } })) ∨
    (∃ sc k p q, g.sceneManager.currentScene = some sc ∧ sc.kind = SceneKind.GameScene ∧
      sc.objects[k]? = some p ∧ p.kind = Kind.Player ∧
      q.kind = Kind.Player ∧ q.position = p.position ∧
      dispatch g c = (Flow.next, setPlayer g sc k q)) := by
  cases hsc : g.sceneManager.currentScene with
  | none => exact Or.inl (by simp [dispatch, SceneManager.getCurrentScene, hsc])
  | some sc =>
    cases hk : sc.kind with
    | MenuScene =>
      by_cases hs : c = 's'
      · subst hs
        exact Or.inr (Or.inr (Or.inl ⟨sc, rfl, hk, dispatch_menu_start g sc hsc hk⟩))
      · by_cases hq : c = 'q'
        · subst hq
          exact Or.inr (Or.inl (dispatch_menu_quit g sc hsc hk))
        · exact Or.inl (dispatch_menu_other g sc c hsc hk hs hq)
    | GameScene =>
      cases hf : findPlayer sc.objects with
      | none => exact Or.inl (dispatch_game_noPlayer g sc c hsc hk hf)
      | some k =>
        obtain ⟨p, hp, hpk, _⟩ := findPlayer_some sc.objects k hf
        by_cases hq : c = 'q'
        · subst hq
          exact Or.inr (Or.inl (dispatch_game_quit g sc k p hsc hk hf hp))
        · refine Or.inr (Or.inr (Or.inr ⟨sc, k, p, _, rfl, hk, hp, hpk, ?_, ?_,
            dispatch_game_intent g sc k p c hsc hk hf hp hq⟩))
          · split_ifs <;> simpa [Player.jump, Player.moveLeft, Player.moveRight,
              Player.stopHorizontal] using hpk
          · split_ifs <;> simp [Player.jump, Player.moveLeft, Player.moveRight,
              Player.stopHorizontal]

/-! ## One frame -/

/-- Lines 231-250 on a game scene: physics on every object, the collision
pass, `update` on every object, render. -/
theorem frame_game (g : Game) (sc : Scene)
    (hsc : g.sceneManager.currentScene = some sc) (hk : sc.kind = SceneKind.GameScene) :
    updateAndRender (simulate g) =
      { sceneManager :=
          { currentScene := some
              { sc with
                objects := List.map (fun obj => obj.update frameDt)
                  (framePass sc.objects g.gameOver).objects } },
        gameOver := (framePass sc.objects g.gameOver).gameOver,
        terminated := g.terminated,
        out := g.out ++ (framePass sc.objects g.gameOver).out ++
          [Event.renderScene
            (List.map (fun obj => obj.update frameDt) (framePass sc.objects g.gameOver).objects)] } := by
  simp [updateAndRender, simulate, SceneManager.getCurrentScene, hsc, hk,
    SceneManager.update, SceneManager.render, Scene.update, Scene.render]

/-- Lines 231-250 on a menu scene: only `MenuScene::update` and the menu render. -/
theorem frame_menu (g : Game) (sc : Scene)
    (hsc : g.sceneManager.currentScene = some sc) (hk : sc.kind = SceneKind.MenuScene) :
    updateAndRender (simulate g) =
      { g with sceneManager := { currentScene := some (MenuScene.update sc frameDt) },
               out := g.out ++ [Event.renderMenu] } := by
  simp [updateAndRender, simulate, SceneManager.getCurrentScene, hsc, hk,
    SceneManager.update, SceneManager.render, Scene.update, Scene.render, MenuScene.update]

/-- The menu as constructed is a fixed point of `MenuScene::update`. -/
theorem MenuScene_update_new (dt : ℚ) : MenuScene.update MenuScene.new dt = MenuScene.new := by
  norm_num [MenuScene.update, MenuScene.new]

/-- An invalid command: the message is printed and the body is left by
`continue` (lines 200-203). -/
theorem loopBody_invalid (g : Game) (c : Char) (h : validCommand c = false) :
    loopBody g c =
      (Flow.cont, { g with out := g.out ++ [Event.commandRequest, Event.invalidCommand] }) := by
  simp [loopBody, h]

/-- A valid command on which dispatch does not `break`: the frame is simulated. -/
theorem loopBody_next (g g1 : Game) (c : Char) (h : validCommand c = true)
    (hd : dispatch { g with out := g.out ++ [Event.commandRequest] } c = (Flow.next, g1)) :
    loopBody g c = (Flow.next, updateAndRender (simulate g1)) := by
  simp [loopBody, h, hd]

/-- A valid command on which dispatch takes `break`. -/
theorem loopBody_brk (g g1 : Game) (c : Char) (h : validCommand c = true)
    (hd : dispatch { g with out := g.out ++ [Event.commandRequest] } c = (Flow.brk, g1)) :
    loopBody g c = (Flow.brk, g1) := by
  simp [loopBody, h, hd]

/-- A frame of a game scene re-establishes `sceneOK` from the static views alone. -/
theorem sceneOK_frame (sc : Scene) (gameOver : Bool)
    (hk : sc.kind = SceneKind.GameScene)
    (hv : sc.objects.map staticView = GameScene.new.objects.map staticView) :
    sceneOK
      { sc with
        objects := List.map (fun obj => obj.update frameDt)
          (framePass sc.objects gameOver).objects } := by
  refine Or.inr ⟨hk, ?_, ?_⟩
  · intro o ho hko
    obtain ⟨o0, _, rfl⟩ := List.mem_map.1 ho
    have hk0 : o0.kind = Kind.Player := by rw [← GameObject.update_kind o0 frameDt]; exact hko
    have : o0.update frameDt = Player.update o0 frameDt := by simp [GameObject.update, hk0]
    rw [this]
    exact Player_update_inWorld o0 frameDt
  · simp only [List.map_map, framePass]
    have h1 : (staticView ∘ fun obj => GameObject.update obj frameDt) = staticView := by
      funext o; exact staticView_update o frameDt
    rw [h1, collisionPass_staticView, List.map_map]
    have h2 : (staticView ∘ fun obj => applyPhysics obj frameDt) = staticView := by
      funext o; exact staticView_applyPhysics o frameDt
    rw [h2, hv]

/-! ## Invariants of the loop -/

/-- A body left normally or by `continue`: the loop goes on unless
`gameOver` has been set. -/
theorem step_of_next (g g2 : Game) (c : Char) (ht : g.terminated = false)
    (h : loopBody g c = (Flow.next, g2) ∨ loopBody g c = (Flow.cont, g2)) :
    step g c = if g2.gameOver then leave g2 else g2 := by
  rcases h with h | h <;> simp [step, ht, h]

/-- A body left by `break`: the loop is left. -/
theorem step_of_brk (g g2 : Game) (c : Char) (ht : g.terminated = false)
    (h : loopBody g c = (Flow.brk, g2)) :
    step g c = leave g2 := by
  simp [step, ht, h]

/-- The test of line 193 after a body: `gameOK` holds once the scene is fine. -/
theorem gameOK_of_scene (g2 : Game) (sc : Scene)
    (hsc : g2.sceneManager.currentScene = some sc) (hok : sceneOK sc) :
    gameOK (if g2.gameOver then leave g2 else g2) := by
  cases hgo : g2.gameOver
  · exact ⟨fun _ => hgo, sc, hsc, hok⟩
  · exact ⟨fun h => by simp [leave] at h, sc, hsc, hok⟩

/-- The simulated part of a frame re-establishes `gameOK` when the scene it
starts from is the menu as constructed or a game scene with the static views
of a fresh one. -/
theorem frame_gameOK (g1 : Game) (sc1 : Scene)
    (hsc : g1.sceneManager.currentScene = some sc1)
    (h : sc1 = MenuScene.new ∨
      (sc1.kind = SceneKind.GameScene ∧
       sc1.objects.map staticView = GameScene.new.objects.map staticView)) :
    gameOK (if (updateAndRender (simulate g1)).gameOver
      then leave (updateAndRender (simulate g1)) else updateAndRender (simulate g1)) := by
  rcases h with h | ⟨hk, hv⟩
  · apply gameOK_of_scene _ MenuScene.new
    · rw [frame_menu g1 sc1 hsc (by rw [h]; rfl), h, MenuScene_update_new]
    · exact Or.inl rfl
  · apply gameOK_of_scene _ _ _ (sceneOK_frame sc1 g1.gameOver hk hv)
    rw [frame_game g1 sc1 hsc hk]

/-- Every command keeps `gameOK`. -/
theorem step_gameOK (g : Game) (c : Char) (h : gameOK g) : gameOK (step g c) := by
  cases ht : g.terminated
  swap
  · simpa [step, ht] using h
  obtain ⟨hgo, sc, hsc, hok⟩ := h
  have hgo := hgo ht
  cases hv : validCommand c
  · rw [step_of_next g _ c ht (Or.inr (loopBody_invalid g c hv))]
    simp only [hgo, Bool.false_eq_true, if_false]
    exact ⟨fun _ => rfl, sc, hsc, hok⟩
  · have hweak : sc = MenuScene.new ∨
        (sc.kind = SceneKind.GameScene ∧
         sc.objects.map staticView = GameScene.new.objects.map staticView) := by
      rcases hok with hm | ⟨hk, _, hview⟩
      · exact Or.inl hm
      · exact Or.inr ⟨hk, hview⟩
    rcases dispatch_cases { g with out := g.out ++ [Event.commandRequest] } c with
      hd | hd | ⟨sc0, hsc0, hk0, hd⟩ | ⟨sc0, k, p, q, hsc0, hk0, hp, hpk, hqk, _, hd⟩
    · rw [step_of_next g _ c ht (Or.inl (loopBody_next g _ c hv hd))]
      exact frame_gameOK _ sc hsc hweak
    · rw [step_of_brk g _ c ht (loopBody_brk g _ c hv hd)]
      exact ⟨fun h => by simp [leave] at h, sc, hsc, hok⟩
    · rw [step_of_next g _ c ht (Or.inl (loopBody_next g _ c hv hd))]
      exact frame_gameOK _ GameScene.new rfl (Or.inr ⟨rfl, rfl⟩)
    · rw [step_of_next g _ c ht (Or.inl (loopBody_next g _ c hv hd))]
      have hsame : sc0 = sc := by
        have : some sc0 = some sc := by rw [← hsc0]; exact hsc
        exact Option.some.inj this
      subst hsame
      have hview : sc0.objects.map staticView = GameScene.new.objects.map staticView := by
        rcases hweak with hm | ⟨_, hview⟩
        · rw [hm] at hk0; exact absurd hk0 (by simp [MenuScene.new])
        · exact hview
      refine frame_gameOK _ { sc0 with objects := sc0.objects.set k q } rfl (Or.inr ⟨hk0, ?_⟩)
      show (sc0.objects.set k q).map staticView = _
      rw [map_staticView_set sc0.objects k p q hp (staticView_of_velocity p q hpk (by rw [hqk, hpk])),
        hview]

/-- Every state reached by the program satisfies `gameOK`. -/
theorem run_gameOK (inputs : List Char) : gameOK (run inputs) := by
  unfold run
  apply foldl_keeps gameOK step step_gameOK
  exact ⟨fun _ => rfl, MenuScene.new, rfl, Or.inl rfl⟩

/-- Without a current scene a frame changes nothing. -/
theorem frame_none (g : Game) (hsc : g.sceneManager.currentScene = none) :
    updateAndRender (simulate g) = g := by
  simp [updateAndRender, simulate, SceneManager.getCurrentScene, hsc,
    SceneManager.update, SceneManager.render]

/-- A body that is left normally has run the simulated part of the frame on
the state left by the command dispatch. -/
theorem loopBody_next_inv (g g2 : Game) (c : Char) (h : loopBody g c = (Flow.next, g2)) :
    validCommand c = true ∧
    g2 = updateAndRender (simulate (dispatch { g with out := g.out ++ [Event.commandRequest] } c).2) := by
  cases hv : validCommand c
  · rw [loopBody_invalid g c hv] at h
    simp at h
  · refine ⟨rfl, ?_⟩
    cases hd : dispatch { g with out := g.out ++ [Event.commandRequest] } c with
    | mk fl g1 =>
      cases fl
      · rw [loopBody_next g g1 c hv hd] at h
        exact (congrArg Prod.snd h).symm
      · simp [loopBody, hv, hd] at h
        exact h.symm
      · rw [loopBody_brk g g1 c hv hd] at h
        simp at h

/-- After the simulated part of a frame every Player of a game scene is
inside the world. -/
theorem frame_players_inWorld (g1 : Game) (sc2 : Scene)
    (hsc2 : (updateAndRender (simulate g1)).sceneManager.currentScene = some sc2)
    (hk2 : sc2.kind = SceneKind.GameScene) :
    ∀ r ∈ sc2.objects, r.kind = Kind.Player → inWorld r.position := by
  cases hsc : g1.sceneManager.currentScene with
  | none =>
    rw [frame_none g1 hsc, hsc] at hsc2
    exact absurd hsc2 (by simp)
  | some sc1 =>
    cases hk : sc1.kind with
    | MenuScene =>
      rw [frame_menu g1 sc1 hsc hk] at hsc2
      have h2 : MenuScene.update sc1 frameDt = sc2 := Option.some.inj hsc2
      have h3 : sc2.kind = SceneKind.MenuScene := by rw [← h2]; simpa [MenuScene.update] using hk
      rw [h3] at hk2
      exact absurd hk2 (by decide)
    | GameScene =>
      rw [frame_game g1 sc1 hsc hk] at hsc2
      have h2 := Option.some.inj hsc2
      intro r hr hrk
      rw [← h2] at hr
      obtain ⟨o0, _, rfl⟩ := List.mem_map.1 hr
      have hk0 : o0.kind = Kind.Player := by rw [← GameObject.update_kind o0 frameDt]; exact hrk
      have : o0.update frameDt = Player.update o0 frameDt := by simp [GameObject.update, hk0]
      rw [this]
      exact Player_update_inWorld o0 frameDt

/-! ## Clamping and bounce on `float` -/

/-- The two clamps of one coordinate in `Player::update` leave a finite
value between 0 and 9, unless the coordinate is NaN. -/
theorem clamp32_finite (v : Float32) (hv : v ≠ Float32.nan) :
    ∃ t : ℚ, 0 ≤ t ∧ t ≤ 9 ∧
      (if (if v.lt (Float32.fin 0) then Float32.fin 0 else v).gt (Float32.fin 9) then Float32.fin 9
       else (if v.lt (Float32.fin 0) then Float32.fin 0 else v)) = Float32.fin t := by
  cases v with
  | nan => exact absurd rfl hv
  | negInf => exact ⟨0, le_refl _, by norm_num, by simp [Float32.lt, Float32.gt]⟩
  | posInf => exact ⟨9, by norm_num, le_refl _, by simp [Float32.lt, Float32.gt]⟩
  | fin q =>
    by_cases h0 : q < 0
    · exact ⟨0, le_refl _, by norm_num, by simp [Float32.lt, Float32.gt, h0]⟩
    · by_cases h9 : 9 < q
      · exact ⟨9, by norm_num, le_refl _, by simp [Float32.lt, Float32.gt, h0, h9]⟩
      · exact ⟨q, not_lt.1 h0, not_lt.1 h9, by simp [Float32.lt, Float32.gt, h0, h9]⟩

/-- The position left by `Player::update` on `float`, coordinate by coordinate. -/
theorem Player_update32_position (o : F32.GameObject) (dt : Float32) :
    (F32.Player.update o dt).position =
      ⟨(if (if (o.position.add (o.velocity.mul dt)).x.lt (Float32.fin 0) then Float32.fin 0
            else (o.position.add (o.velocity.mul dt)).x).gt (Float32.fin 9) then Float32.fin 9
        else (if (o.position.add (o.velocity.mul dt)).x.lt (Float32.fin 0) then Float32.fin 0
            else (o.position.add (o.velocity.mul dt)).x)),
       (if (if (o.position.add (o.velocity.mul dt)).y.lt (Float32.fin 0) then Float32.fin 0
            else (o.position.add (o.velocity.mul dt)).y).gt (Float32.fin 9) then Float32.fin 9
        else (if (o.position.add (o.velocity.mul dt)).y.lt (Float32.fin 0) then Float32.fin 0
            else (o.position.add (o.velocity.mul dt)).y))⟩ := by
  unfold F32.Player.update
  simp only
  split_ifs <;> rfl

/-- A product of finite values is not NaN. -/
theorem mul_fin_ne_nan (a b : ℚ) : (Float32.fin a).mul (Float32.fin b) ≠ Float32.nan := by
  simpa [Float32.mul] using ofRat_ne_nan (a * b)

/-- With finite position, velocity and `dt`, `Player::update` on `float`
leaves a finite position inside the world and keeps the velocity. -/
theorem Player_update32_finite (o : F32.GameObject) (px py vx vy dt : ℚ)
    (hp : o.position = ⟨Float32.fin px, Float32.fin py⟩)
    (hv : o.velocity = ⟨Float32.fin vx, Float32.fin vy⟩) :
    ∃ x y : ℚ, (0 ≤ x ∧ x ≤ 9 ∧ 0 ≤ y ∧ y ≤ 9) ∧
      (F32.Player.update o (Float32.fin dt)).position = ⟨Float32.fin x, Float32.fin y⟩ ∧
      (F32.Player.update o (Float32.fin dt)).velocity = ⟨Float32.fin vx, Float32.fin vy⟩ := by
  have hx : (o.position.add (o.velocity.mul (Float32.fin dt))).x ≠ Float32.nan := by
    rw [hp, hv]
    exact add_fin_ne_nan px _ (mul_fin_ne_nan vx dt)
  have hy : (o.position.add (o.velocity.mul (Float32.fin dt))).y ≠ Float32.nan := by
    rw [hp, hv]
    exact add_fin_ne_nan py _ (mul_fin_ne_nan vy dt)
  obtain ⟨x, hx0, hx9, hxe⟩ := clamp32_finite _ hx
  obtain ⟨y, hy0, hy9, hye⟩ := clamp32_finite _ hy
  refine ⟨x, y, ⟨hx0, hx9, hy0, hy9⟩, ?_, ?_⟩
  · rw [Player_update32_position, hxe, hye]
  · rw [← hv]; rfl

/-- A finite position with coordinates between 0 and 9 is inside the world. -/
theorem inWorld32_fin (x y : ℚ) (h : 0 ≤ x ∧ x ≤ 9 ∧ 0 ≤ y ∧ y ≤ 9) :
    F32.inWorld ⟨Float32.fin x, Float32.fin y⟩ = true := by
  simp [F32.inWorld, Float32.le, h.1, h.2.1, h.2.2.1, h.2.2.2]

/-- Repeated `Player::update` on `float` with finite `dt`s from a finite
state inside the world stays finite and inside the world. -/
theorem Player_updates32_finite (dts : List ℚ) :
    ∀ (o : F32.GameObject) (x y vx vy : ℚ),
      (0 ≤ x ∧ x ≤ 9 ∧ 0 ≤ y ∧ y ≤ 9) →
      o.position = ⟨Float32.fin x, Float32.fin y⟩ →
      o.velocity = ⟨Float32.fin vx, Float32.fin vy⟩ →
      F32.inWorld (dts.foldl (fun p d => F32.Player.update p (Float32.fin d)) o).position
        = true := by
  induction dts with
  | nil =>
    intro o x y vx vy h hp _
    rw [List.foldl_nil, hp]
    exact inWorld32_fin x y h
  | cons d rest ih =>
    intro o x y vx vy _ hp hv
    rw [List.foldl_cons]
    obtain ⟨x1, y1, hin, hp1, hv1⟩ := Player_update32_finite o x y vx vy d hp hv
    exact ih _ x1 y1 vx vy hin hp1 hv1

/-- C4 (clamping, amended): whatever its finite position, finite velocity and
finite `dt` (of any sign), also when a product or sum overflows to an
infinity, a Player is inside `[0,9] x [0,9]` after `update` on `float`,
hence after any positive number of updates; and, in exact arithmetic, after
every completed frame of a game scene every Player is inside, from any loop
state, and along every run of the program every Player of the active scene
is inside. -/
theorem Player_clamped_finite (o : F32.GameObject) (px py vx vy dt : ℚ) (dts : List ℚ)
    (g g2 : Game) (c : Char) (sc2 : Scene) (r : GameObject)
    (inputs : List Char) (sc : Scene) (q : GameObject)
    (hp : o.position = ⟨Float32.fin px, Float32.fin py⟩)
    (hv : o.velocity = ⟨Float32.fin vx, Float32.fin vy⟩)
    (hbody : loopBody g c = (Flow.next, g2))
    (hsc2 : g2.sceneManager.currentScene = some sc2) (hk2 : sc2.kind = SceneKind.GameScene)
    (hr : r ∈ sc2.objects) (hrk : r.kind = Kind.Player)
    (hsc : (run inputs).sceneManager.currentScene = some sc)
    (hq : q ∈ sc.objects) (hqk : q.kind = Kind.Player) :
    F32.inWorld (F32.Player.update o (Float32.fin dt)).position = true ∧
    (∃ x y : ℚ, (0 ≤ x ∧ x ≤ 9 ∧ 0 ≤ y ∧ y ≤ 9) ∧
      (F32.Player.update o (Float32.fin dt)).position = ⟨Float32.fin x, Float32.fin y⟩) ∧
    (F32.Player.update o (Float32.fin dt)).velocity = o.velocity ∧
    F32.inWorld ((dt :: dts).foldl (fun p d => F32.Player.update p (Float32.fin d)) o).position
      = true ∧
    inWorld r.position ∧
    inWorld q.position := by
  obtain ⟨x1, y1, hin, hp1, hv1⟩ := Player_update32_finite o px py vx vy dt hp hv
  refine ⟨?_, ⟨x1, y1, hin, hp1⟩, by rw [hv1, hv], ?_, ?_, ?_⟩
  · rw [hp1]; exact inWorld32_fin x1 y1 hin
  · rw [List.foldl_cons]
    exact Player_updates32_finite dts _ x1 y1 vx vy hin hp1 hv1
  · obtain ⟨_, hg2⟩ := loopBody_next_inv g g2 c hbody
    rw [hg2] at hsc2
    exact frame_players_inWorld _ sc2 hsc2 hk2 r hr hrk
  · obtain ⟨_, sc0, hsc0, hok⟩ := run_gameOK inputs
    have hsame : sc0 = sc := Option.some.inj (by rw [← hsc0]; exact hsc)
    subst hsame
    rcases hok with hm | ⟨_, hin, _⟩
    · rw [hm] at hq
      simp [MenuScene.new] at hq
    · exact hin q hq hqk

/-- C4 at a Player far outside the world with negative `dt`, at a Player
whose product `velocity * dt` overflows, at a frame of a game scene whose
Player starts outside the world, and after the run `s`, `d`. -/
theorem Player_clamped_finite_witness :
    (F32.inWorld (F32.Player.update
        ⟨Kind.Player, ⟨Float32.fin 100, Float32.fin (-3)⟩, ⟨Float32.fin 1, Float32.fin 1⟩⟩
        (Float32.fin (-2))).position = true ∧
     F32.inWorld (((-2 : ℚ) :: [7, 1 / 2]).foldl
        (fun p d => F32.Player.update p (Float32.fin d))
        ⟨Kind.Player, ⟨Float32.fin 100, Float32.fin (-3)⟩, ⟨Float32.fin 1, Float32.fin 1⟩⟩).position
        = true ∧
     inWorld (GameObject.mk Kind.Player ⟨9, 9⟩ ⟨2, 98 / 625⟩).position ∧
     inWorld (GameObject.mk Kind.Player ⟨633 / 125, 391801 / 78125⟩ ⟨2, 196 / 625⟩).position) ∧
    F32.inWorld (F32.Player.update
        ⟨Kind.Player, ⟨Float32.fin 5, Float32.fin 5⟩,
          ⟨Float32.fin (2 ^ 127), Float32.fin (-(2 ^ 127))⟩⟩
        (Float32.fin 4)).position = true := by
  have h1 := Player_clamped_finite
    ⟨Kind.Player, ⟨Float32.fin 100, Float32.fin (-3)⟩, ⟨Float32.fin 1, Float32.fin 1⟩⟩
    100 (-3) 1 1 (-2) [7, 1 / 2]
    (Game.mk (SceneManager.mk (some (Scene.mk SceneKind.GameScene
      [GameObject.mk Kind.Player ⟨50, 50⟩ ⟨0, 0⟩] ⟨0, 0⟩))) false false [])
    (Game.mk (SceneManager.mk (some (Scene.mk SceneKind.GameScene
      [GameObject.mk Kind.Player ⟨9, 9⟩ ⟨2, 98 / 625⟩] ⟨0, 0⟩))) false false
      [Event.commandRequest, Event.renderScene [GameObject.mk Kind.Player ⟨9, 9⟩ ⟨2, 98 / 625⟩]])
    'd'
    (Scene.mk SceneKind.GameScene [GameObject.mk Kind.Player ⟨9, 9⟩ ⟨2, 98 / 625⟩] ⟨0, 0⟩)
    (GameObject.mk Kind.Player ⟨9, 9⟩ ⟨2, 98 / 625⟩)
    ['s', 'd']
    (Scene.mk SceneKind.GameScene
      [GameObject.mk Kind.Player ⟨633 / 125, 391801 / 78125⟩ ⟨2, 196 / 625⟩,
        Platform.new 4 7, Platform.new 5 7, Platform.new 6 7,
        GameObject.mk Kind.Enemy ⟨992 / 125, 469926 / 78125⟩ ⟨-1, 196 / 625⟩] ⟨0, 0⟩)
    (GameObject.mk Kind.Player ⟨633 / 125, 391801 / 78125⟩ ⟨2, 196 / 625⟩)
    rfl rfl (by decide!) rfl rfl (by simp) rfl (by decide!) (by simp) rfl
  have h2 := Player_clamped_finite
    ⟨Kind.Player, ⟨Float32.fin 5, Float32.fin 5⟩,
      ⟨Float32.fin (2 ^ 127), Float32.fin (-(2 ^ 127))⟩⟩
    5 5 (2 ^ 127) (-(2 ^ 127)) 4 []
    (Game.mk (SceneManager.mk (some (Scene.mk SceneKind.GameScene
      [GameObject.mk Kind.Player ⟨50, 50⟩ ⟨0, 0⟩] ⟨0, 0⟩))) false false [])
    (Game.mk (SceneManager.mk (some (Scene.mk SceneKind.GameScene
      [GameObject.mk Kind.Player ⟨9, 9⟩ ⟨2, 98 / 625⟩] ⟨0, 0⟩))) false false
      [Event.commandRequest, Event.renderScene [GameObject.mk Kind.Player ⟨9, 9⟩ ⟨2, 98 / 625⟩]])
    'd'
    (Scene.mk SceneKind.GameScene [GameObject.mk Kind.Player ⟨9, 9⟩ ⟨2, 98 / 625⟩] ⟨0, 0⟩)
    (GameObject.mk Kind.Player ⟨9, 9⟩ ⟨2, 98 / 625⟩)
    ['s', 'd']
    (Scene.mk SceneKind.GameScene
      [GameObject.mk Kind.Player ⟨633 / 125, 391801 / 78125⟩ ⟨2, 196 / 625⟩,
        Platform.new 4 7, Platform.new 5 7, Platform.new 6 7,
        GameObject.mk Kind.Enemy ⟨992 / 125, 469926 / 78125⟩ ⟨-1, 196 / 625⟩] ⟨0, 0⟩)
    (GameObject.mk Kind.Player ⟨633 / 125, 391801 / 78125⟩ ⟨2, 196 / 625⟩)
    rfl rfl (by decide!) rfl rfl (by simp) rfl (by decide!) (by simp) rfl
  exact ⟨⟨h1.1, h1.2.2.2.1, h1.2.2.2.2.1, h1.2.2.2.2.2⟩, h2.1⟩

/-- C4 as stated fails: a Player at `(5, 5)` with `velocity.x = +infinity`
and `dt = 0` gets `position.x = NaN` from `infinity * 0`; every comparison
with NaN is false, no clamp applies, and the position is not inside the
world.  The same holds for a Player whose `position.x` is NaN from the start. -/
theorem Player_clamped_counterexample :
    (F32.Player.update
        ⟨Kind.Player, ⟨Float32.fin 5, Float32.fin 5⟩, ⟨Float32.posInf, Float32.fin 0⟩⟩
        (Float32.fin 0)).position = ⟨Float32.nan, Float32.fin 5⟩ ∧
    F32.inWorld (F32.Player.update
        ⟨Kind.Player, ⟨Float32.fin 5, Float32.fin 5⟩, ⟨Float32.posInf, Float32.fin 0⟩⟩
        (Float32.fin 0)).position = false ∧
    F32.inWorld (F32.Player.update
        ⟨Kind.Player, ⟨Float32.nan, Float32.fin 5⟩, ⟨Float32.fin 0, Float32.fin 0⟩⟩
        (Float32.fin (2 / 125))).position = false := by
  decide!

/-- The horizontal part of `Enemy::update` on `float`. -/
theorem Enemy_update32_x (e : F32.GameObject) (dt : Float32) :
    (e.position.x.add (e.velocity.x.mul dt)).lt (Float32.fin 0) = true →
      (F32.Enemy.update e dt).velocity.x = Float32.fin 1 ∧
      (F32.Enemy.update e dt).position.x = Float32.fin 0 := by
  intro h
  have h9 : Float32.gt (Float32.fin 0) (Float32.fin 9) = false := by
    simp [Float32.gt, Float32.lt]
  simp [F32.Enemy.update, F32.Vector2.add, F32.Vector2.mul, h, h9]

/-- The horizontal part of `Enemy::update` on `float` when the new `x` is
not negative. -/
theorem Enemy_update32_x_right (e : F32.GameObject) (dt : Float32)
    (h0 : (e.position.x.add (e.velocity.x.mul dt)).lt (Float32.fin 0) = false) :
    ((e.position.x.add (e.velocity.x.mul dt)).gt (Float32.fin 9) = true →
      (F32.Enemy.update e dt).velocity.x = Float32.fin (-1) ∧
      (F32.Enemy.update e dt).position.x = Float32.fin 9) ∧
    ((e.position.x.add (e.velocity.x.mul dt)).gt (Float32.fin 9) = false →
      (F32.Enemy.update e dt).velocity.x = e.velocity.x ∧
      (F32.Enemy.update e dt).position.x = e.position.x.add (e.velocity.x.mul dt)) := by
  constructor
  · intro h
    simp [F32.Enemy.update, F32.Vector2.add, F32.Vector2.mul, h0, h]
  · intro h
    simp [F32.Enemy.update, F32.Vector2.add, F32.Vector2.mul, h0, h]

/-- The sum `9 + dt` on `float` for a positive value `dt`: it is above `9`
exactly when `dt` is above `2 ^ (-21)`, and it is `9` otherwise. -/
theorem nine_add32 (dt : Float32) (hv : dt.isValue)
    (hdt : (Float32.fin 0).lt dt = true) :
    ((Float32.fin (1 / 2 ^ 21)).lt dt = true →
      ((Float32.fin 9).add dt).gt (Float32.fin 9) = true) ∧
    ((Float32.fin (1 / 2 ^ 21)).lt dt = false →
      (Float32.fin 9).add dt = Float32.fin 9) := by
  cases dt with
  | nan => simp [Float32.lt] at hdt
  | negInf => simp [Float32.lt] at hdt
  | posInf => simp [Float32.lt, Float32.gt, Float32.add]
  | fin q =>
    have hq : 0 < q := by simpa [Float32.lt] using hdt
    constructor
    · intro h
      have hq2 : 1 / 2 ^ 21 < q := by simpa [Float32.lt] using h
      have hr := round32_nine_add_large q hq2
      simp only [Float32.add, Float32.ofRat, Float32.gt]
      split_ifs with h1 h2
      · simp [Float32.lt]
      · exfalso
        have : (0 : ℚ) < maxFinite32 := by norm_num [maxFinite32]
        linarith
      · simpa [Float32.lt] using hr
    · intro h
      have hq2 : q ≤ 1 / 2 ^ 21 := by
        have : ¬ (1 / 2 ^ 21 < q) := by simpa [Float32.lt] using h
        exact not_lt.1 this
      have hr := round32_nine_add_small q hq hq2
      simp only [Float32.add, Float32.ofRat, hr]
      rw [if_neg (by norm_num [maxFinite32]), if_neg (by norm_num [maxFinite32])]

/-- C6 (enemy bounce, amended): for every positive `float` value `dt`, an
Enemy at `x = 0` with `velocity.x = -1` has `velocity.x = 1` and `x = 0`
after one update; an Enemy at `x = 9` with `velocity.x = 1` has
`velocity.x = -1` and `x = 9` when `dt > 2^-21`, which is when the binary32
sum `9 + dt` is above 9, and for `dt ≤ 2^-21` the sum is `9` and the Enemy
stays at `x = 9` with `velocity.x = 1`. -/
theorem Enemy_bounce_binary32 (e : F32.GameObject) (dt : Float32)
    (hv : dt.isValue) (hdt : (Float32.fin 0).lt dt = true) :
    (e.position.x = Float32.fin 0 → e.velocity.x = Float32.fin (-1) →
      (F32.Enemy.update e dt).velocity.x = Float32.fin 1 ∧
      (F32.Enemy.update e dt).position.x = Float32.fin 0) ∧
    (e.position.x = Float32.fin 9 → e.velocity.x = Float32.fin 1 →
      ((Float32.fin (1 / 2 ^ 21)).lt dt = true →
        (F32.Enemy.update e dt).velocity.x = Float32.fin (-1) ∧
        (F32.Enemy.update e dt).position.x = Float32.fin 9) ∧
      ((Float32.fin (1 / 2 ^ 21)).lt dt = false →
        (F32.Enemy.update e dt).velocity.x = Float32.fin 1 ∧
        (F32.Enemy.update e dt).position.x = Float32.fin 9)) := by
  constructor
  · intro hx hvx
    apply Enemy_update32_x
    rw [hx, hvx]
    cases dt with
    | nan => simp [Float32.lt] at hdt
    | negInf => simp [Float32.lt] at hdt
    | posInf => simp [Float32.mul, Float32.infMul, Float32.add, Float32.lt]
    | fin q =>
      have hq : 0 < q := by simpa [Float32.lt] using hdt
      have hval : (Float32.fin (-q)).isValue := by
        obtain ⟨h1, h2⟩ := hv
        exact ⟨by rw [round32_neg_of_pos q hq, h1], by rw [abs_neg]; exact h2⟩
      have hmul : (Float32.fin (-1)).mul (Float32.fin q) = Float32.fin (-q) := by
        simp only [Float32.mul]
        rw [show (-1 : ℚ) * q = -q by ring]
        exact ofRat_of_isValue (-q) hval
      rw [hmul]
      simp only [Float32.add]
      rw [show (0 : ℚ) + -q = -q by ring, ofRat_of_isValue (-q) hval]
      simpa [Float32.lt] using hq
  · intro hx hvx
    have hmul : (Float32.fin 1).mul dt = dt := by
      cases dt with
      | nan => rfl
      | negInf => simp [Float32.mul, Float32.infMul]
      | posInf => simp [Float32.mul, Float32.infMul]
      | fin q =>
        simp only [Float32.mul]
        rw [one_mul]
        exact ofRat_of_isValue q hv
    obtain ⟨hlarge, hsmall⟩ := nine_add32 dt hv hdt
    have h0 : (e.position.x.add (e.velocity.x.mul dt)).lt (Float32.fin 0) = false := by
      rw [hx, hvx, hmul]
      cases hcase : (Float32.fin (1 / 2 ^ 21)).lt dt with
      | true =>
        have hgt := hlarge hcase
        cases hs : (Float32.fin 9).add dt with
        | nan => rw [hs] at hgt; simp [Float32.gt, Float32.lt] at hgt
        | negInf => rw [hs] at hgt; simp [Float32.gt, Float32.lt] at hgt
        | posInf => simp [Float32.lt]
        | fin s =>
          rw [hs] at hgt
          have : 9 < s := by simpa [Float32.gt, Float32.lt] using hgt
          simp [Float32.lt]
          linarith
      | false =>
        rw [hsmall hcase]
        simp [Float32.lt]
    obtain ⟨hb, hnb⟩ := Enemy_update32_x_right e dt h0
    rw [hx, hvx, hmul] at hb hnb
    constructor
    · intro hcase
      exact hb (hlarge hcase)
    · intro hcase
      have hs := hsmall hcase
      have hng : ((Float32.fin 9).add dt).gt (Float32.fin 9) = false := by
        rw [hs]; simp [Float32.gt, Float32.lt]
      obtain ⟨h1, h2⟩ := hnb hng
      exact ⟨h1, by rw [h2, hs]⟩

/-- C6 with `dt = 0.016f`, at the left wall and at the right wall, and with
`dt = 2^-21` at the right wall. -/
theorem Enemy_bounce_binary32_witness :
    ((F32.Enemy.update
        ⟨Kind.Enemy, ⟨Float32.fin 0, Float32.fin 6⟩, ⟨Float32.fin (-1), Float32.fin 0⟩⟩
        (Float32.ofRat (2 / 125))).velocity.x = Float32.fin 1 ∧
     (F32.Enemy.update
        ⟨Kind.Enemy, ⟨Float32.fin 0, Float32.fin 6⟩, ⟨Float32.fin (-1), Float32.fin 0⟩⟩
        (Float32.ofRat (2 / 125))).position.x = Float32.fin 0) ∧
    ((F32.Enemy.update
        ⟨Kind.Enemy, ⟨Float32.fin 9, Float32.fin 6⟩, ⟨Float32.fin 1, Float32.fin 0⟩⟩
        (Float32.ofRat (2 / 125))).velocity.x = Float32.fin (-1) ∧
     (F32.Enemy.update
        ⟨Kind.Enemy, ⟨Float32.fin 9, Float32.fin 6⟩, ⟨Float32.fin 1, Float32.fin 0⟩⟩
        (Float32.ofRat (2 / 125))).position.x = Float32.fin 9) ∧
    ((F32.Enemy.update
        ⟨Kind.Enemy, ⟨Float32.fin 9, Float32.fin 6⟩, ⟨Float32.fin 1, Float32.fin 0⟩⟩
        (Float32.fin (1 / 2 ^ 21))).velocity.x = Float32.fin 1 ∧
     (F32.Enemy.update
        ⟨Kind.Enemy, ⟨Float32.fin 9, Float32.fin 6⟩, ⟨Float32.fin 1, Float32.fin 0⟩⟩
        (Float32.fin (1 / 2 ^ 21))).position.x = Float32.fin 9) :=
  ⟨(Enemy_bounce_binary32
      ⟨Kind.Enemy, ⟨Float32.fin 0, Float32.fin 6⟩, ⟨Float32.fin (-1), Float32.fin 0⟩⟩
      (Float32.ofRat (2 / 125)) (by decide!) (by decide!)).1 rfl rfl,
   ((Enemy_bounce_binary32
      ⟨Kind.Enemy, ⟨Float32.fin 9, Float32.fin 6⟩, ⟨Float32.fin 1, Float32.fin 0⟩⟩
      (Float32.ofRat (2 / 125)) (by decide!) (by decide!)).2 rfl rfl).1 (by decide!),
   ((Enemy_bounce_binary32
      ⟨Kind.Enemy, ⟨Float32.fin 9, Float32.fin 6⟩, ⟨Float32.fin 1, Float32.fin 0⟩⟩
      (Float32.fin (1 / 2 ^ 21)) (by decide!) (by decide!)).2 rfl rfl).2 (by decide!)⟩

/-- C6 as stated fails at the right wall: with the positive binary32 value
`dt = 2^-21` the sum `9 + dt` rounds to `9`, the test `position.x > 9` fails,
and the Enemy at `x = 9` keeps `velocity.x = 1`. -/
theorem Enemy_bounce_counterexample :
    (0 : ℚ) < 1 / 2 ^ 21 ∧
    (Float32.fin (1 / 2 ^ 21)).isValue ∧
    (Float32.fin 9).add ((Float32.fin 1).mul (Float32.fin (1 / 2 ^ 21))) = Float32.fin 9 ∧
    F32.Enemy.update
        ⟨Kind.Enemy, ⟨Float32.fin 9, Float32.fin 6⟩, ⟨Float32.fin 1, Float32.fin 0⟩⟩
        (Float32.fin (1 / 2 ^ 21)) =
      ⟨Kind.Enemy, ⟨Float32.fin 9, Float32.fin 6⟩, ⟨Float32.fin 1, Float32.fin 0⟩⟩ ∧
    (F32.Enemy.update
        ⟨Kind.Enemy, ⟨Float32.fin 9, Float32.fin 6⟩, ⟨Float32.fin 1, Float32.fin 0⟩⟩
        (Float32.fin (1 / 2 ^ 21))).velocity.x ≠ Float32.fin (-1) := by
  decide!

/-! ## Platforms -/

/-- A Platform with the static view found at index `k` of a fresh game scene
is the Platform constructed at that index, and it is at rest. -/
theorem platform_of_fresh_view (k : Nat) (q : GameObject) (hqk : q.kind = Kind.Platform)
    (h : (GameScene.new.objects.map staticView)[k]? = some (staticView q)) :
    q.velocity = ⟨0, 0⟩ ∧ GameScene.new.objects[k]? = some q := by
  obtain ⟨kind, pos, vel⟩ := q
  simp only at hqk
  subst hqk
  rcases k with _ | _ | _ | _ | _ | k <;>
    simp [GameScene.new, staticView, Player.new, Platform.new, Enemy.new] at h ⊢
  all_goals (obtain ⟨h1, h2⟩ := h; subst h1; subst h2; exact ⟨rfl, rfl, rfl⟩)

/-- Physics followed by `update`, any number of times, leaves a Platform as it is. -/
theorem platform_ticks (dts : List ℚ) (p : GameObject) (hp : p.kind = Kind.Platform) :
    dts.foldl (fun o d => (applyPhysics o d).update d) p = p := by
  induction dts with
  | nil => rfl
  | cons d rest ih =>
    rw [List.foldl_cons]
    have : (applyPhysics p d).update d = p := by
      simp [applyPhysics, hp, GameObject.update, Platform.update]
    rw [this, ih]

/-- C5 (platform immunity): `applyPhysics`, `update` and `checkCollision`
(with the Platform as first or as second argument, against any object) leave
a Platform unchanged, for every `dt` and any number of ticks; and in every
state reached by the program each Platform of the active scene has velocity
`(0,0)` and is the Platform constructed at its index by `GameScene()`. -/
theorem Platform_immunity (p other : GameObject) (dt : ℚ) (dts : List ℚ)
    (inputs : List Char) (sc : Scene) (k : Nat) (q : GameObject)
    (hp : p.kind = Kind.Platform)
    (hsc : (run inputs).sceneManager.currentScene = some sc)
    (hq : sc.objects[k]? = some q) (hqk : q.kind = Kind.Platform) :
    applyPhysics p dt = p ∧
    p.update dt = p ∧
    (checkCollision p other).a = p ∧
    (checkCollision other p).b = p ∧
    dts.foldl (fun o d => (applyPhysics o d).update d) p = p ∧
    q.velocity = ⟨0, 0⟩ ∧
    GameScene.new.objects[k]? = some q := by
  refine ⟨by simp [applyPhysics, hp], by simp [GameObject.update, hp, Platform.update], ?_,
    checkCollision_b other p, platform_ticks dts p hp, ?_⟩
  · have h1 : ¬ (p.kind = Kind.Player ∧ other.kind = Kind.Platform) := by simp [hp]
    have h2 : ¬ (p.kind = Kind.Player ∧ other.kind = Kind.Enemy) := by simp [hp]
    rw [checkCollision_other_kinds p other h1 h2]
  · obtain ⟨_, sc0, hsc0, hok⟩ := run_gameOK inputs
    have hsame : sc0 = sc := Option.some.inj (by rw [← hsc0]; exact hsc)
    subst hsame
    rcases hok with hm | ⟨_, _, hview⟩
    · rw [hm] at hq
      simp [MenuScene.new] at hq
    · apply platform_of_fresh_view k q hqk
      rw [← hview, List.getElem?_map, hq]
      rfl

/-- C5 at the Platform `(5, 7)` against an overlapping Player, and at index 2
of the scene reached by the run `s`, `d`, `w`. -/
theorem Platform_immunity_witness :
    applyPhysics (Platform.new 5 7) 0.016 = Platform.new 5 7 ∧
    (Platform.new 5 7).update 0.016 = Platform.new 5 7 ∧
    (checkCollision (Platform.new 5 7) (GameObject.mk Kind.Player ⟨5, 6.9⟩ ⟨0, 3⟩)).a =
      Platform.new 5 7 ∧
    (checkCollision (GameObject.mk Kind.Player ⟨5, 6.9⟩ ⟨0, 3⟩) (Platform.new 5 7)).b =
      Platform.new 5 7 ∧
    [0.016, -1, 5].foldl (fun o d => (applyPhysics o d).update d) (Platform.new 5 7) =
      Platform.new 5 7 ∧
    (Platform.new 5 7).velocity = ⟨0, 0⟩ ∧
    GameScene.new.objects[2]? = some (Platform.new 5 7) :=
  Platform_immunity (Platform.new 5 7) (GameObject.mk Kind.Player ⟨5, 6.9⟩ ⟨0, 3⟩) 0.016
    [0.016, -1, 5] ['s', 'd', 'w']
    (Scene.mk SceneKind.GameScene
      [GameObject.mk Kind.Player ⟨641 / 125, 379693 / 78125⟩ ⟨2, -3027 / 625⟩,
        Platform.new 4 7, Platform.new 5 7, Platform.new 6 7,
        GameObject.mk Kind.Enemy ⟨988 / 125, 471102 / 78125⟩ ⟨-1, 294 / 625⟩] ⟨0, 0⟩)
    2 (Platform.new 5 7) rfl (by decide!) rfl rfl

/-! ## Invalid commands -/

/-- The test of line 200 fails exactly on the five command characters. -/
theorem validCommand_eq_false (c : Char)
    (hw : c ≠ 'w') (ha : c ≠ 'a') (hd : c ≠ 'd') (hs : c ≠ 's') (hq : c ≠ 'q') :
    validCommand c = false := by
  simp [validCommand, hw, ha, hd, hs, hq]

/-- C7 (invalid command no-op): in any loop state, a character outside
`w, a, d, s, q` leaves the body by `continue` having printed only the
request and the error message; the scene manager (active scene, every
object) is unchanged, nothing is rendered, and the loop is not left. -/
theorem invalid_command_noop (g : Game) (c : Char)
    (hw : c ≠ 'w') (ha : c ≠ 'a') (hd : c ≠ 'd') (hs : c ≠ 's') (hq : c ≠ 'q')
    (ht : g.terminated = false) (hgo : g.gameOver = false) :
    loopBody g c =
      (Flow.cont, { g with out := g.out ++ [Event.commandRequest, Event.invalidCommand] }) ∧
    step g c = { g with out := g.out ++ [Event.commandRequest, Event.invalidCommand] } ∧
    (step g c).sceneManager = g.sceneManager ∧
    (step g c).gameOver = false ∧
    (step g c).terminated = false := by
  have hv := validCommand_eq_false c hw ha hd hs hq
  have hb := loopBody_invalid g c hv
  have hstep : step g c =
      { g with out := g.out ++ [Event.commandRequest, Event.invalidCommand] } := by
    rw [step_of_next g _ c ht (Or.inr hb)]
    simp [hgo]
  refine ⟨hb, hstep, ?_, ?_, ?_⟩
  · rw [hstep]
  · rw [hstep]; exact hgo
  · rw [hstep]; exact ht

/-- C7 in the menu at program start and in the game scene reached by `s`,
on the characters `x` and `W`. -/
theorem invalid_command_noop_witness :
    (step mainInit 'x' =
      { mainInit with out := mainInit.out ++ [Event.commandRequest, Event.invalidCommand] } ∧
     (step mainInit 'x').sceneManager = mainInit.sceneManager) ∧
    (step (run ['s']) 'W' =
      { run ['s'] with out := (run ['s']).out ++ [Event.commandRequest, Event.invalidCommand] } ∧
     (step (run ['s']) 'W').sceneManager = (run ['s']).sceneManager ∧
     (step (run ['s']) 'W').terminated = false) :=
  ⟨⟨(invalid_command_noop mainInit 'x' (by decide) (by decide) (by decide) (by decide)
        (by decide) rfl rfl).2.1,
    (invalid_command_noop mainInit 'x' (by decide) (by decide) (by decide) (by decide)
        (by decide) rfl rfl).2.2.1⟩,
   ⟨(invalid_command_noop (run ['s']) 'W' (by decide) (by decide) (by decide) (by decide)
        (by decide) (by decide!) (by decide!)).2.1,
    (invalid_command_noop (run ['s']) 'W' (by decide) (by decide) (by decide) (by decide)
        (by decide) (by decide!) (by decide!)).2.2.1,
    (invalid_command_noop (run ['s']) 'W' (by decide) (by decide) (by decide) (by decide)
        (by decide) (by decide!) (by decide!)).2.2.2.2⟩⟩

/-! ## Intents -/

/-- The four command characters that reach an intent are valid. -/
theorem validCommand_intent (c : Char) (hc : c = 'w' ∨ c = 'a' ∨ c = 'd' ∨ c = 's') :
    validCommand c = true := by
  rcases hc with h | h | h | h <;> subst h <;> decide

/-- C10 (intents are overwrites): in a frame of a game scene that holds a
Player, a command `w`, `a`, `d` or `s` replaces the first Player `p` (index
`k`, no Player before it) by `p1`, where `p1` has the dynamic type and
position of `p` and velocity `(p.vx, -5)`, `(-2, p.vy)`, `(2, p.vy)` or
`(0, p.vy)` respectively: the dispatch leaves the scene with `p1` at index
`k` and every other object, the flag and the scene kind as they were;
physics, the collision pass and the scene update of that frame then run on
these objects, so that the first integration already uses the velocity of
`p1`; and each of the four intents applied twice equals the intent applied
once. -/
theorem intents_overwrite (g : Game) (sc : Scene) (c : Char) (o : GameObject)
    (hsc : g.sceneManager.currentScene = some sc) (hk : sc.kind = SceneKind.GameScene)
    (ho : o ∈ sc.objects) (hok : o.kind = Kind.Player)
    (hc : c = 'w' ∨ c = 'a' ∨ c = 'd' ∨ c = 's') :
    (∃ k p p1,
      sc.objects[k]? = some p ∧ p.kind = Kind.Player ∧
      (∀ i, i < k → ∀ e, sc.objects[i]? = some e → e.kind ≠ Kind.Player) ∧
      p1.kind = p.kind ∧ p1.position = p.position ∧
      (c = 'w' → p1.velocity = ⟨p.velocity.x, -5⟩) ∧
      (c = 'a' → p1.velocity = ⟨-2, p.velocity.y⟩) ∧
      (c = 'd' → p1.velocity = ⟨2, p.velocity.y⟩) ∧
      (c = 's' → p1.velocity = ⟨0, p.velocity.y⟩) ∧
      dispatch { g with out := g.out ++ [Event.commandRequest] } c =
        (Flow.next,
          Game.mk (SceneManager.mk (some (Scene.mk sc.kind (sc.objects.set k p1) sc.position)))
            g.gameOver g.terminated (g.out ++ [Event.commandRequest])) ∧
      (sc.objects.set k p1)[k]? = some p1 ∧
      (∀ i, i ≠ k → (sc.objects.set k p1)[i]? = sc.objects[i]?) ∧
      ((sc.objects.set k p1).map (fun obj => applyPhysics obj frameDt))[k]? =
        some (applyPhysics p1 frameDt) ∧
      loopBody g c =
        (Flow.next,
          Game.mk (SceneManager.mk (some (Scene.mk sc.kind
              (List.map (fun obj => obj.update frameDt)
                (framePass (sc.objects.set k p1) g.gameOver).objects) sc.position)))
            (framePass (sc.objects.set k p1) g.gameOver).gameOver g.terminated
            (g.out ++ [Event.commandRequest] ++
              (framePass (sc.objects.set k p1) g.gameOver).out ++
              [Event.renderScene (List.map (fun obj => obj.update frameDt)
                (framePass (sc.objects.set k p1) g.gameOver).objects)]))) ∧
    Player.jump (Player.jump o) = Player.jump o ∧
    Player.moveLeft (Player.moveLeft o) = Player.moveLeft o ∧
    Player.moveRight (Player.moveRight o) = Player.moveRight o ∧
    Player.stopHorizontal (Player.stopHorizontal o) = Player.stopHorizontal o := by
  refine ⟨?_, rfl, rfl, rfl, rfl⟩
  cases hf : findPlayer sc.objects with
  | none => exact absurd hok (findPlayer_none sc.objects hf o ho)
  | some k =>
    obtain ⟨p, hp, hpk, hfirst⟩ := findPlayer_some sc.objects k hf
    have hq : c ≠ 'q' := by
      rcases hc with h | h | h | h <;> subst h <;> decide
    have hklt : k < sc.objects.length := by
      by_contra hge
      rw [List.getElem?_eq_none (not_lt.1 hge)] at hp
      exact absurd hp (by simp)
    obtain ⟨p1, hp1⟩ : ∃ p1 : GameObject, p1 =
        (if c = 'w' then Player.jump p
         else if c = 'a' then Player.moveLeft p
         else if c = 'd' then Player.moveRight p
         else Player.stopHorizontal p) := ⟨_, rfl⟩
    have hd := dispatch_game_intent { g with out := g.out ++ [Event.commandRequest] }
      sc k p c hsc hk hf hp hq
    rw [← hp1] at hd
    have hd2 : dispatch { g with out := g.out ++ [Event.commandRequest] } c =
        (Flow.next,
          Game.mk (SceneManager.mk (some (Scene.mk sc.kind (sc.objects.set k p1) sc.position)))
            g.gameOver g.terminated (g.out ++ [Event.commandRequest])) := by
      rw [hd]; rfl
    have hb := loopBody_next g _ c (validCommand_intent c hc) hd2
    rw [frame_game
      (Game.mk (SceneManager.mk (some (Scene.mk sc.kind (sc.objects.set k p1) sc.position)))
        g.gameOver g.terminated (g.out ++ [Event.commandRequest]))
      (Scene.mk sc.kind (sc.objects.set k p1) sc.position) rfl hk] at hb
    refine ⟨k, p, p1, hp, hpk, hfirst, ?_, ?_, ?_, ?_, ?_, ?_, hd2, ?_, ?_, ?_, hb⟩
    · rw [hp1]
      rcases hc with h | h | h | h <;> subst h <;>
        simp [Player.jump, Player.moveLeft, Player.moveRight, Player.stopHorizontal]
    · rw [hp1]
      rcases hc with h | h | h | h <;> subst h <;>
        simp [Player.jump, Player.moveLeft, Player.moveRight, Player.stopHorizontal]
    · intro h; subst h; rw [hp1]; simp [Player.jump]
    · intro h; subst h; rw [hp1]; simp [Player.moveLeft]
    · intro h; subst h; rw [hp1]; simp [Player.moveRight]
    · intro h; subst h; rw [hp1]; simp [Player.stopHorizontal]
    · simp [hklt]
    · intro i hi
      exact List.getElem?_set_ne (Ne.symm hi)
    · simp [hklt]

/-- C10 on a fresh game scene with the command `w`: after the dispatch the
Player at index 0 has velocity `(0, -5)` and the other four objects are as
constructed, and physics moves the Player with that velocity plus gravity. -/
theorem intents_overwrite_witness :
    dispatch (Game.mk (SceneManager.mk (some GameScene.new)) false false
        ([] ++ [Event.commandRequest])) 'w' =
      (Flow.next,
        Game.mk (SceneManager.mk (some (Scene.mk SceneKind.GameScene
          [GameObject.mk Kind.Player ⟨5, 5⟩ ⟨0, -5⟩, Platform.new 4 7, Platform.new 5 7,
            Platform.new 6 7, Enemy.new 8 6] ⟨0, 0⟩)))
          false false ([] ++ [Event.commandRequest])) ∧
    (([GameObject.mk Kind.Player ⟨5, 5⟩ ⟨0, -5⟩, Platform.new 4 7, Platform.new 5 7,
        Platform.new 6 7, Enemy.new 8 6].map (fun obj => applyPhysics obj frameDt))[0]? =
      some (applyPhysics (GameObject.mk Kind.Player ⟨5, 5⟩ ⟨0, -5⟩) frameDt)) ∧
    Player.jump (Player.jump (Player.new 5 5)) = Player.jump (Player.new 5 5) := by
  obtain ⟨⟨k, p, p1, hp, _, hfirst, hk1, hpos, hw, _, _, _, hd, _, _, hphys, _⟩, hj, _⟩ :=
    intents_overwrite (Game.mk (SceneManager.mk (some GameScene.new)) false false []) GameScene.new
      'w' (Player.new 5 5) rfl rfl (by simp [GameScene.new]) rfl (Or.inl rfl)
  have hk0 : k = 0 := by
    by_contra h
    exact hfirst 0 (Nat.pos_of_ne_zero h) (Player.new 5 5) rfl rfl
  subst hk0
  have hp0 : Player.new 5 5 = p := by simpa [GameScene.new] using hp
  subst hp0
  have hp1 : p1 = GameObject.mk Kind.Player ⟨5, 5⟩ ⟨0, -5⟩ := by
    obtain ⟨kind, pos, vel⟩ := p1
    simp only at hk1 hpos
    have hvel := hw rfl
    simp only at hvel
    rw [hk1, hpos, hvel]
    rfl
  rw [hp1] at hd hphys
  exact ⟨hd, hphys, hj⟩

/-! ## Game over -/

/-- The message of line 167 is printed exactly when `checkCollision` returns true. -/
theorem checkCollision_hit_iff (a b : GameObject) :
    Event.hitEnemy ∈ (checkCollision a b).out ↔ (checkCollision a b).result = true := by
  simp only [checkCollision]
  split_ifs <;> simp

/-- Once the message of line 167 has been printed in a collision pass,
`gameOver` is set. -/
theorem collisionPass_hit (objects : List GameObject) (gameOver : Bool)
    (h : Event.hitEnemy ∈ (collisionPass objects gameOver).out) :
    (collisionPass objects gameOver).gameOver = true := by
  have key := collisionPass_keeps
    (fun st => Event.hitEnemy ∈ st.out → st.gameOver = true) (by
      intro i j acc hacc
      rcases innerBody_cases i j acc with h | ⟨a, b, _, _, _, h⟩
      · rw [h]; exact hacc
      · rw [h]
        intro hmem
        rcases List.mem_append.1 hmem with h1 | h1
        · simp [hacc h1]
        · simp [(checkCollision_hit_iff a b).1 h1]) objects gameOver (by simp)
  exact key h

/-- Once the loop has been left no command changes anything. -/
theorem step_terminated (g : Game) (ht : g.terminated = true) (cs : List Char) :
    cs.foldl step g = g := by
  induction cs with
  | nil => rfl
  | cons c rest ih =>
    rw [List.foldl_cons]
    have : step g c = g := by simp [step, ht]
    rw [this, ih]

/-- C3 (game-over reaches Terminated): in a frame of the running loop on a
game scene `sc1` (the scene left by the command dispatch of a valid command
that does not `break`), if a call `checkCollision(player, enemy)` of the
collision pass returns true (its message is printed), then after the frame
`gameOver` is set and the loop has been left, the scene update and the render
of that frame have run, and no later command changes the state. -/
theorem gameOver_reaches_terminated (g : Game) (c : Char) (sc1 : Scene)
    (ht : g.terminated = false) (hv : validCommand c = true)
    (hfl : (dispatch { g with out := g.out ++ [Event.commandRequest] } c).1 = Flow.next)
    (hsc : (dispatch { g with out := g.out ++ [Event.commandRequest] } c).2.sceneManager.currentScene
      = some sc1)
    (hk : sc1.kind = SceneKind.GameScene)
    (hhit : Event.hitEnemy ∈ (framePass sc1.objects
      (dispatch { g with out := g.out ++ [Event.commandRequest] } c).2.gameOver).out) :
    (step g c).gameOver = true ∧
    (step g c).terminated = true ∧
    (step g c).sceneManager.currentScene = some
      { sc1 with
        objects := List.map (fun obj => obj.update frameDt)
          (framePass sc1.objects
            (dispatch { g with out := g.out ++ [Event.commandRequest] } c).2.gameOver).objects } ∧
    (∃ before, (step g c).out = before ++
      [Event.renderScene (List.map (fun obj => obj.update frameDt)
        (framePass sc1.objects
          (dispatch { g with out := g.out ++ [Event.commandRequest] } c).2.gameOver).objects),
       Event.gameEnded]) ∧
    (∀ cs : List Char, cs.foldl step (step g c) = step g c) := by
  have hgo := collisionPass_hit _ _ hhit
  have hd : dispatch { g with out := g.out ++ [Event.commandRequest] } c =
      (Flow.next, (dispatch { g with out := g.out ++ [Event.commandRequest] } c).2) := by
    rw [← hfl]
  have hstep := step_of_next g _ c ht (Or.inl (loopBody_next g _ c hv hd))
  rw [frame_game _ sc1 hsc hk] at hstep
  have hgo2 : (framePass sc1.objects
      (dispatch { g with out := g.out ++ [Event.commandRequest] } c).2.gameOver).gameOver = true := hgo
  simp only [hgo2, if_true] at hstep
  rw [hstep]
  refine ⟨rfl, rfl, rfl,
    ⟨(dispatch { g with out := g.out ++ [Event.commandRequest] } c).2.out ++
      (framePass sc1.objects
        (dispatch { g with out := g.out ++ [Event.commandRequest] } c).2.gameOver).out, ?_⟩,
    fun cs => step_terminated _ rfl cs⟩
  simp [leave]

/-- C3 on a game scene whose Player overlaps an Enemy, with the command `d`. -/
theorem gameOver_reaches_terminated_witness :
    (step (Game.mk (SceneManager.mk (some (Scene.mk SceneKind.GameScene
      [Player.new 5 5, Platform.new 5 7, Enemy.new (11 / 2) 5] ⟨0, 0⟩))) false false []) 'd').gameOver
      = true ∧
    (step (Game.mk (SceneManager.mk (some (Scene.mk SceneKind.GameScene
      [Player.new 5 5, Platform.new 5 7, Enemy.new (11 / 2) 5] ⟨0, 0⟩))) false false []) 'd').terminated
      = true ∧
    ['a', 'w'].foldl step
      (step (Game.mk (SceneManager.mk (some (Scene.mk SceneKind.GameScene
        [Player.new 5 5, Platform.new 5 7, Enemy.new (11 / 2) 5] ⟨0, 0⟩))) false false []) 'd') =
      step (Game.mk (SceneManager.mk (some (Scene.mk SceneKind.GameScene
        [Player.new 5 5, Platform.new 5 7, Enemy.new (11 / 2) 5] ⟨0, 0⟩))) false false []) 'd' :=
  have h := gameOver_reaches_terminated
    (Game.mk (SceneManager.mk (some (Scene.mk SceneKind.GameScene
      [Player.new 5 5, Platform.new 5 7, Enemy.new (11 / 2) 5] ⟨0, 0⟩))) false false []) 'd'
    (Scene.mk SceneKind.GameScene
      [GameObject.mk Kind.Player ⟨5, 5⟩ ⟨2, 0⟩, Platform.new 5 7, Enemy.new (11 / 2) 5] ⟨0, 0⟩)
    rfl (by decide) (by decide!) (by decide!) rfl (by decide!)
  ⟨h.1, h.2.1, h.2.2.2.2 ['a', 'w']⟩

/-- Every object of a list with the static views of a fresh game scene sits
at an index below five, and index 0 holds a Player. -/
theorem player_of_fresh_view (objs : List GameObject)
    (h : objs.map staticView = GameScene.new.objects.map staticView) :
    ∃ o ∈ objs, o.kind = Kind.Player := by
  match objs, h with
  | [], h => simp [GameScene.new] at h
  | o :: rest, h =>
    refine ⟨o, by simp, ?_⟩
    simp [GameScene.new, staticView, Player.new] at h
    exact h.1.1

/-- In the menu `q` leaves the loop at once. -/
theorem step_menu_quit (g : Game) (sc : Scene) (ht : g.terminated = false)
    (hsc : g.sceneManager.currentScene = some sc) (hk : sc.kind = SceneKind.MenuScene) :
    step g 'q' = leave { g with out := g.out ++ [Event.commandRequest] } := by
  exact step_of_brk g _ 'q' ht (loopBody_brk g _ 'q' (by decide)
    (dispatch_menu_quit _ sc hsc hk))

/-- In a game scene that holds a Player `q` leaves the loop at once. -/
theorem step_game_quit (g : Game) (sc : Scene) (o : GameObject) (ht : g.terminated = false)
    (hsc : g.sceneManager.currentScene = some sc) (hk : sc.kind = SceneKind.GameScene)
    (ho : o ∈ sc.objects) (hok : o.kind = Kind.Player) :
    step g 'q' = leave { g with out := g.out ++ [Event.commandRequest] } := by
  cases hf : findPlayer sc.objects with
  | none => exact absurd hok (findPlayer_none sc.objects hf o ho)
  | some k =>
    obtain ⟨p, hp, _, _⟩ := findPlayer_some sc.objects k hf
    exact step_of_brk g _ 'q' ht (loopBody_brk g _ 'q' (by decide)
      (dispatch_game_quit _ sc k p hsc hk hf hp))

/-- C11 (quit transition, amended): from every menu state and from every
state of a game scene that holds a Player, `q` leaves the loop; only the
command request and the closing message are printed, and the scene manager
(every object of the active scene) is unchanged.  Along every run of the
program this covers every state in which the loop is still running. -/
theorem quit_terminates (g : Game) (sc : Scene) (inputs : List Char)
    (ht : g.terminated = false)
    (hsc : g.sceneManager.currentScene = some sc)
    (h : sc.kind = SceneKind.MenuScene ∨
      (sc.kind = SceneKind.GameScene ∧ ∃ o ∈ sc.objects, o.kind = Kind.Player))
    (hrun : (run inputs).terminated = false) :
    ((step g 'q').terminated = true ∧
     (step g 'q').sceneManager = g.sceneManager ∧
     (step g 'q').gameOver = g.gameOver ∧
     (step g 'q').out = g.out ++ [Event.commandRequest, Event.gameEnded]) ∧
    ((step (run inputs) 'q').terminated = true ∧
     (step (run inputs) 'q').sceneManager = (run inputs).sceneManager ∧
     (step (run inputs) 'q').out =
       (run inputs).out ++ [Event.commandRequest, Event.gameEnded]) := by
  have key : ∀ (g : Game) (sc : Scene), g.terminated = false →
      g.sceneManager.currentScene = some sc →
      (sc.kind = SceneKind.MenuScene ∨
        (sc.kind = SceneKind.GameScene ∧ ∃ o ∈ sc.objects, o.kind = Kind.Player)) →
      step g 'q' = leave { g with out := g.out ++ [Event.commandRequest] } := by
    intro g sc ht hsc h
    rcases h with hk | ⟨hk, o, ho, hok⟩
    · exact step_menu_quit g sc ht hsc hk
    · exact step_game_quit g sc o ht hsc hk ho hok
  constructor
  · rw [key g sc ht hsc h]
    simp [leave]
  · obtain ⟨_, sc0, hsc0, hok⟩ := run_gameOK inputs
    have h0 : sc0.kind = SceneKind.MenuScene ∨
        (sc0.kind = SceneKind.GameScene ∧ ∃ o ∈ sc0.objects, o.kind = Kind.Player) := by
      rcases hok with hm | ⟨hk, _, hview⟩
      · left; rw [hm]; rfl
      · right; exact ⟨hk, player_of_fresh_view sc0.objects hview⟩
    rw [key (run inputs) sc0 hrun hsc0 h0]
    simp [leave]

/-- C11 in the menu at program start, and after the run `s`, `d`. -/
theorem quit_terminates_witness :
    ((step mainInit 'q').terminated = true ∧
     (step mainInit 'q').sceneManager = mainInit.sceneManager ∧
     (step mainInit 'q').gameOver = mainInit.gameOver ∧
     (step mainInit 'q').out = mainInit.out ++ [Event.commandRequest, Event.gameEnded]) ∧
    ((step (run ['s', 'd']) 'q').terminated = true ∧
     (step (run ['s', 'd']) 'q').sceneManager = (run ['s', 'd']).sceneManager ∧
     (step (run ['s', 'd']) 'q').out =
       (run ['s', 'd']).out ++ [Event.commandRequest, Event.gameEnded]) :=
  quit_terminates mainInit MenuScene.new ['s', 'd'] rfl rfl (Or.inl rfl) (by decide!)

/-- C11 as stated fails on a game scene without Player: `q` is dropped with
every other command (the guard of line 222), the frame is simulated, and the
loop goes on. -/
theorem quit_without_player_counterexample :
    (step (Game.mk (SceneManager.mk (some (Scene.mk SceneKind.GameScene
      [Enemy.new 5 5] ⟨0, 0⟩))) false false []) 'q').terminated = false ∧
    (step (Game.mk (SceneManager.mk (some (Scene.mk SceneKind.GameScene
      [Enemy.new 5 5] ⟨0, 0⟩))) false false []) 'q').sceneManager.currentScene =
      some (Scene.mk SceneKind.GameScene
        [GameObject.mk Kind.Enemy ⟨621 / 125, 391017 / 78125⟩ ⟨-1, 98 / 625⟩] ⟨0, 0⟩) := by
  decide!

/-! ## The start frame -/

/-- The collision pass of the first frame of a fresh game scene: no landing,
no hit, all ten pairs checked. -/
theorem framePass_fresh (gameOver : Bool) :
    framePass GameScene.new.objects gameOver =
      { objects := [GameObject.mk Kind.Player ⟨5, 390821 / 78125⟩ ⟨0, 98 / 625⟩,
          Platform.new 4 7, Platform.new 5 7, Platform.new 6 7,
          GameObject.mk Kind.Enemy ⟨998 / 125, 468946 / 78125⟩ ⟨-1, 98 / 625⟩],
        gameOver := gameOver,
        out := [],
        calls := [(0, 1), (0, 2), (0, 3), (0, 4), (1, 2), (1, 3), (1, 4), (2, 3), (2, 4),
          (3, 4)] } := by
  cases gameOver <;> decide!

/-- The scene at the end of the frame that receives `s` in the menu. -/
theorem step_menu_start (g : Game) (sc : Scene) (ht : g.terminated = false)
    (hsc : g.sceneManager.currentScene = some sc) (hk : sc.kind = SceneKind.MenuScene) :
    loopBody g 's' = (Flow.next, updateAndRender (simulate
      { g with sceneManager := { currentScene := some GameScene.new },
               out := g.out ++ [Event.commandRequest] })) ∧
    (step g 's').sceneManager.currentScene = some (Scene.mk SceneKind.GameScene
      [GameObject.mk Kind.Player ⟨5, 391017 / 78125⟩ ⟨0, 98 / 625⟩,
        Platform.new 4 7, Platform.new 5 7, Platform.new 6 7,
        GameObject.mk Kind.Enemy ⟨996 / 125, 469142 / 78125⟩ ⟨-1, 98 / 625⟩] ⟨0, 0⟩) ∧
    (step g 's').terminated = g.gameOver := by
  have hd := dispatch_menu_start { g with out := g.out ++ [Event.commandRequest] } sc hsc hk
  have hb := loopBody_next g _ 's' (by decide) hd
  refine ⟨hb, ?_⟩
  rw [step_of_next g _ 's' ht (Or.inl hb), frame_game _ GameScene.new rfl rfl, framePass_fresh]
  have hupd : List.map (fun obj => obj.update frameDt)
      [GameObject.mk Kind.Player ⟨5, 390821 / 78125⟩ ⟨0, 98 / 625⟩,
        Platform.new 4 7, Platform.new 5 7, Platform.new 6 7,
        GameObject.mk Kind.Enemy ⟨998 / 125, 468946 / 78125⟩ ⟨-1, 98 / 625⟩] =
      [GameObject.mk Kind.Player ⟨5, 391017 / 78125⟩ ⟨0, 98 / 625⟩,
        Platform.new 4 7, Platform.new 5 7, Platform.new 6 7,
        GameObject.mk Kind.Enemy ⟨996 / 125, 469142 / 78125⟩ ⟨-1, 98 / 625⟩] := by
    decide!
  simp only [hupd]
  cases hgo : g.gameOver
  · simp [ht]; exact ⟨rfl, rfl⟩
  · simp [leave]; exact ⟨rfl, rfl⟩

/-- In a list with the dynamic types Player, Platform, Platform, Platform,
Enemy, a pair of indices `i < j` that involves the Player has the Player
first and a Platform or the Enemy second. -/
theorem player_is_first (objs : List GameObject)
    (hkinds : objs.map GameObject.kind =
      [Kind.Player, Kind.Platform, Kind.Platform, Kind.Platform, Kind.Enemy])
    (i j : Nat) (a b : GameObject) (hij : i < j)
    (ha : objs[i]? = some a) (hb : objs[j]? = some b)
    (h : a.kind = Kind.Player ∨ b.kind = Kind.Player) :
    i = 0 ∧ a.kind = Kind.Player ∧ (b.kind = Kind.Platform ∨ b.kind = Kind.Enemy) := by
  have hi : (objs.map GameObject.kind)[i]? = some a.kind := by simp [ha]
  have hj : (objs.map GameObject.kind)[j]? = some b.kind := by simp [hb]
  rw [hkinds] at hi hj
  rcases i with _ | _ | _ | _ | _ | i <;> rcases j with _ | _ | _ | _ | _ | j <;>
    simp at hi hj hij <;> (rw [← hi, ← hj] at h ⊢; simp at h ⊢)

/-- C12 (start transition and construction order): from every menu state of
the running loop the command `s` installs `GameScene()`; at the end of that
frame the active scene is a `GameScene` holding exactly five objects with
dynamic types Player, Platform, Platform, Platform, Enemy in this order, and
in every pair of indices `i < j` that involves the Player, the Player is the
first object (index 0) and the second is a Platform or the Enemy. -/
theorem start_transition (g : Game) (sc : Scene) (ht : g.terminated = false)
    (hsc : g.sceneManager.currentScene = some sc) (hk : sc.kind = SceneKind.MenuScene) :
    (dispatch { g with out := g.out ++ [Event.commandRequest] } 's').2.sceneManager.currentScene =
      some GameScene.new ∧
    GameScene.new.objects.map GameObject.kind =
      [Kind.Player, Kind.Platform, Kind.Platform, Kind.Platform, Kind.Enemy] ∧
    ∃ sc1, (step g 's').sceneManager.currentScene = some sc1 ∧
      sc1.kind = SceneKind.GameScene ∧
      sc1.objects.length = 5 ∧
      sc1.objects.map GameObject.kind =
        [Kind.Player, Kind.Platform, Kind.Platform, Kind.Platform, Kind.Enemy] ∧
      ∀ i j a b, i < j → sc1.objects[i]? = some a → sc1.objects[j]? = some b →
        (a.kind = Kind.Player ∨ b.kind = Kind.Player) →
        i = 0 ∧ a.kind = Kind.Player ∧ (b.kind = Kind.Platform ∨ b.kind = Kind.Enemy) := by
  obtain ⟨_, hscene, _⟩ := step_menu_start g sc ht hsc hk
  refine ⟨?_, rfl, _, hscene, rfl, rfl, rfl, ?_⟩
  · rw [dispatch_menu_start { g with out := g.out ++ [Event.commandRequest] } sc hsc hk]
  · intro i j a b hij ha hb h
    exact player_is_first
      [GameObject.mk Kind.Player ⟨5, 391017 / 78125⟩ ⟨0, 98 / 625⟩,
        Platform.new 4 7, Platform.new 5 7, Platform.new 6 7,
        GameObject.mk Kind.Enemy ⟨996 / 125, 469142 / 78125⟩ ⟨-1, 98 / 625⟩]
      rfl i j a b hij ha hb h

/-- C12 at program start: after `s` the active scene holds the five objects
in construction order. -/
theorem start_transition_witness :
    (step mainInit 's').sceneManager.currentScene.map Scene.kind = some SceneKind.GameScene ∧
    (step mainInit 's').sceneManager.currentScene.map
        (fun s => s.objects.map GameObject.kind) =
      some [Kind.Player, Kind.Platform, Kind.Platform, Kind.Platform, Kind.Enemy] := by
  obtain ⟨_, _, sc1, h1, h2, _, h4, _⟩ := start_transition mainInit MenuScene.new rfl rfl rfl
  rw [h1]
  simp [h2, h4]

/-- The objects at the end of the first simulated frame of a fresh game
scene, in exact arithmetic. -/
theorem fresh_frame_objects :
    List.map (fun obj => obj.update frameDt) (framePass GameScene.new.objects false).objects =
      [GameObject.mk Kind.Player ⟨5, 391017 / 78125⟩ ⟨0, 98 / 625⟩,
        Platform.new 4 7, Platform.new 5 7, Platform.new 6 7,
        GameObject.mk Kind.Enemy ⟨996 / 125, 469142 / 78125⟩ ⟨-1, 98 / 625⟩] := by
  rw [framePass_fresh]
  decide!

/-- A frame that begins in a game scene is left by `break` on `q` when the
scene holds a Player, and otherwise runs the simulation on the scene that
the dispatch leaves. -/
theorem playing_frame (g2 : Game) (sc2 : Scene) (c : Char)
    (hsc : g2.sceneManager.currentScene = some sc2) (hk : sc2.kind = SceneKind.GameScene)
    (hv : validCommand c = true) :
    (c = 'q' ∧ (∃ p ∈ sc2.objects, p.kind = Kind.Player) ∧
      loopBody g2 c = (Flow.brk, { g2 with out := g2.out ++ [Event.commandRequest] })) ∨
    (∃ sc3,
      (dispatch { g2 with out := g2.out ++ [Event.commandRequest] } c).2.sceneManager.currentScene
        = some sc3 ∧
      sc3.kind = SceneKind.GameScene ∧
      loopBody g2 c =
        (Flow.next,
          Game.mk (SceneManager.mk (some (Scene.mk sc3.kind
              (List.map (fun obj => obj.update frameDt)
                (framePass sc3.objects g2.gameOver).objects) sc3.position)))
            (framePass sc3.objects g2.gameOver).gameOver g2.terminated
            (g2.out ++ [Event.commandRequest] ++ (framePass sc3.objects g2.gameOver).out ++
              [Event.renderScene (List.map (fun obj => obj.update frameDt)
                (framePass sc3.objects g2.gameOver).objects)]))) := by
  cases hf : findPlayer sc2.objects with
  | none =>
    right
    have hd := dispatch_game_noPlayer { g2 with out := g2.out ++ [Event.commandRequest] }
      sc2 c hsc hk hf
    have hb := loopBody_next g2 _ c hv hd
    rw [frame_game { g2 with out := g2.out ++ [Event.commandRequest] } sc2 hsc hk] at hb
    exact ⟨sc2, by rw [hd]; exact hsc, hk, hb⟩
  | some k =>
    obtain ⟨p, hp, hpk, _⟩ := findPlayer_some sc2.objects k hf
    by_cases hq : c = 'q'
    · left
      subst hq
      have hd := dispatch_game_quit { g2 with out := g2.out ++ [Event.commandRequest] }
        sc2 k p hsc hk hf hp
      exact ⟨rfl, ⟨p, List.getElem?_mem hp, hpk⟩, loopBody_brk g2 _ 'q' hv hd⟩
    · right
      obtain ⟨p1, hp1⟩ : ∃ p1 : GameObject, p1 =
          (if c = 'w' then Player.jump p
           else if c = 'a' then Player.moveLeft p
           else if c = 'd' then Player.moveRight p
           else Player.stopHorizontal p) := ⟨_, rfl⟩
      have hd := dispatch_game_intent { g2 with out := g2.out ++ [Event.commandRequest] }
        sc2 k p c hsc hk hf hp hq
      rw [← hp1] at hd
      have hd2 : dispatch { g2 with out := g2.out ++ [Event.commandRequest] } c =
          (Flow.next,
            Game.mk (SceneManager.mk (some (Scene.mk sc2.kind (sc2.objects.set k p1)
              sc2.position))) g2.gameOver g2.terminated (g2.out ++ [Event.commandRequest])) := by
        rw [hd]; rfl
      have hb := loopBody_next g2 _ c hv hd2
      rw [frame_game
        (Game.mk (SceneManager.mk (some (Scene.mk sc2.kind (sc2.objects.set k p1) sc2.position)))
          g2.gameOver g2.terminated (g2.out ++ [Event.commandRequest]))
        (Scene.mk sc2.kind (sc2.objects.set k p1) sc2.position) rfl hk] at hb
      exact ⟨Scene.mk sc2.kind (sc2.objects.set k p1) sc2.position, by rw [hd2], hk, hb⟩

/-- C17 (start frame, amended): the frame that receives `s` in the menu
replaces the scene and then, the scene being a `GameScene` at line 231, runs
physics, the collision pass, the scene update and the render on it: at the
end of that frame the objects are those of `GameScene()` after one physics
step, one collision pass and one `update` (in exact arithmetic the Player at
`(5, 391017/78125)` with velocity `(0, 98/625)`, the Enemy at
`(996/125, 469142/78125)` with velocity `(-1, 98/625)`, the Platforms as
constructed).  No other frame that begins in the menu simulates: `q` leaves
the loop, `w`, `a`, `d` only run `MenuScene::update` and the menu render,
and in any state an invalid character is dropped by `continue`.  A frame
that begins in a game scene with a valid command is left by `break` on `q`
when the scene holds a Player, and otherwise runs the simulation sequence on
the scene left by the dispatch. -/
theorem start_frame_simulates (g : Game) (sc : Scene)
    (ht : g.terminated = false) (hgo : g.gameOver = false)
    (hsc : g.sceneManager.currentScene = some sc) (hk : sc.kind = SceneKind.MenuScene) :
    loopBody g 's' = (Flow.next, updateAndRender (simulate
      { g with sceneManager := { currentScene := some GameScene.new },
               out := g.out ++ [Event.commandRequest] })) ∧
    (step g 's').sceneManager.currentScene = some (Scene.mk SceneKind.GameScene
      (List.map (fun obj => obj.update frameDt) (framePass GameScene.new.objects false).objects)
      ⟨0, 0⟩) ∧
    (step g 's').sceneManager.currentScene = some (Scene.mk SceneKind.GameScene
      [GameObject.mk Kind.Player ⟨5, 391017 / 78125⟩ ⟨0, 98 / 625⟩,
        Platform.new 4 7, Platform.new 5 7, Platform.new 6 7,
        GameObject.mk Kind.Enemy ⟨996 / 125, 469142 / 78125⟩ ⟨-1, 98 / 625⟩] ⟨0, 0⟩) ∧
    (step g 's').terminated = false ∧
    (step g 's').out = g.out ++ [Event.commandRequest,
      Event.renderScene
        [GameObject.mk Kind.Player ⟨5, 391017 / 78125⟩ ⟨0, 98 / 625⟩,
          Platform.new 4 7, Platform.new 5 7, Platform.new 6 7,
          GameObject.mk Kind.Enemy ⟨996 / 125, 469142 / 78125⟩ ⟨-1, 98 / 625⟩]] ∧
    loopBody g 'q' = (Flow.brk, { g with out := g.out ++ [Event.commandRequest] }) ∧
    (∀ c, validCommand c = true → c ≠ 's' → c ≠ 'q' →
      loopBody g c =
        (Flow.next,
          { g with sceneManager := { currentScene := some (MenuScene.update sc frameDt) },
                   out := g.out ++ [Event.commandRequest] ++ [Event.renderMenu] })) ∧
    (∀ (g2 : Game) (c : Char), validCommand c = false →
      loopBody g2 c =
        (Flow.cont, { g2 with out := g2.out ++ [Event.commandRequest, Event.invalidCommand] })) ∧
    (∀ (g2 : Game) (sc2 : Scene) (c : Char),
      g2.sceneManager.currentScene = some sc2 → sc2.kind = SceneKind.GameScene →
      validCommand c = true →
      (c = 'q' ∧ (∃ p ∈ sc2.objects, p.kind = Kind.Player) ∧
        loopBody g2 c = (Flow.brk, { g2 with out := g2.out ++ [Event.commandRequest] })) ∨
      (∃ sc3,
        (dispatch { g2 with out := g2.out ++ [Event.commandRequest] } c).2.sceneManager.currentScene
          = some sc3 ∧
        sc3.kind = SceneKind.GameScene ∧
        loopBody g2 c =
          (Flow.next,
            Game.mk (SceneManager.mk (some (Scene.mk sc3.kind
                (List.map (fun obj => obj.update frameDt)
                  (framePass sc3.objects g2.gameOver).objects) sc3.position)))
              (framePass sc3.objects g2.gameOver).gameOver g2.terminated
              (g2.out ++ [Event.commandRequest] ++ (framePass sc3.objects g2.gameOver).out ++
                [Event.renderScene (List.map (fun obj => obj.update frameDt)
                  (framePass sc3.objects g2.gameOver).objects)])))) := by
  obtain ⟨hb, hscene, hterm⟩ := step_menu_start g sc ht hsc hk
  refine ⟨hb, by rw [fresh_frame_objects]; exact hscene, hscene, by rw [hterm, hgo], ?_, ?_, ?_,
    fun g2 c hv => loopBody_invalid g2 c hv, playing_frame⟩
  · rw [step_of_next g _ 's' ht (Or.inl hb), frame_game _ GameScene.new rfl rfl, framePass_fresh]
    have hupd : List.map (fun obj => obj.update frameDt)
        [GameObject.mk Kind.Player ⟨5, 390821 / 78125⟩ ⟨0, 98 / 625⟩,
          Platform.new 4 7, Platform.new 5 7, Platform.new 6 7,
          GameObject.mk Kind.Enemy ⟨998 / 125, 468946 / 78125⟩ ⟨-1, 98 / 625⟩] =
        [GameObject.mk Kind.Player ⟨5, 391017 / 78125⟩ ⟨0, 98 / 625⟩,
          Platform.new 4 7, Platform.new 5 7, Platform.new 6 7,
          GameObject.mk Kind.Enemy ⟨996 / 125, 469142 / 78125⟩ ⟨-1, 98 / 625⟩] := by
      decide!
    simp [hupd, hgo]
  · exact loopBody_brk g _ 'q' (by decide)
      (dispatch_menu_quit { g with out := g.out ++ [Event.commandRequest] } sc hsc hk)
  · intro c hv hs hq
    have hd := dispatch_menu_other { g with out := g.out ++ [Event.commandRequest] } sc c
      hsc hk hs hq
    rw [loopBody_next g _ c hv hd,
      frame_menu { g with out := g.out ++ [Event.commandRequest] } sc hsc hk]

/-- C17 at program start, with the frame `d` in the menu and the frames `w`
and `q` after `s`. -/
theorem start_frame_simulates_witness :
    (step mainInit 's').sceneManager.currentScene = some (Scene.mk SceneKind.GameScene
      [GameObject.mk Kind.Player ⟨5, 391017 / 78125⟩ ⟨0, 98 / 625⟩,
        Platform.new 4 7, Platform.new 5 7, Platform.new 6 7,
        GameObject.mk Kind.Enemy ⟨996 / 125, 469142 / 78125⟩ ⟨-1, 98 / 625⟩] ⟨0, 0⟩) ∧
    (step mainInit 's').terminated = false ∧
    loopBody mainInit 'd' =
      (Flow.next,
        { mainInit with
          sceneManager := { currentScene := some (MenuScene.update MenuScene.new frameDt) },
          out := mainInit.out ++ [Event.commandRequest] ++ [Event.renderMenu] }) ∧
    (loopBody (run ['s']) 'q').1 = Flow.brk ∧
    (loopBody (run ['s']) 'w').1 = Flow.next := by
  have h := start_frame_simulates mainInit MenuScene.new rfl rfl rfl rfl
  refine ⟨h.2.2.1, h.2.2.2.1, h.2.2.2.2.2.2.1 'd' (by decide) (by decide) (by decide), ?_, ?_⟩
  · rcases h.2.2.2.2.2.2.2.2 (run ['s']) (Scene.mk SceneKind.GameScene
      [GameObject.mk Kind.Player ⟨5, 391017 / 78125⟩ ⟨0, 98 / 625⟩,
        Platform.new 4 7, Platform.new 5 7, Platform.new 6 7,
        GameObject.mk Kind.Enemy ⟨996 / 125, 469142 / 78125⟩ ⟨-1, 98 / 625⟩] ⟨0, 0⟩) 'q'
      (by decide!) rfl (by decide) with ⟨_, _, hq⟩ | ⟨_, _, _, hn⟩
    · rw [hq]
    · exfalso
      have : (loopBody (run ['s']) 'q').1 = Flow.brk := by decide!
      rw [hn] at this
      simp at this
  · rcases h.2.2.2.2.2.2.2.2 (run ['s']) (Scene.mk SceneKind.GameScene
      [GameObject.mk Kind.Player ⟨5, 391017 / 78125⟩ ⟨0, 98 / 625⟩,
        Platform.new 4 7, Platform.new 5 7, Platform.new 6 7,
        GameObject.mk Kind.Enemy ⟨996 / 125, 469142 / 78125⟩ ⟨-1, 98 / 625⟩] ⟨0, 0⟩) 'w'
      (by decide!) rfl (by decide) with ⟨hc, _, _⟩ | ⟨_, _, _, hn⟩
    · exact absurd hc (by decide)
    · rw [hn]

/-- C17 as stated fails: at the end of the frame that receives `s` the
objects are no longer in their construction state, and the scene has been
rendered. -/
theorem start_frame_counterexample :
    (run ['s']).sceneManager.currentScene ≠ some GameScene.new ∧
    ((run ['s']).sceneManager.currentScene.map Scene.objects).getD [] ≠
      [Player.new 5 5, Platform.new 4 7, Platform.new 5 7, Platform.new 6 7, Enemy.new 8 6] ∧
    (run ['s']).out ≠ [Event.menuCreated, Event.commandRequest] := by
  decide!

/-! ## Double integration -/

/-- Truncation lands in `0..9` exactly for values strictly between -1 and 10. -/
theorem truncInt_range (q : ℚ) :
    (truncInt q ≥ 0 ∧ truncInt q < 10) ↔ (-1 < q ∧ q < 10) := by
  unfold truncInt
  by_cases h : 0 ≤ q
  · simp only [h, if_true, ge_iff_le]
    constructor
    · rintro ⟨_, h2⟩
      exact ⟨by linarith, by exact_mod_cast (Int.floor_lt.1 h2)⟩
    · rintro ⟨_, h2⟩
      exact ⟨Int.floor_nonneg.2 h, Int.floor_lt.2 (by exact_mod_cast h2)⟩
  · simp only [h, if_false, ge_iff_le]
    have hq : q < 0 := not_le.1 h
    constructor
    · rintro ⟨h1, _⟩
      have : (-1 : Int) < ⌈q⌉ := by omega
      exact ⟨by exact_mod_cast (Int.lt_ceil.1 this), by linarith⟩
    · rintro ⟨h1, _⟩
      have h3 : (-1 : Int) < ⌈q⌉ := Int.lt_ceil.2 (by exact_mod_cast h1)
      have h4 : ⌈q⌉ ≤ 0 := Int.ceil_le.2 (by exact_mod_cast hq.le)
      exact ⟨by omega, by omega⟩

/-- One plotted object, cell by cell, inside the 10x10 array. -/
theorem plot_cell (grid : Nat → Nat → Char) (o : GameObject) (r c : Nat)
    (hr : r < 10) (hc : c < 10) :
    plot grid o r c =
      if truncInt o.position.x = (c : Int) ∧ truncInt o.position.y = (r : Int)
      then glyph o.kind else grid r c := by
  simp only [plot]
  by_cases hb : truncInt o.position.x ≥ 0 ∧ truncInt o.position.x < 10 ∧
      truncInt o.position.y ≥ 0 ∧ truncInt o.position.y < 10
  · rw [if_pos hb]
    obtain ⟨hx0, _, hy0, _⟩ := hb
    have e1 : (r = (truncInt o.position.y).toNat ∧ c = (truncInt o.position.x).toNat) ↔
        (truncInt o.position.x = (c : Int) ∧ truncInt o.position.y = (r : Int)) := by
      constructor
      · rintro ⟨h1, h2⟩
        exact ⟨by omega, by omega⟩
      · rintro ⟨h1, h2⟩
        exact ⟨by omega, by omega⟩
    by_cases h : truncInt o.position.x = (c : Int) ∧ truncInt o.position.y = (r : Int)
    · rw [if_pos h, if_pos (e1.2 h)]
    · rw [if_neg h, if_neg (fun h1 => h (e1.1 h1))]
  · rw [if_neg hb]
    have h : ¬ (truncInt o.position.x = (c : Int) ∧ truncInt o.position.y = (r : Int)) := by
      rintro ⟨h1, h2⟩
      exact hb ⟨by omega, by omega, by omega, by omega⟩
    rw [if_neg h]

/-- One more object at the end of the vector is plotted last. -/
theorem grid_append (objects : List GameObject) (o : GameObject) :
    Scene.grid (objects ++ [o]) = plot (Scene.grid objects) o := by
  simp [Scene.grid, List.foldl_append]

/-- The cell of the specification after one more object. -/
theorem cellSpec_append (objects : List GameObject) (o : GameObject) (r c : Nat) :
    cellSpec (objects ++ [o]) r c =
      if truncInt o.position.x = (c : Int) ∧ truncInt o.position.y = (r : Int)
      then glyph o.kind else cellSpec objects r c := by
  unfold cellSpec
  by_cases h : truncInt o.position.x = (c : Int) ∧ truncInt o.position.y = (r : Int)
  · rw [if_pos h, List.filter_append]
    have : List.filter (fun o => decide (truncInt o.position.x = (c : Int) ∧
        truncInt o.position.y = (r : Int))) [o] = [o] := by
      simp [List.filter, h]
    rw [this, List.getLast?_concat]
  · rw [if_neg h, List.filter_append]
    have : List.filter (fun o => decide (truncInt o.position.x = (c : Int) ∧
        truncInt o.position.y = (r : Int))) [o] = [] := by
      simp [List.filter, h]
    rw [this, List.append_nil]

/-- Inside the array the grid of `Scene::render` is the cell of the specification. -/
theorem grid_eq_cellSpec (objects : List GameObject) (r c : Nat) (hr : r < 10) (hc : c < 10) :
    Scene.grid objects r c = cellSpec objects r c := by
  induction objects using List.reverseRecOn with
  | nil => rfl
  | append_singleton l o ih =>
    rw [grid_append, plot_cell _ o r c hr hc, cellSpec_append, ih]

/-- No glyph is the empty-cell character. -/
theorem glyph_ne_dot (k : Kind) : glyph k ≠ '.' := by
  cases k <;> decide

/-- The cell of the specification is `.` exactly when no object truncates to it. -/
theorem cellSpec_dot_iff (objects : List GameObject) (r c : Nat) :
    cellSpec objects r c = '.' ↔
      ∀ o ∈ objects, ¬ (truncInt o.position.x = (c : Int) ∧ truncInt o.position.y = (r : Int)) := by
  induction objects using List.reverseRecOn with
  | nil => simp [cellSpec]
  | append_singleton l o ih =>
    rw [cellSpec_append]
    by_cases h : truncInt o.position.x = (c : Int) ∧ truncInt o.position.y = (r : Int)
    · rw [if_pos h]
      constructor
      · intro hd; exact absurd hd (glyph_ne_dot o.kind)
      · intro hall; exact absurd h (hall o (by simp))
    · rw [if_neg h, ih]
      constructor
      · intro hall q hq
        rcases List.mem_append.1 hq with hq | hq
        · exact hall q hq
        · simp at hq; subst hq; exact h
      · intro hall q hq
        exact hall q (List.mem_append.2 (Or.inl hq))

/-- C20 (render grid, amended): for every object sequence and every cell
`(r, c)` of the 10x10 array, the grid of `Scene::render` holds the glyph
`P` / `#` / `E` of the last-inserted object whose position truncated toward
zero is `(x = c, y = r)`, and `.` exactly when no object truncates to that
cell; an object is skipped, changing no cell, exactly when its truncated
position is outside `0..9`, that is when its position is outside
`(-1, 10) x (-1, 10)`; every other object is plotted at its truncated
position. -/
theorem render_grid (objects : List GameObject) (r c : Nat) (grid0 : Nat → Nat → Char)
    (o : GameObject) (hr : r < 10) (hc : c < 10) :
    Scene.grid objects r c = cellSpec objects r c ∧
    (Scene.grid objects r c = '.' ↔
      ∀ q ∈ objects,
        ¬ (truncInt q.position.x = (c : Int) ∧ truncInt q.position.y = (r : Int))) ∧
    (¬ (-1 < o.position.x ∧ o.position.x < 10 ∧ -1 < o.position.y ∧ o.position.y < 10) →
      plot grid0 o = grid0) ∧
    ((-1 < o.position.x ∧ o.position.x < 10 ∧ -1 < o.position.y ∧ o.position.y < 10) →
      plot grid0 o (truncInt o.position.y).toNat (truncInt o.position.x).toNat =
        glyph o.kind) := by
  have hx := truncInt_range o.position.x
  have hy := truncInt_range o.position.y
  refine ⟨grid_eq_cellSpec objects r c hr hc, ?_, ?_, ?_⟩
  · rw [grid_eq_cellSpec objects r c hr hc]
    exact cellSpec_dot_iff objects r c
  · intro hout
    have hb : ¬ (truncInt o.position.x ≥ 0 ∧ truncInt o.position.x < 10 ∧
        truncInt o.position.y ≥ 0 ∧ truncInt o.position.y < 10) := by
      rintro ⟨h1, h2, h3, h4⟩
      exact hout ⟨(hx.1 ⟨h1, h2⟩).1, (hx.1 ⟨h1, h2⟩).2, (hy.1 ⟨h3, h4⟩).1, (hy.1 ⟨h3, h4⟩).2⟩
    simp only [plot, if_neg hb]
  · rintro ⟨h1, h2, h3, h4⟩
    have hb : truncInt o.position.x ≥ 0 ∧ truncInt o.position.x < 10 ∧
        truncInt o.position.y ≥ 0 ∧ truncInt o.position.y < 10 :=
      ⟨(hx.2 ⟨h1, h2⟩).1, (hx.2 ⟨h1, h2⟩).2, (hy.2 ⟨h3, h4⟩).1, (hy.2 ⟨h3, h4⟩).2⟩
    simp only [plot, if_pos hb, and_self, if_true]

/-- C20 on a fresh game scene: the Platform `(5, 7)` at row 7, column 5, an
empty cell, an object far outside that is skipped, and the Player plotted at
row 5, column 5. -/
theorem render_grid_witness :
    Scene.grid GameScene.new.objects 7 5 = '#' ∧
    Scene.grid GameScene.new.objects 0 0 = '.' ∧
    plot (Scene.grid []) (Enemy.new 12 3) = Scene.grid [] ∧
    plot (Scene.grid []) (Player.new 5 5) 5 5 = 'P' := by
  have h1 := render_grid GameScene.new.objects 7 5 (Scene.grid []) (Enemy.new 12 3)
    (by decide) (by decide)
  have h2 := render_grid GameScene.new.objects 0 0 (Scene.grid []) (Player.new 5 5)
    (by decide) (by decide)
  refine ⟨?_, ?_, h1.2.2.1 (by norm_num [Enemy.new]), ?_⟩
  · rw [h1.1]; decide!
  · rw [h2.1]; decide!
  · have h3 := h2.2.2.2 (by norm_num [Player.new])
    have e5 : truncInt (5 : ℚ) = 5 := by decide!
    simpa [Player.new, e5, glyph] using h3

/-- C20 as stated fails: an Enemy at `(-1/2, 3)` lies outside
`[0,10) x [0,10)`, yet truncation toward zero gives column 0 and the object
is drawn at row 3, column 0. -/
theorem render_grid_counterexample :
    (GameObject.mk Kind.Enemy ⟨-1 / 2, 3⟩ ⟨-1, 0⟩).position.x < 0 ∧
    Scene.grid [] 3 0 = '.' ∧
    Scene.grid [GameObject.mk Kind.Enemy ⟨-1 / 2, 3⟩ ⟨-1, 0⟩] 3 0 = 'E' := by
  decide!

/-! ## Scene replacement -/

/-- C15 (scene replacement, amended): for every manager state and every live
scene `s` other than the instance the manager currently holds,
after `setScene(s)` the call `getCurrentScene()` returns `s`, not the
previously active instance; the previous instance has been deleted; and the
manager holds one scene, which is live.  On scene values, the manager after
`setScene(s)` holds `s` whatever it held before. -/
theorem setScene_replaces (m : SceneStore) (s : Nat) (vm vm1 : SceneManager) (vs : Scene)
    (hnew : m.currentScene ≠ some s) (hlive : s ∈ m.live) :
    (m.setScene s).getCurrentScene = some s ∧
    (∀ old, m.currentScene = some old →
      (m.setScene s).getCurrentScene ≠ some old ∧ old ∉ (m.setScene s).live) ∧
    s ∈ (m.setScene s).live ∧
    (∀ a, a ∈ (m.setScene s).live → a ∈ m.live) ∧
    (vm.setScene vs).getCurrentScene = some vs ∧
    vm.setScene vs = vm1.setScene vs := by
  refine ⟨rfl, ?_, ?_, ?_, rfl, rfl⟩
  · intro old hold
    constructor
    · intro h
      have : s = old := Option.some.inj h
      exact hnew (by rw [hold, this])
    · simp [SceneStore.setScene, hold]
  · cases hc : m.currentScene with
    | none => simpa [SceneStore.setScene, hc] using hlive
    | some old =>
      have hne : s ≠ old := fun h => hnew (by rw [hc, h])
      simp [SceneStore.setScene, hc, hlive, hne]
  · intro a ha
    cases hc : m.currentScene with
    | none => simpa [SceneStore.setScene, hc] using ha
    | some old =>
      simp [SceneStore.setScene, hc] at ha
      exact ha.1

/-- C15 on the transition of `main`: the menu at address 0 is replaced by a
game scene at address 1. -/
theorem setScene_replaces_witness :
    ((SceneStore.mk (some 0) [0, 1]).setScene 1).getCurrentScene = some 1 ∧
    ((SceneStore.mk (some 0) [0, 1]).setScene 1).getCurrentScene ≠ some 0 ∧
    0 ∉ ((SceneStore.mk (some 0) [0, 1]).setScene 1).live ∧
    1 ∈ ((SceneStore.mk (some 0) [0, 1]).setScene 1).live ∧
    ((SceneManager.mk (some MenuScene.new)).setScene GameScene.new).getCurrentScene =
      some GameScene.new :=
  have h := setScene_replaces (SceneStore.mk (some 0) [0, 1]) 1
    (SceneManager.mk (some MenuScene.new)) (SceneManager.mk none) GameScene.new
    (by decide) (by decide)
  ⟨h.1, (h.2.1 0 rfl).1, (h.2.1 0 rfl).2, h.2.2.1, h.2.2.2.2.1⟩

/-- C15 as stated fails when `s` is the instance the manager already holds:
`setScene` deletes it and stores its address again, so `getCurrentScene()`
returns the previously active instance, which is no longer live. -/
theorem setScene_same_instance_counterexample :
    ((SceneStore.mk (some 0) [0]).setScene 0).getCurrentScene =
      (SceneStore.mk (some 0) [0]).getCurrentScene ∧
    0 ∉ ((SceneStore.mk (some 0) [0]).setScene 0).live := by
  decide

/-! ## Pair iteration -/

/-- What is printed in an iteration of the inner loop stays printed. -/
theorem innerBody_out_mono (i j : Nat) (acc : PassState × Bool) (e : Event)
    (h : e ∈ acc.1.out) : e ∈ (innerBody i acc j).1.out := by
  rcases innerBody_cases i j acc with h1 | ⟨a, b, _, _, _, h1⟩
  · rw [h1]; exact h
  · rw [h1]; exact List.mem_append.2 (Or.inl h)

/-- An iteration of the inner loop keeps every dynamic type. -/
theorem innerBody_kinds (i j : Nat) (acc : PassState × Bool) :
    (innerBody i acc j).1.objects.map GameObject.kind = acc.1.objects.map GameObject.kind := by
  rcases innerBody_cases i j acc with h1 | ⟨a, b, ha, hb, _, h1⟩
  · rw [h1]
  · rw [h1]
    have hk : (checkCollision a b).a.kind = a.kind :=
      congrArg Prod.fst (staticView_checkCollision_a a b)
    simp only [List.map_set, hk]
    rw [set_same _ i _ (by simp [ha]), set_same _ j _ (by simp [hb])]

/-- An iteration of the inner loop keeps the number of objects. -/
theorem innerBody_length (i j : Nat) (acc : PassState × Bool) :
    (innerBody i acc j).1.objects.length = acc.1.objects.length := by
  have h := congrArg List.length (innerBody_kinds i j acc)
  simpa using h

/-- After `break` the rest of the inner loop does nothing. -/
theorem innerFold_broke (i : Nat) (js : List Nat) (st : PassState) :
    js.foldl (innerBody i) (st, true) = (st, true) := by
  induction js with
  | nil => rfl
  | cons j rest ih => rw [List.foldl_cons, innerBody_broke, ih]

/-- The inner loop keeps what is printed, the dynamic types and the number
of objects. -/
theorem innerFold_keeps (i : Nat) (js : List Nat) (acc : PassState × Bool) :
    (∀ e, e ∈ acc.1.out → e ∈ (js.foldl (innerBody i) acc).1.out) ∧
    (js.foldl (innerBody i) acc).1.objects.map GameObject.kind =
      acc.1.objects.map GameObject.kind ∧
    (js.foldl (innerBody i) acc).1.objects.length = acc.1.objects.length := by
  induction js generalizing acc with
  | nil => exact ⟨fun _ h => h, rfl, rfl⟩
  | cons j rest ih =>
    rw [List.foldl_cons]
    obtain ⟨h1, h2, h3⟩ := ih (innerBody i acc j)
    exact ⟨fun e he => h1 e (innerBody_out_mono i j acc e he),
      by rw [h2, innerBody_kinds], by rw [h3, innerBody_length]⟩

/-- One executed call of the specification's fold. -/
theorem checkPair_run (i j : Nat) (st : PassState) (a b : GameObject)
    (ha : st.objects[i]? = some a) (hb : st.objects[j]? = some b) :
    checkPair st (i, j) =
      { objects := (st.objects.set i (checkCollision a b).a).set j b,
        gameOver := st.gameOver || (checkCollision a b).result,
        out := st.out ++ (checkCollision a b).out,
        calls := st.calls ++ [(i, j)] } := by
  simp [checkPair, ha, hb, checkCollision_b]

/-- Where the inner loop does nothing without `break`, so does the fold. -/
theorem checkPair_skip (i j : Nat) (st : PassState)
    (h : innerBody i (st, false) j = (st, false)) : checkPair st (i, j) = st := by
  cases ha : st.objects[i]? with
  | none => simp [checkPair, ha]
  | some a =>
    cases hb : st.objects[j]? with
    | none => simp [checkPair, ha, hb]
    | some b =>
      rw [innerBody_run i j st a b ha hb] at h
      have hcalls := congrArg (fun p => p.1.calls.length) h
      simp at hcalls

/-- The inner loop of row `i` equals the fold over the pairs of the row,
unless a call returns true at an index that is not the last of the row; then
an Enemy stands at that index and the game-over message has been printed. -/
theorem innerFold_eq_or (i : Nat) (js : List Nat) :
    ∀ st : PassState,
      (js.foldl (innerBody i) (st, false)).1 =
        (js.map (fun j => (i, j))).foldl checkPair st ∨
      ((∃ j ∈ js.dropLast, (st.objects.map GameObject.kind)[j]? = some Kind.Enemy) ∧
        Event.hitEnemy ∈ (js.foldl (innerBody i) (st, false)).1.out) := by
  induction js with
  | nil => intro st; exact Or.inl rfl
  | cons j rest ih =>
    intro st
    rw [List.foldl_cons, List.map_cons, List.foldl_cons]
    have hsub : ∀ x, x ∈ rest.dropLast → x ∈ (j :: rest).dropLast := by
      intro x hx
      cases rest with
      | nil => simp at hx
      | cons y ys => rw [List.dropLast_cons₂]; exact List.mem_cons_of_mem _ hx
    rcases innerBody_cases i j (st, false) with h1 | ⟨a, b, ha, hb, _, h1⟩
    · rw [h1, checkPair_skip i j st h1]
      rcases ih st with h | ⟨⟨x, hx, hk⟩, hhit⟩
      · exact Or.inl h
      · exact Or.inr ⟨⟨x, hsub x hx, hk⟩, hhit⟩
    · simp only at ha hb
      rw [h1, checkPair_run i j st a b ha hb]
      have hkinds : (((st.objects.set i (checkCollision a b).a).set j b).map GameObject.kind) =
          st.objects.map GameObject.kind := by
        have := innerBody_kinds i j (st, false)
        rw [h1] at this
        exact this
      cases hr : (checkCollision a b).result
      · rcases ih { objects := (st.objects.set i (checkCollision a b).a).set j b,
                    gameOver := st.gameOver || (checkCollision a b).result,
                    out := st.out ++ (checkCollision a b).out,
                    calls := st.calls ++ [(i, j)] } with h | ⟨⟨x, hx, hk⟩, hhit⟩
        · rw [hr] at h; exact Or.inl h
        · rw [hr] at hhit
          refine Or.inr ⟨⟨x, hsub x hx, ?_⟩, hhit⟩
          simp only at hk
          rw [hkinds] at hk
          exact hk
      · rw [innerFold_broke]
        cases rest with
        | nil => exact Or.inl rfl
        | cons y ys =>
          refine Or.inr ⟨⟨j, by rw [List.dropLast_cons₂]; exact List.mem_cons_self _ _, ?_⟩, ?_⟩
          · obtain ⟨_, hkb, _⟩ := checkCollision_result_true a b hr
            simp [hb, hkb]
          · exact List.mem_append.2 (Or.inr ((checkCollision_hit_iff a b).2 hr))

/-- An index before the last of the `j` range of a row is not the last index
of the vector. -/
theorem mem_dropLast_range' (s m x : Nat) (h : x ∈ (List.range' s m).dropLast) :
    s ≤ x ∧ x + 1 < s + m := by
  induction m generalizing s with
  | zero => simp at h
  | succ k ih =>
    cases k with
    | zero => simp [List.range'] at h
    | succ k2 =>
      rw [List.range'_succ, List.range'_succ, List.dropLast_cons₂] at h
      rcases List.mem_cons.1 h with h | h
      · omega
      · rw [← List.range'_succ] at h
        have := ih (s + 1) h
        omega

/-- The rows of the pass keep what is printed, the dynamic types and the
number of objects. -/
theorem outerFold_keeps (is : List Nat) (st : PassState) :
    (∀ e, e ∈ st.out → e ∈ (is.foldl innerLoop st).out) ∧
    (is.foldl innerLoop st).objects.map GameObject.kind = st.objects.map GameObject.kind ∧
    (is.foldl innerLoop st).objects.length = st.objects.length := by
  induction is generalizing st with
  | nil => exact ⟨fun _ h => h, rfl, rfl⟩
  | cons i rest ih =>
    rw [List.foldl_cons]
    obtain ⟨h1, h2, h3⟩ := ih (innerLoop st i)
    obtain ⟨k1, k2, k3⟩ := innerFold_keeps i
      (List.range' (i + 1) (st.objects.length - (i + 1))) (st, false)
    exact ⟨fun e he => h1 e (k1 e he), by rw [h2]; exact k2, by rw [h3]; exact k3⟩

/-- The rows of the pass equal the fold over the pairs of these rows, unless
the game-over message is printed while an Enemy stands before the last
position of the vector. -/
theorem outerFold_eq_or (n : Nat) (is : List Nat) :
    ∀ st : PassState, st.objects.length = n →
      is.foldl innerLoop st = (is.flatMap (pairRow n)).foldl checkPair st ∨
      ((∃ j, j + 1 < n ∧ (st.objects.map GameObject.kind)[j]? = some Kind.Enemy) ∧
        Event.hitEnemy ∈ (is.foldl innerLoop st).out) := by
  induction is with
  | nil => intro st _; exact Or.inl rfl
  | cons i rest ih =>
    intro st hn
    rw [List.foldl_cons, List.flatMap_cons, List.foldl_append]
    obtain ⟨k1, k2, k3⟩ := innerFold_keeps i
      (List.range' (i + 1) (st.objects.length - (i + 1))) (st, false)
    have hlen : (innerLoop st i).objects.length = n := by rw [← hn]; exact k3
    have hkinds : (innerLoop st i).objects.map GameObject.kind =
        st.objects.map GameObject.kind := k2
    rcases innerFold_eq_or i (List.range' (i + 1) (st.objects.length - (i + 1))) st with
      h | ⟨⟨x, hx, hk⟩, hhit⟩
    · have hrow : innerLoop st i = (pairRow n i).foldl checkPair st := by
        rw [← hn]; exact h
      rcases ih (innerLoop st i) hlen with h2 | ⟨⟨x, hx, hk⟩, hhit⟩
      · left; rw [h2, hrow]
      · right
        rw [hkinds] at hk
        exact ⟨⟨x, hx, hk⟩, hhit⟩
    · right
      refine ⟨⟨x, ?_, hk⟩, (outerFold_keeps rest (innerLoop st i)).1 _ hhit⟩
      have hx2 : i + 1 ≤ x ∧ x + 1 < (i + 1) + (st.objects.length - (i + 1)) :=
        mem_dropLast_range' _ _ x hx
      omega

/-- The calls of one row form a sublist of the pairs of the row. -/
theorem innerFold_calls (i : Nat) (js : List Nat) :
    ∀ acc : PassState × Bool, ∃ l : List (Nat × Nat),
      l.Sublist (js.map (fun j => (i, j))) ∧
      (js.foldl (innerBody i) acc).1.calls = acc.1.calls ++ l := by
  induction js with
  | nil => intro acc; exact ⟨[], List.Sublist.refl _, by simp⟩
  | cons j rest ih =>
    intro acc
    rw [List.foldl_cons, List.map_cons]
    rcases innerBody_cases i j acc with h1 | ⟨a, b, _, _, _, h1⟩
    · rw [h1]
      obtain ⟨l, hl, hc⟩ := ih acc
      exact ⟨l, List.Sublist.cons _ hl, hc⟩
    · obtain ⟨l, hl, hc⟩ := ih (innerBody i acc j)
      refine ⟨(i, j) :: l, List.Sublist.cons₂ _ hl, ?_⟩
      rw [hc, h1]
      simp

/-- The calls of the rows form a sublist of the pairs of these rows. -/
theorem outerFold_calls (n : Nat) (is : List Nat) :
    ∀ st : PassState, st.objects.length = n → ∃ l : List (Nat × Nat),
      l.Sublist (is.flatMap (pairRow n)) ∧
      (is.foldl innerLoop st).calls = st.calls ++ l := by
  induction is with
  | nil => intro st _; exact ⟨[], List.Sublist.refl _, by simp⟩
  | cons i rest ih =>
    intro st hn
    rw [List.foldl_cons, List.flatMap_cons]
    obtain ⟨_, _, k3⟩ := innerFold_keeps i
      (List.range' (i + 1) (st.objects.length - (i + 1))) (st, false)
    obtain ⟨l1, hl1, hc1⟩ := innerFold_calls i
      (List.range' (i + 1) (st.objects.length - (i + 1))) (st, false)
    obtain ⟨l2, hl2, hc2⟩ := ih (innerLoop st i) (by rw [← hn]; exact k3)
    refine ⟨l1 ++ l2, List.Sublist.append (by rw [← hn]; exact hl1) hl2, ?_⟩
    rw [hc2]
    have : (innerLoop st i).calls = st.calls ++ l1 := hc1
    rw [this, List.append_assoc]

/-- The pair list holds exactly the pairs `i < j < n`. -/
theorem mem_allPairs (n : Nat) (p : Nat × Nat) :
    p ∈ allPairs n ↔ p.1 < p.2 ∧ p.2 < n := by
  obtain ⟨i, j⟩ := p
  simp only [allPairs, pairRow, List.mem_flatMap, List.mem_range, List.mem_map,
    List.mem_range'_1, Prod.mk.injEq]
  constructor
  · rintro ⟨a, _, b, ⟨hb1, hb2⟩, rfl, rfl⟩
    exact ⟨by omega, by omega⟩
  · rintro ⟨h1, h2⟩
    exact ⟨i, by omega, j, ⟨by omega, by omega⟩, rfl, rfl⟩

/-- The fold over pairs inside the vector records every pair and keeps the
number of objects. -/
theorem foldl_checkPair_calls (ps : List (Nat × Nat)) :
    ∀ st : PassState, (∀ p ∈ ps, p.1 < st.objects.length ∧ p.2 < st.objects.length) →
      (ps.foldl checkPair st).calls = st.calls ++ ps ∧
      (ps.foldl checkPair st).objects.length = st.objects.length := by
  induction ps with
  | nil => intro st _; simp
  | cons p rest ih =>
    intro st h
    obtain ⟨i, j⟩ := p
    obtain ⟨hi, hj⟩ := h (i, j) (List.mem_cons_self _ _)
    have ha : st.objects[i]? = some (st.objects[i]) := List.getElem?_eq_getElem hi
    have hb : st.objects[j]? = some (st.objects[j]) := List.getElem?_eq_getElem hj
    rw [List.foldl_cons, checkPair_run i j st _ _ ha hb]
    obtain ⟨h1, h2⟩ := ih
      { objects := (st.objects.set i (checkCollision st.objects[i] st.objects[j]).a).set j
          st.objects[j],
        gameOver := st.gameOver || (checkCollision st.objects[i] st.objects[j]).result,
        out := st.out ++ (checkCollision st.objects[i] st.objects[j]).out,
        calls := st.calls ++ [(i, j)] } (by
      intro q hq
      simpa using h q (List.mem_cons_of_mem _ hq))
    exact ⟨by rw [h1]; simp, by rw [h2]; simp⟩

/-- The fold of the specification calls `checkCollision` on every pair. -/
theorem foldPass_calls (objects : List GameObject) (gameOver : Bool) :
    (foldPass objects gameOver).calls = allPairs objects.length := by
  have h := (foldl_checkPair_calls (allPairs objects.length)
    { objects := objects, gameOver := gameOver, out := [], calls := [] }
    (fun p hp => by
      have := (mem_allPairs objects.length p).1 hp
      exact ⟨by simp only; omega, by simp only; omega⟩)).1
  simpa [foldPass] using h

/-- The pass equals the fold of the specification unless the game-over
message is printed while an Enemy stands before the last position. -/
theorem collisionPass_eq_or (objects : List GameObject) (gameOver : Bool) :
    collisionPass objects gameOver = foldPass objects gameOver ∨
    ((∃ j, j + 1 < objects.length ∧
        (objects.map GameObject.kind)[j]? = some Kind.Enemy) ∧
      Event.hitEnemy ∈ (collisionPass objects gameOver).out) :=
  outerFold_eq_or objects.length (List.range objects.length)
    { objects := objects, gameOver := gameOver, out := [], calls := [] } rfl

/-! ## Pair iteration with `break` -/

/-- A pair of the row that `break` has left is skipped. -/
theorem checkPairBreak_skip (st : PassState) (i j : Nat) :
    checkPairBreak (st, some i) (i, j) = (st, some i) := by
  simp [checkPairBreak]

/-- A pair of another row: `checkCollision` is called, and a true return
marks the row as left. -/
theorem checkPairBreak_run (st : PassState) (row : Option Nat) (i j : Nat) (a b : GameObject)
    (hrow : row ≠ some i)
    (ha : st.objects[i]? = some a) (hb : st.objects[j]? = some b) :
    checkPairBreak (st, row) (i, j) =
      (checkPair st (i, j), if (checkCollision a b).result then some i else row) := by
  simp [checkPairBreak, hrow, ha, hb]

/-- The inner loop of row `i` is the fold of `checkPairBreak` over the pairs
of the row. -/
theorem innerFold_eq_break (i : Nat) (js : List Nat) :
    ∀ (st : PassState) (broke : Bool) (row : Option Nat), row ≠ some i →
      (js.map (fun j => (i, j))).foldl checkPairBreak (st, if broke then some i else row) =
        ((js.foldl (innerBody i) (st, broke)).1,
         if (js.foldl (innerBody i) (st, broke)).2 then some i else row) := by
  induction js with
  | nil => intro st broke row _; rfl
  | cons j rest ih =>
    intro st broke row hrow
    rw [List.map_cons, List.foldl_cons, List.foldl_cons]
    cases broke with
    | true =>
      rw [innerBody_broke]
      simp only [if_true]
      rw [checkPairBreak_skip]
      exact ih st true row hrow
    | false =>
      simp only [Bool.false_eq_true, if_false]
      cases ha : st.objects[i]? with
      | none =>
        rw [innerBody_skip i j (st, false) (Or.inl ha)]
        have : checkPairBreak (st, row) (i, j) = (st, row) := by
          simp [checkPairBreak, hrow, ha]
        rw [this]
        exact ih st false row hrow
      | some a =>
        cases hb : st.objects[j]? with
        | none =>
          rw [innerBody_skip i j (st, false) (Or.inr hb)]
          have : checkPairBreak (st, row) (i, j) = (st, row) := by
            simp [checkPairBreak, hrow, ha, hb]
          rw [this]
          exact ih st false row hrow
        | some b =>
          rw [innerBody_run i j st a b ha hb, checkPairBreak_run st row i j a b hrow ha hb,
            checkPair_run i j st a b ha hb]
          exact ih _ (checkCollision a b).result row hrow

/-- The rows of the pass are the fold of `checkPairBreak` over the pairs of
these rows. -/
theorem outerFold_eq_break (n : Nat) (is : List Nat) :
    is.Nodup → ∀ (st : PassState) (row : Option Nat), (∀ i ∈ is, row ≠ some i) →
      st.objects.length = n →
      ((is.flatMap (pairRow n)).foldl checkPairBreak (st, row)).1 = is.foldl innerLoop st := by
  induction is with
  | nil => intro _ st row _ _; rfl
  | cons i rest ih =>
    intro hnd st row hrow hn
    rw [List.flatMap_cons, List.foldl_append, List.foldl_cons]
    have hrow_i : row ≠ some i := hrow i (List.mem_cons_self _ _)
    have hinner := innerFold_eq_break i (List.range' (i + 1) (n - (i + 1))) st false row hrow_i
    simp only [Bool.false_eq_true, if_false] at hinner
    have hpr : pairRow n i = (List.range' (i + 1) (n - (i + 1))).map (fun j => (i, j)) := rfl
    rw [hpr, hinner]
    have hloop : innerLoop st i =
        ((List.range' (i + 1) (n - (i + 1))).foldl (innerBody i) (st, false)).1 := by
      unfold innerLoop; rw [hn]
    rw [← hloop]
    obtain ⟨_, _, k3⟩ := innerFold_keeps i
      (List.range' (i + 1) (st.objects.length - (i + 1))) (st, false)
    have hlen : (innerLoop st i).objects.length = n := by rw [← hn]; exact k3
    have hnd2 := List.nodup_cons.1 hnd
    apply ih hnd2.2 (innerLoop st i) _ _ hlen
    intro i2 hi2
    split_ifs
    · intro h
      have : i = i2 := Option.some.inj h
      subst this
      exact hnd2.1 hi2
    · exact hrow i2 (List.mem_cons_of_mem _ hi2)

/-- The collision pass is the fold over all pairs that skips the rest of a
row once a call of the row has returned true. -/
theorem collisionPass_eq_breakPass (objects : List GameObject) (gameOver : Bool) :
    collisionPass objects gameOver = breakPass objects gameOver := by
  unfold collisionPass breakPass allPairs
  exact (outerFold_eq_break objects.length (List.range objects.length) (List.nodup_range _)
    { objects := objects, gameOver := gameOver, out := [], calls := [] } none
    (fun _ _ => by simp) rfl).symm

/-- A true return ends the row: the state after the call is the state after
the whole rest of the row, whatever indices remain. -/
theorem innerFold_hit (i j : Nat) (rest : List Nat) (st : PassState) (a b : GameObject)
    (ha : st.objects[i]? = some a) (hb : st.objects[j]? = some b)
    (hr : (checkCollision a b).result = true) :
    ((j :: rest).foldl (innerBody i) (st, false)).1 =
      { objects := st.objects, gameOver := true, out := st.out ++ [Event.hitEnemy],
        calls := st.calls ++ [(i, j)] } := by
  rw [List.foldl_cons, innerBody_run i j st a b ha hb, hr, innerFold_broke]
  obtain ⟨hka, hkb, hsame⟩ := checkCollision_result_true a b hr
  have hout : (checkCollision a b).out = [Event.hitEnemy] := by
    have hc : collided a.position b.position = true := by
      by_contra hc
      rw [checkCollision_of_not_collided a b (by simpa using hc)] at hr
      simp at hr
    rw [checkCollision_player_enemy a b hc hka hkb]
  simp only [hsame, hout, Bool.or_true]
  rw [set_same _ i a ha, set_same _ j b hb]

/-- C13 (pair iteration policy, amended): a frame first integrates every
object and only then runs the collision pass; the pass calls
`checkCollision` at most once on each pair `(objects[i], objects[j])`,
`i < j`, in lexicographic order with the earlier-inserted object first; in
general the pass equals the fold of `checkCollision` over the list of all
pairs `i < j` in which, once a call on `(i, j)` has returned true, the
remaining pairs of row `i` are skipped (the state right after that call is
the state at the end of row `i`, with no further call recorded); when no
call returns true, and also whenever no Enemy stands before the last
position of the sequence (as in `GameScene()`), every pair is called exactly
once and the pass equals the fold over all pairs. -/
theorem pair_iteration (objects : List GameObject) (gameOver : Bool) :
    framePass objects gameOver =
      collisionPass (objects.map (fun obj => applyPhysics obj frameDt)) gameOver ∧
    (collisionPass objects gameOver).calls.Sublist (allPairs objects.length) ∧
    (∀ p, p ∈ allPairs objects.length ↔ p.1 < p.2 ∧ p.2 < objects.length) ∧
    collisionPass objects gameOver = breakPass objects gameOver ∧
    (∀ (st : PassState) (row : Option Nat) (i j : Nat) (a b : GameObject),
      st.objects[i]? = some a → st.objects[j]? = some b →
      (checkPairBreak (st, some i) (i, j) = (st, some i)) ∧
      (row ≠ some i →
        checkPairBreak (st, row) (i, j) =
          (checkPair st (i, j), if (checkCollision a b).result then some i else row))) ∧
    (∀ (st : PassState) (i j : Nat) (rest : List Nat) (a b : GameObject),
      st.objects[i]? = some a → st.objects[j]? = some b →
      (checkCollision a b).result = true →
      ((j :: rest).foldl (innerBody i) (st, false)).1 =
        { objects := st.objects, gameOver := true, out := st.out ++ [Event.hitEnemy],
          calls := st.calls ++ [(i, j)] }) ∧
    (Event.hitEnemy ∉ (collisionPass objects gameOver).out →
      collisionPass objects gameOver = foldPass objects gameOver ∧
      (collisionPass objects gameOver).calls = allPairs objects.length) ∧
    ((∀ j e, j + 1 < objects.length → objects[j]? = some e → e.kind ≠ Kind.Enemy) →
      collisionPass objects gameOver = foldPass objects gameOver ∧
      (collisionPass objects gameOver).calls = allPairs objects.length) := by
  refine ⟨rfl, ?_, mem_allPairs objects.length, collisionPass_eq_breakPass objects gameOver,
    ?_, ?_, ?_, ?_⟩
  · obtain ⟨l, hl, hc⟩ := outerFold_calls objects.length (List.range objects.length)
      { objects := objects, gameOver := gameOver, out := [], calls := [] } rfl
    have : (collisionPass objects gameOver).calls = l := by
      simpa [collisionPass] using hc
    rw [this]
    exact hl
  · intro st row i j a b ha hb
    exact ⟨checkPairBreak_skip st i j, fun hrow => checkPairBreak_run st row i j a b hrow ha hb⟩
  · intro st i j rest a b ha hb hr
    exact innerFold_hit i j rest st a b ha hb hr
  · intro hno
    rcases collisionPass_eq_or objects gameOver with h | ⟨_, hhit⟩
    · exact ⟨h, by rw [h]; exact foldPass_calls objects gameOver⟩
    · exact absurd hhit hno
  · intro hlast
    rcases collisionPass_eq_or objects gameOver with h | ⟨⟨j, hj, hk⟩, _⟩
    · exact ⟨h, by rw [h]; exact foldPass_calls objects gameOver⟩
    · exfalso
      rw [List.getElem?_map] at hk
      cases he : objects[j]? with
      | none => rw [he] at hk; simp at hk
      | some e =>
        rw [he] at hk
        simp at hk
        exact hlast j e hj he hk

/-- C13 on the objects of a fresh game scene (no call returns true), on a
Player that hits an Enemy standing at the last position, and on a Player
that hits an Enemy at index 1 before a Platform at index 2: there the pass
is the fold with `break`, and its calls are `(0, 1)` and `(1, 2)` only. -/
theorem pair_iteration_witness :
    (collisionPass GameScene.new.objects false = foldPass GameScene.new.objects false ∧
     (collisionPass GameScene.new.objects false).calls = allPairs 5) ∧
    (collisionPass [Player.new 5 5, Platform.new 5 7, Enemy.new 5 5] false =
       foldPass [Player.new 5 5, Platform.new 5 7, Enemy.new 5 5] false ∧
     (collisionPass [Player.new 5 5, Platform.new 5 7, Enemy.new 5 5] false).calls =
       allPairs 3) ∧
    (collisionPass [Player.new 5 5, Enemy.new 5 5, Platform.new 5 (11 / 2)] false).calls =
      [(0, 1), (1, 2)] := by
  refine ⟨(pair_iteration GameScene.new.objects false).2.2.2.2.2.2.1 (by decide!),
   (pair_iteration [Player.new 5 5, Platform.new 5 7, Enemy.new 5 5] false).2.2.2.2.2.2.2 (by
     intro j e hj he
     rcases j with _ | _ | j
     · simp at he; rw [← he]; simp [Player.new]
     · simp at he; rw [← he]; simp [Platform.new]
     · simp at hj; omega), ?_⟩
  rw [(pair_iteration [Player.new 5 5, Enemy.new 5 5, Platform.new 5 (11 / 2)] false).2.2.2.1]
  decide!

/-- C13 as stated fails: with a Player overlapping an Enemy at index 1 and a
Platform at index 2, the call on `(0, 1)` returns true, `break` leaves row 0,
and `checkCollision` is never called on the pair `(0, 2)`; the fold over all
pairs would have landed the Player on the Platform. -/
theorem pair_iteration_counterexample :
    (collisionPass [Player.new 5 5, Enemy.new 5 5, Platform.new 5 (11 / 2)] false).calls =
      [(0, 1), (1, 2)] ∧
    allPairs 3 = [(0, 1), (0, 2), (1, 2)] ∧
    (collisionPass [Player.new 5 5, Enemy.new 5 5, Platform.new 5 (11 / 2)] false).objects ≠
      (foldPass [Player.new 5 5, Enemy.new 5 5, Platform.new 5 (11 / 2)] false).objects := by
  decide!

/-! ## The collision pass on the scene built by `GameScene()` -/

/-- The ten pairs of five objects. -/
theorem allPairs_five :
    allPairs 5 = [(0, 1), (0, 2), (0, 3), (0, 4), (1, 2), (1, 3), (1, 4), (2, 3), (2, 4),
      (3, 4)] := by
  decide

/-- A call against a Platform never returns true. -/
theorem checkCollision_platform_result (a b : GameObject) (hb : b.kind = Kind.Platform) :
    (checkCollision a b).result = false := by
  cases h : (checkCollision a b).result
  · rfl
  · obtain ⟨_, hkb, _⟩ := checkCollision_result_true a b h
    rw [hb] at hkb
    exact absurd hkb (by decide)

/-- A call with a Platform first does nothing. -/
theorem checkCollision_platform_first (a b : GameObject) (ha : a.kind = Kind.Platform) :
    checkCollision a b = { result := false, a := a, b := b, out := [] } :=
  checkCollision_other_kinds a b (by simp [ha]) (by simp [ha])

/-- A call against an Enemy writes nothing. -/
theorem checkCollision_enemy_a (a b : GameObject) (hb : b.kind = Kind.Enemy) :
    (checkCollision a b).a = a := by
  by_cases h1 : a.kind = Kind.Player ∧ b.kind = Kind.Platform
  · rw [hb] at h1
    exact absurd h1.2 (by decide)
  · by_cases h2 : a.kind = Kind.Player ∧ b.kind = Kind.Enemy
    · cases hc : collided a.position b.position
      · rw [checkCollision_of_not_collided a b hc]
      · rw [checkCollision_player_enemy a b hc h2.1 h2.2]
    · rw [checkCollision_other_kinds a b h1 h2]

/-- The first argument keeps its dynamic type. -/
theorem checkCollision_a_kind (a b : GameObject) : (checkCollision a b).a.kind = a.kind :=
  congrArg Prod.fst (staticView_checkCollision_a a b)

/-- The fold of the specification on a scene of the shape built by
`GameScene()`. -/
theorem foldPass_duel (p e : GameObject) (gameOver : Bool) (he : e.kind = Kind.Enemy) :
    foldPass [p, Platform.new 4 7, Platform.new 5 7, Platform.new 6 7, e] gameOver =
      { objects := [landed p, Platform.new 4 7, Platform.new 5 7, Platform.new 6 7, e],
        gameOver := gameOver || (checkCollision (landed p) e).result,
        out := landedOut p ++ (checkCollision (landed p) e).out,
        calls := allPairs 5 } := by
  have k4 : (Platform.new 4 7).kind = Kind.Platform := rfl
  have k5 : (Platform.new 5 7).kind = Kind.Platform := rfl
  have k6 : (Platform.new 6 7).kind = Kind.Platform := rfl
  simp only [foldPass, List.length_cons, List.length_nil, Nat.zero_add, Nat.reduceAdd,
    allPairs_five, List.foldl_cons, List.foldl_nil]
  simp [checkPair, checkCollision_b, checkCollision_platform_result _ _ k4,
    checkCollision_platform_result _ _ k5, checkCollision_platform_result _ _ k6,
    checkCollision_platform_first _ _ k4, checkCollision_platform_first _ _ k5,
    checkCollision_platform_first _ _ k6, checkCollision_enemy_a _ _ he, landed, landedOut,
    allPairs_five]

/-- The collision pass on a scene of the shape built by `GameScene()`: the
Player goes through the three platform calls, then meets the Enemy; nothing
else changes and all ten pairs are called. -/
theorem collisionPass_duel (p e : GameObject) (gameOver : Bool)
    (hp : p.kind = Kind.Player) (he : e.kind = Kind.Enemy) :
    collisionPass [p, Platform.new 4 7, Platform.new 5 7, Platform.new 6 7, e] gameOver =
      { objects := [landed p, Platform.new 4 7, Platform.new 5 7, Platform.new 6 7, e],
        gameOver := gameOver || (checkCollision (landed p) e).result,
        out := landedOut p ++ (checkCollision (landed p) e).out,
        calls := allPairs 5 } := by
  rcases collisionPass_eq_or [p, Platform.new 4 7, Platform.new 5 7, Platform.new 6 7, e]
    gameOver with h | ⟨⟨j, hj, hk⟩, _⟩
  · rw [h, foldPass_duel p e gameOver he]
  · exfalso
    rcases j with _ | _ | _ | _ | j
    · simp [hp] at hk
    · simp [Platform.new] at hk
    · simp [Platform.new] at hk
    · simp [Platform.new] at hk
    · simp only [List.length_cons, List.length_nil] at hj
      omega

/-- A Player at height 6 overlaps no Platform of height 7. -/
theorem collided_at_six (x bx : ℚ) : collided ⟨x, 6⟩ ⟨bx, 7⟩ = false := by
  simp only [collided, decide_eq_false_iff_not]
  intro h
  linarith [h.2.2.2]

/-- The three platform calls of row 0: either the Player overlaps none of
the Platforms and is unchanged, or it overlaps one, its height is strictly
between 6 and 8, and it is snapped to height 6 with `velocity.y = 0`. -/
theorem landed_cases (p : GameObject) (hp : p.kind = Kind.Player) :
    (landed p = p ∧
      collided p.position ⟨4, 7⟩ = false ∧ collided p.position ⟨5, 7⟩ = false ∧
      collided p.position ⟨6, 7⟩ = false) ∨
    (landed p = { kind := Kind.Player, position := ⟨p.position.x, 6⟩,
                  velocity := ⟨p.velocity.x, 0⟩ } ∧
      6 < p.position.y ∧ p.position.y < 8) := by
  have snap : ∀ bx : ℚ, collided p.position ⟨bx, 7⟩ = true →
      checkCollision p (Platform.new bx 7) =
        { result := false,
          a := { kind := Kind.Player, position := ⟨p.position.x, 6⟩,
                 velocity := ⟨p.velocity.x, 0⟩ },
          b := Platform.new bx 7, out := [Event.landed] } ∧
      6 < p.position.y ∧ p.position.y < 8 := by
    intro bx hc
    have h := checkCollision_player_platform p (Platform.new bx 7) hc hp rfl
    have h4 := (collided_iff _ _).1 hc
    simp only at h4
    refine ⟨?_, by linarith [h4.2.2.2], by linarith [h4.2.2.1]⟩
    rw [h, hp]
    norm_num [Platform.new]
  have miss : ∀ (q : GameObject) (bx : ℚ), collided q.position ⟨bx, 7⟩ = false →
      (checkCollision q (Platform.new bx 7)).a = q := by
    intro q bx hc
    rw [checkCollision_of_not_collided q (Platform.new bx 7) hc]
  have stay : ∀ bx : ℚ,
      (checkCollision (GameObject.mk Kind.Player ⟨p.position.x, 6⟩ ⟨p.velocity.x, 0⟩)
        (Platform.new bx 7)).a =
        GameObject.mk Kind.Player ⟨p.position.x, 6⟩ ⟨p.velocity.x, 0⟩ := by
    intro bx
    exact miss _ bx (collided_at_six _ _)
  unfold landed
  cases c1 : collided p.position ⟨4, 7⟩
  · rw [miss p 4 c1]
    cases c2 : collided p.position ⟨5, 7⟩
    · rw [miss p 5 c2]
      cases c3 : collided p.position ⟨6, 7⟩
      · rw [miss p 6 c3]
        exact Or.inl ⟨rfl, rfl, rfl, rfl⟩
      · obtain ⟨h, h6, h8⟩ := snap 6 c3
        rw [h]
        exact Or.inr ⟨rfl, h6, h8⟩
    · obtain ⟨h, h6, h8⟩ := snap 5 c2
      rw [h]
      simp only
      rw [stay 6]
      exact Or.inr ⟨rfl, h6, h8⟩
  · obtain ⟨h, h6, h8⟩ := snap 4 c1
    rw [h]
    simp only
    rw [stay 5, stay 6]
    exact Or.inr ⟨rfl, h6, h8⟩

/-! ## Player and Enemy of the scene built by `GameScene()` -/

/-- Physics keeps `duelOK`, for every `dt >= 0`. -/
theorem duelOK_applyPhysics (p e : GameObject) (dt : ℚ) (hdt : 0 ≤ dt) (h : duelOK p e) :
    duelOK (applyPhysics p dt) (applyPhysics e dt) := by
  obtain ⟨hp, he, hd, hv, hev, hey, hvx⟩ := h
  have hpn : p.kind ≠ Kind.Platform := by rw [hp]; decide
  have hen : e.kind ≠ Kind.Platform := by rw [he]; decide
  have hg : (0 : ℚ) ≤ gravity := by norm_num [gravity]
  have hgd : 0 ≤ gravity * dt := mul_nonneg hg hdt
  simp only [duelOK, applyPhysics, hpn, hen, if_false, GameObject.setVelocity,
    GameObject.setPosition, Vector2.add, Vector2.mul]
  refine ⟨hp, he, ?_, by linarith, by linarith, ?_, hvx⟩
  · have : 0 ≤ (e.velocity.y - p.velocity.y) * dt := mul_nonneg (by linarith) hdt
    nlinarith
  · have : 0 ≤ (e.velocity.y + gravity * dt) * dt := mul_nonneg (by linarith) hdt
    linarith

/-- The platform calls of row 0 keep `duelOK`. -/
theorem duelOK_landed (p e : GameObject) (h : duelOK p e) : duelOK (landed p) e := by
  obtain ⟨hp, he, hd, hv, hev, hey, hvx⟩ := h
  rcases landed_cases p hp with ⟨h1, _⟩ | ⟨h1, h6, _⟩
  · rw [h1]; exact ⟨hp, he, hd, hv, hev, hey, hvx⟩
  · rw [h1]
    exact ⟨rfl, he, by simp only; linarith, hev, hev, hey, hvx⟩

/-- Under `duelOK` the Player / Enemy call returns false and prints nothing. -/
theorem duelOK_no_hit (p e : GameObject) (h : duelOK p e) :
    (checkCollision p e).result = false ∧ (checkCollision p e).out = [] ∧
    collided p.position e.position = false := by
  obtain ⟨_, _, hd, _⟩ := h
  have hc : collided p.position e.position = false := by
    simp only [collided, decide_eq_false_iff_not]
    intro h4
    linarith [h4.2.2.2]
  rw [checkCollision_of_not_collided p e hc]
  exact ⟨rfl, rfl, hc⟩

/-- The four intents keep `duelOK`. -/
theorem duelOK_intent (p e : GameObject) (c : Char) (h : duelOK p e) :
    duelOK (if c = 'w' then Player.jump p
      else if c = 'a' then Player.moveLeft p
      else if c = 'd' then Player.moveRight p
      else Player.stopHorizontal p) e := by
  obtain ⟨hp, he, hd, hv, hev, hey, hvx⟩ := h
  split_ifs
  · exact ⟨hp, he, hd, by simp only [Player.jump]; linarith, hev, hey, hvx⟩
  · exact ⟨hp, he, hd, hv, hev, hey, hvx⟩
  · exact ⟨hp, he, hd, hv, hev, hey, hvx⟩
  · exact ⟨hp, he, hd, hv, hev, hey, hvx⟩

/-- After `Enemy::update` the Enemy is between the walls, at horizontal speed
1 if it was before; its height advances by `velocity.y * dt`. -/
theorem Enemy_update_spec (e : GameObject) (dt : ℚ) (he : e.kind = Kind.Enemy) :
    (e.update dt).kind = Kind.Enemy ∧
    (e.update dt).position.y = e.position.y + e.velocity.y * dt ∧
    (e.update dt).velocity.y = e.velocity.y ∧
    0 ≤ (e.update dt).position.x ∧ (e.update dt).position.x ≤ 9 ∧
    ((e.velocity.x = -1 ∨ e.velocity.x = 1) →
      ((e.update dt).velocity.x = -1 ∨ (e.update dt).velocity.x = 1)) := by
  simp only [GameObject.update, he, Enemy.update, Vector2.add, Vector2.mul]
  split_ifs with h1 h2 h3 <;> simp_all

/-- After `Player::update` the velocity is unchanged and the height is the
integrated height clamped to `[0, 9]`. -/
theorem Player_update_spec (p : GameObject) (dt : ℚ) (hp : p.kind = Kind.Player) :
    (p.update dt).kind = Kind.Player ∧
    (p.update dt).velocity = p.velocity ∧
    (p.update dt).position.y =
      (if p.position.y + p.velocity.y * dt < 0 then 0
       else if p.position.y + p.velocity.y * dt > 9 then 9
       else p.position.y + p.velocity.y * dt) := by
  simp only [GameObject.update, hp, Player.update, Vector2.add, Vector2.mul]
  split_ifs <;> simp_all <;> linarith

/-- The scene update keeps `duelOK`, for every `dt >= 0`. -/
theorem duelOK_update (p e : GameObject) (dt : ℚ) (hdt : 0 ≤ dt) (h : duelOK p e) :
    duelOK (p.update dt) (e.update dt) := by
  obtain ⟨hp, he, hd, hv, hev, hey, hvx⟩ := h
  obtain ⟨pk, pv, py⟩ := Player_update_spec p dt hp
  obtain ⟨ek, ey, ev, _, _, evx⟩ := Enemy_update_spec e dt he
  have h1 : 0 ≤ e.velocity.y * dt := mul_nonneg hev hdt
  have h2 : 0 ≤ (e.velocity.y - p.velocity.y) * dt := mul_nonneg (by linarith) hdt
  refine ⟨pk, ek, ?_, by rw [pv, ev]; exact hv, by rw [ev]; exact hev, by rw [ey]; linarith,
    evx hvx⟩
  rw [py, ey]
  split_ifs with c1 c2
  · linarith
  · linarith
  · nlinarith

/-- One frame on a scene of the shape built by `GameScene()`: the scene, the
flag `gameOver` and the loop flag after physics, the pass, update and render. -/
theorem frame_duel (g1 : Game) (p e : GameObject)
    (hsc : g1.sceneManager.currentScene = some (Scene.mk SceneKind.GameScene
      [p, Platform.new 4 7, Platform.new 5 7, Platform.new 6 7, e] ⟨0, 0⟩))
    (hp : p.kind = Kind.Player) (he : e.kind = Kind.Enemy) :
    (updateAndRender (simulate g1)).sceneManager.currentScene =
      some (Scene.mk SceneKind.GameScene
        [(landed (applyPhysics p frameDt)).update frameDt,
          Platform.new 4 7, Platform.new 5 7, Platform.new 6 7,
          (applyPhysics e frameDt).update frameDt] ⟨0, 0⟩) ∧
    (updateAndRender (simulate g1)).gameOver =
      (g1.gameOver ||
        (checkCollision (landed (applyPhysics p frameDt)) (applyPhysics e frameDt)).result) ∧
    (updateAndRender (simulate g1)).terminated = g1.terminated ∧
    (framePass [p, Platform.new 4 7, Platform.new 5 7, Platform.new 6 7, e]
        g1.gameOver).objects =
      [landed (applyPhysics p frameDt), Platform.new 4 7, Platform.new 5 7,
        Platform.new 6 7, applyPhysics e frameDt] ∧
    (framePass [p, Platform.new 4 7, Platform.new 5 7, Platform.new 6 7, e]
        g1.gameOver).out =
      landedOut (applyPhysics p frameDt) ++
        (checkCollision (landed (applyPhysics p frameDt)) (applyPhysics e frameDt)).out := by
  have hp1 : (applyPhysics p frameDt).kind = Kind.Player :=
    (congrArg Prod.fst (staticView_applyPhysics p frameDt)).trans hp
  have he1 : (applyPhysics e frameDt).kind = Kind.Enemy :=
    (congrArg Prod.fst (staticView_applyPhysics e frameDt)).trans he
  have hl : (landed (applyPhysics p frameDt)).kind = Kind.Player := by
    simp only [landed, checkCollision_a_kind, hp1]
  have hpass : framePass [p, Platform.new 4 7, Platform.new 5 7, Platform.new 6 7, e]
      g1.gameOver =
      { objects := [landed (applyPhysics p frameDt), Platform.new 4 7, Platform.new 5 7,
          Platform.new 6 7, applyPhysics e frameDt],
        gameOver := g1.gameOver ||
          (checkCollision (landed (applyPhysics p frameDt)) (applyPhysics e frameDt)).result,
        out := landedOut (applyPhysics p frameDt) ++
          (checkCollision (landed (applyPhysics p frameDt)) (applyPhysics e frameDt)).out,
        calls := allPairs 5 } := by
    have hphys : List.map (fun obj => applyPhysics obj frameDt)
        [p, Platform.new 4 7, Platform.new 5 7, Platform.new 6 7, e] =
        [applyPhysics p frameDt, Platform.new 4 7, Platform.new 5 7, Platform.new 6 7,
          applyPhysics e frameDt] := by
      simp [applyPhysics, Platform.new]
    rw [framePass, hphys, collisionPass_duel _ _ _ hp1 he1]
  have hupd : List.map (fun obj => obj.update frameDt)
      [landed (applyPhysics p frameDt), Platform.new 4 7, Platform.new 5 7,
        Platform.new 6 7, applyPhysics e frameDt] =
      [(landed (applyPhysics p frameDt)).update frameDt, Platform.new 4 7,
        Platform.new 5 7, Platform.new 6 7, (applyPhysics e frameDt).update frameDt] := rfl
  rw [frame_game g1 _ hsc rfl, hpass]
  simp only [hupd]
  refine ⟨?_, ?_, ?_, ?_, ?_⟩ <;> first | rfl | trivial

/-! ## The invariant of runs from program start -/

/-- The shape behind `duelScene`. -/
theorem duelScene_iff (sc : Scene) :
    duelScene sc ↔ ∃ p e,
      sc = Scene.mk SceneKind.GameScene
        [p, Platform.new 4 7, Platform.new 5 7, Platform.new 6 7, e] ⟨0, 0⟩ ∧
      duelOK p e ∧ inWorld p.position ∧ 0 ≤ e.position.x ∧ e.position.x ≤ 9 := by
  obtain ⟨kind, objects, position⟩ := sc
  constructor
  · intro h
    unfold duelScene at h
    split at h
    · rename_i p q1 q2 q3 e heq
      simp only at heq h
      obtain ⟨hk, hpos, h1, h2, h3, hd, hw, hx0, hx9⟩ := h
      subst heq hk hpos h1 h2 h3
      exact ⟨p, e, rfl, hd, hw, hx0, hx9⟩
    · exact absurd h id
  · rintro ⟨p, e, heq, hd, hw, hx0, hx9⟩
    rw [heq]
    exact ⟨rfl, rfl, rfl, rfl, rfl, hd, hw, hx0, hx9⟩

/-- A fresh game scene satisfies `duelOK`. -/
theorem duelOK_fresh : duelOK (Player.new 5 5) (Enemy.new 8 6) := by
  refine ⟨rfl, rfl, ?_, ?_, ?_, ?_, Or.inl rfl⟩ <;> norm_num [Player.new, Enemy.new]

/-- The simulated part of a frame on a scene of the shape built by
`GameScene()` under `duelOK`: at the Player / Enemy call of the pass the
Enemy is at least one unit below the Player and the call returns false;
`gameOver` stays as it was, and the scene at the end of the frame is a
`duelScene`. -/
theorem frame_duelOK (g1 : Game) (p e : GameObject)
    (hsc : g1.sceneManager.currentScene = some (Scene.mk SceneKind.GameScene
      [p, Platform.new 4 7, Platform.new 5 7, Platform.new 6 7, e] ⟨0, 0⟩))
    (h : duelOK p e) :
    duelOK (landed (applyPhysics p frameDt)) (applyPhysics e frameDt) ∧
    (checkCollision (landed (applyPhysics p frameDt)) (applyPhysics e frameDt)).result = false ∧
    (updateAndRender (simulate g1)).gameOver = g1.gameOver ∧
    (updateAndRender (simulate g1)).terminated = g1.terminated ∧
    ∃ sc2, (updateAndRender (simulate g1)).sceneManager.currentScene = some sc2 ∧
      duelScene sc2 := by
  have hdt : (0 : ℚ) ≤ frameDt := by norm_num [frameDt]
  have h1 := duelOK_landed _ _ (duelOK_applyPhysics p e frameDt hdt h)
  have h2 := duelOK_update _ _ frameDt hdt h1
  obtain ⟨hres, _, _⟩ := duelOK_no_hit _ _ h1
  obtain ⟨f1, f2, f3, _, _⟩ := frame_duel g1 p e hsc h.1 h.2.1
  refine ⟨h1, hres, by rw [f2, hres]; simp, f3, _, f1, ?_⟩
  rw [duelScene_iff]
  refine ⟨_, _, rfl, h2, ?_, ?_, ?_⟩
  · have : (landed (applyPhysics p frameDt)).update frameDt =
        Player.update (landed (applyPhysics p frameDt)) frameDt := by
      simp [GameObject.update, h1.1]
    rw [this]
    exact Player_update_inWorld _ _
  · exact (Enemy_update_spec _ frameDt h1.2.1).2.2.2.1
  · exact (Enemy_update_spec _ frameDt h1.2.1).2.2.2.2.1

/-- The end of a simulated frame under `runOK`: the loop goes on. -/
theorem step_frame_duel (g g1 : Game) (c : Char) (p e : GameObject)
    (ht : g.terminated = false) (hv : validCommand c = true)
    (hd : dispatch { g with out := g.out ++ [Event.commandRequest] } c = (Flow.next, g1))
    (hgo : g1.gameOver = false) (ht1 : g1.terminated = false)
    (hsc : g1.sceneManager.currentScene = some (Scene.mk SceneKind.GameScene
      [p, Platform.new 4 7, Platform.new 5 7, Platform.new 6 7, e] ⟨0, 0⟩))
    (h : duelOK p e) :
    step g c = updateAndRender (simulate g1) ∧ runOK (step g c) ∧
    (step g c).terminated = false := by
  obtain ⟨_, _, f3, f4, sc2, hsc2, hduel⟩ := frame_duelOK g1 p e hsc h
  have hstep : step g c = updateAndRender (simulate g1) := by
    rw [step_of_next g _ c ht (Or.inl (loopBody_next g g1 c hv hd)), f3, hgo]
    simp
  refine ⟨hstep, ?_, by rw [hstep, f4, ht1]⟩
  rw [hstep]
  refine ⟨by rw [f3, hgo], ?_⟩
  rw [hsc2]
  exact Or.inr hduel

/-- Every command keeps `runOK`, and the loop is left only on `q`. -/
theorem step_runOK (g : Game) (c : Char) (h : runOK g) :
    runOK (step g c) ∧
    (g.terminated = false → (step g c).terminated = true → c = 'q') := by
  cases ht : g.terminated
  swap
  · have : step g c = g := by simp [step, ht]
    rw [this]
    exact ⟨h, fun h0 => by simp at h0⟩
  obtain ⟨hgo, hscene⟩ := h
  cases hcur : g.sceneManager.currentScene with
  | none => rw [hcur] at hscene; exact absurd hscene id
  | some sc =>
    rw [hcur] at hscene
    have hkeep : ∀ g2 : Game, g2.gameOver = false →
        g2.sceneManager.currentScene = some sc → runOK g2 := by
      intro g2 h1 h2
      refine ⟨h1, ?_⟩
      rw [h2]
      exact hscene
    cases hv : validCommand c
    · have hs : step g c =
          { g with out := g.out ++ [Event.commandRequest, Event.invalidCommand] } := by
        rw [step_of_next g _ c ht (Or.inr (loopBody_invalid g c hv))]
        simp [hgo]
      rw [hs]
      exact ⟨hkeep _ hgo hcur, fun _ h1 => by rw [ht] at h1; simp at h1⟩
    · by_cases hq : c = 'q'
      · subst hq
        have hb : step g 'q' = leave { g with out := g.out ++ [Event.commandRequest] } := by
          rcases hscene with hm | hduel
          · exact step_of_brk g _ 'q' ht (loopBody_brk g _ 'q' hv
              (dispatch_menu_quit _ sc hcur (by rw [hm]; rfl)))
          · obtain ⟨p, e, heq, hd, _⟩ := (duelScene_iff sc).1 hduel
            have hf : findPlayer sc.objects = some 0 := by
              rw [heq]; simp [findPlayer, hd.1]
            exact step_of_brk g _ 'q' ht (loopBody_brk g _ 'q' hv
              (dispatch_game_quit _ sc 0 p hcur (by rw [heq]) hf (by rw [heq]; rfl)))
        rw [hb]
        exact ⟨hkeep _ hgo hcur, fun _ _ => rfl⟩
      · rcases hscene with hm | hduel
        · by_cases hs : c = 's'
          · subst hs
            have hd := dispatch_menu_start { g with out := g.out ++ [Event.commandRequest] }
              sc hcur (by rw [hm]; rfl)
            obtain ⟨_, h2, h3⟩ := step_frame_duel g _ 's' (Player.new 5 5) (Enemy.new 8 6)
              ht hv hd hgo ht rfl duelOK_fresh
            exact ⟨h2, fun _ h4 => by rw [h3] at h4; simp at h4⟩
          · have hd := dispatch_menu_other { g with out := g.out ++ [Event.commandRequest] }
              sc c hcur (by rw [hm]; rfl) hs hq
            have hfm := frame_menu { g with out := g.out ++ [Event.commandRequest] } sc hcur
              (by rw [hm]; rfl)
            rw [step_of_next g _ c ht (Or.inl (loopBody_next g _ c hv hd)), hfm]
            simp only [hgo, Bool.false_eq_true, if_false]
            refine ⟨⟨rfl, ?_⟩, fun _ h4 => by simp only [ht] at h4; simp at h4⟩
            simp only [hm, MenuScene_update_new]
            exact Or.inl trivial
        · obtain ⟨p, e, heq, hd, _⟩ := (duelScene_iff sc).1 hduel
          have hf : findPlayer sc.objects = some 0 := by
            rw [heq]; simp [findPlayer, hd.1]
          have hdis := dispatch_game_intent { g with out := g.out ++ [Event.commandRequest] }
            sc 0 p c hcur (by rw [heq]) hf (by rw [heq]; rfl) hq
          obtain ⟨_, h2, h3⟩ := step_frame_duel g _ c _ e ht hv hdis hgo ht
            (by rw [heq]; rfl) (duelOK_intent p e c hd)
          exact ⟨h2, fun _ h4 => by rw [h3] at h4; simp at h4⟩

/-- Every state reached by the program satisfies `runOK`, and the loop has
been left only if `q` was among the commands. -/
theorem run_runOK (inputs : List Char) :
    runOK (run inputs) ∧ ((run inputs).terminated = true → 'q' ∈ inputs) := by
  have key : ∀ (cs : List Char) (g : Game), runOK g →
      runOK (cs.foldl step g) ∧
      ((cs.foldl step g).terminated = true → g.terminated = true ∨ 'q' ∈ cs) := by
    intro cs
    induction cs with
    | nil => intro g hg; exact ⟨hg, fun h => Or.inl h⟩
    | cons c rest ih =>
      intro g hg
      rw [List.foldl_cons]
      obtain ⟨h1, h2⟩ := step_runOK g c hg
      obtain ⟨h3, h4⟩ := ih (step g c) h1
      refine ⟨h3, fun hterm => ?_⟩
      rcases h4 hterm with h5 | h5
      · cases ht : g.terminated
        · right
          rw [h2 ht h5]
          exact List.mem_cons_self _ _
        · exact Or.inl rfl
      · exact Or.inr (List.mem_cons_of_mem _ h5)
  obtain ⟨h1, h2⟩ := key inputs mainInit ⟨rfl, Or.inl rfl⟩
  refine ⟨h1, fun h => ?_⟩
  rcases h2 h with h3 | h3
  · exact absurd h3 (by decide)
  · exact h3

/-! ## Enemy patrol -/

/-- A call whose first argument is not a Player does nothing. -/
theorem checkCollision_not_player (a b : GameObject) (ha : a.kind ≠ Kind.Player) :
    checkCollision a b = { result := false, a := a, b := b, out := [] } :=
  checkCollision_other_kinds a b (fun h => ha h.1) (fun h => ha h.1)

/-- The collision pass changes no object that is not a Player. -/
theorem collisionPass_keeps_other (objects : List GameObject) (gameOver : Bool) (k : Nat)
    (x : GameObject) (hk : objects[k]? = some x) (hx : x.kind ≠ Kind.Player) :
    (collisionPass objects gameOver).objects[k]? = some x := by
  apply collisionPass_keeps (fun st => st.objects[k]? = some x)
  · intro i j acc hacc
    rcases innerBody_cases i j acc with h | ⟨a, b, ha, hb, _, h⟩
    · rw [h]; exact hacc
    · rw [h]
      simp only
      have hi : i < acc.1.objects.length := by
        by_contra hn
        rw [List.getElem?_eq_none (by omega)] at ha
        simp at ha
      have hj : j < acc.1.objects.length := by
        by_contra hn
        rw [List.getElem?_eq_none (by omega)] at hb
        simp at hb
      by_cases hkj : j = k
      · subst hkj
        rw [List.getElem?_set_self (by simpa using hj), ← hb, hacc]
      · rw [List.getElem?_set_ne hkj]
        by_cases hki : i = k
        · subst hki
          rw [List.getElem?_set_self hi]
          have hax : a = x := Option.some.inj (by rw [← ha, hacc])
          rw [hax, checkCollision_not_player x b hx]
        · rw [List.getElem?_set_ne hki]
          exact hacc
  · exact hk

/-- C14 (enemy patrol invariant): in every state reached by the program,
under any command sequence, every Enemy of the active scene satisfies
`0 <= x <= 9` and `velocity.x = -1` or `velocity.x = 1`; and no collision
outcome changes an Enemy: `checkCollision` leaves it as it is, as first or
as second argument, and so does a whole collision pass on any object
sequence. -/
theorem Enemy_patrol (inputs : List Char) (sc : Scene) (e x other : GameObject)
    (objects : List GameObject) (gameOver : Bool) (k : Nat)
    (hsc : (run inputs).sceneManager.currentScene = some sc)
    (he : e ∈ sc.objects) (hek : e.kind = Kind.Enemy)
    (hx : x.kind = Kind.Enemy) (hk : objects[k]? = some x) :
    (0 ≤ e.position.x ∧ e.position.x ≤ 9 ∧ (e.velocity.x = -1 ∨ e.velocity.x = 1)) ∧
    (checkCollision x other).a = x ∧
    (checkCollision other x).b = x ∧
    (collisionPass objects gameOver).objects[k]? = some x := by
  have hxp : x.kind ≠ Kind.Player := by rw [hx]; decide
  refine ⟨?_, by rw [checkCollision_not_player x other hxp], checkCollision_b other x,
    collisionPass_keeps_other objects gameOver k x hk hxp⟩
  obtain ⟨⟨_, hscene⟩, _⟩ := run_runOK inputs
  rw [hsc] at hscene
  rcases hscene with hm | hduel
  · rw [hm] at he
    simp [MenuScene.new] at he
  · obtain ⟨p, e0, heq, hd, _, hx0, hx9⟩ := (duelScene_iff sc).1 hduel
    rw [heq] at he
    simp only [List.mem_cons, List.mem_singleton, List.not_mem_nil, or_false] at he
    rcases he with h | h | h | h | h
    · rw [h, hd.1] at hek; exact absurd hek (by decide)
    · rw [h] at hek; exact absurd hek (by decide)
    · rw [h] at hek; exact absurd hek (by decide)
    · rw [h] at hek; exact absurd hek (by decide)
    · rw [h]; exact ⟨hx0, hx9, hd.2.2.2.2.2.2⟩

/-- C14 on the Enemy of the scene reached by the run `s`, `d`, `w`, and on an
Enemy that a Player overlaps. -/
theorem Enemy_patrol_witness :
    (0 ≤ (GameObject.mk Kind.Enemy ⟨988 / 125, 471102 / 78125⟩ ⟨-1, 294 / 625⟩).position.x ∧
     (GameObject.mk Kind.Enemy ⟨988 / 125, 471102 / 78125⟩ ⟨-1, 294 / 625⟩).position.x ≤ 9 ∧
     ((GameObject.mk Kind.Enemy ⟨988 / 125, 471102 / 78125⟩ ⟨-1, 294 / 625⟩).velocity.x = -1 ∨
      (GameObject.mk Kind.Enemy ⟨988 / 125, 471102 / 78125⟩ ⟨-1, 294 / 625⟩).velocity.x = 1)) ∧
    (checkCollision (Enemy.new 5 5) (Player.new 5 5)).a = Enemy.new 5 5 ∧
    (checkCollision (Player.new 5 5) (Enemy.new 5 5)).b = Enemy.new 5 5 ∧
    (collisionPass [Player.new 5 5, Enemy.new 5 5] false).objects[1]? =
      some (Enemy.new 5 5) :=
  Enemy_patrol ['s', 'd', 'w']
    (Scene.mk SceneKind.GameScene
      [GameObject.mk Kind.Player ⟨641 / 125, 379693 / 78125⟩ ⟨2, -3027 / 625⟩,
        Platform.new 4 7, Platform.new 5 7, Platform.new 6 7,
        GameObject.mk Kind.Enemy ⟨988 / 125, 471102 / 78125⟩ ⟨-1, 294 / 625⟩] ⟨0, 0⟩)
    (GameObject.mk Kind.Enemy ⟨988 / 125, 471102 / 78125⟩ ⟨-1, 294 / 625⟩)
    (Enemy.new 5 5) (Player.new 5 5) [Player.new 5 5, Enemy.new 5 5] false 1
    (by decide!) (by simp) rfl rfl rfl

/-! ## Game over from program start -/

/-- The platform calls of row 0 never print the game-over message. -/
theorem hitEnemy_not_mem_landedOut (p : GameObject) : Event.hitEnemy ∉ landedOut p := by
  have key : ∀ (a : GameObject) (bx : ℚ),
      Event.hitEnemy ∉ (checkCollision a (Platform.new bx 7)).out := by
    intro a bx h
    have := (checkCollision_hit_iff a _).1 h
    rw [checkCollision_platform_result a _ rfl] at this
    simp at this
  intro h
  simp only [landedOut, List.mem_append] at h
  rcases h with (h | h) | h
  · exact key _ _ h
  · exact key _ _ h
  · exact key _ _ h

/-- Under `runOK`, a command after which the frame is simulated on a game
scene leaves a scene of the shape built by `GameScene()` whose Player and
Enemy satisfy `duelOK`, with `gameOver` false. -/
theorem dispatch_runOK (g : Game) (c : Char) (sc1 : Scene) (h : runOK g)
    (hfl : (dispatch { g with out := g.out ++ [Event.commandRequest] } c).1 = Flow.next)
    (hsc : (dispatch { g with out := g.out ++ [Event.commandRequest] }
      c).2.sceneManager.currentScene = some sc1)
    (hk : sc1.kind = SceneKind.GameScene) :
    (dispatch { g with out := g.out ++ [Event.commandRequest] } c).2.gameOver = false ∧
    ∃ p e, sc1 = Scene.mk SceneKind.GameScene
        [p, Platform.new 4 7, Platform.new 5 7, Platform.new 6 7, e] ⟨0, 0⟩ ∧
      duelOK p e := by
  obtain ⟨hgo, hscene⟩ := h
  cases hcur : g.sceneManager.currentScene with
  | none => rw [hcur] at hscene; exact absurd hscene id
  | some sc =>
    rw [hcur] at hscene
    by_cases hq : c = 'q'
    · subst hq
      exfalso
      rcases hscene with hm | hduel
      · rw [dispatch_menu_quit { g with out := g.out ++ [Event.commandRequest] } sc hcur
          (by rw [hm]; rfl)] at hfl
        simp at hfl
      · obtain ⟨p, e, heq, hd, _⟩ := (duelScene_iff sc).1 hduel
        have hf : findPlayer sc.objects = some 0 := by
          rw [heq]; simp [findPlayer, hd.1]
        rw [dispatch_game_quit { g with out := g.out ++ [Event.commandRequest] } sc 0 p hcur
          (by rw [heq]) hf (by rw [heq]; rfl)] at hfl
        simp at hfl
    · rcases hscene with hm | hduel
      · by_cases hs : c = 's'
        · subst hs
          rw [dispatch_menu_start { g with out := g.out ++ [Event.commandRequest] } sc hcur
            (by rw [hm]; rfl)] at hsc ⊢
          have : GameScene.new = sc1 := Option.some.inj hsc
          exact ⟨hgo, Player.new 5 5, Enemy.new 8 6, this.symm, duelOK_fresh⟩
        · exfalso
          rw [dispatch_menu_other { g with out := g.out ++ [Event.commandRequest] } sc c hcur
            (by rw [hm]; rfl) hs hq] at hsc
          have : sc = sc1 := Option.some.inj (by rw [← hcur]; exact hsc)
          rw [← this, hm] at hk
          exact absurd hk (by decide)
      · obtain ⟨p, e, heq, hd, _⟩ := (duelScene_iff sc).1 hduel
        have hf : findPlayer sc.objects = some 0 := by
          rw [heq]; simp [findPlayer, hd.1]
        rw [dispatch_game_intent { g with out := g.out ++ [Event.commandRequest] }
          sc 0 p c hcur (by rw [heq]) hf (by rw [heq]; rfl) hq] at hsc ⊢
        refine ⟨hgo, _, e, ?_, duelOK_intent p e c hd⟩
        have hsc1 := (Option.some.inj hsc).symm
        rw [hsc1, heq]
        rfl

/-- C16 (game-over is never reached from the real start): in exact
arithmetic, along every run of the program `gameOver` is false and the loop
has been left only if `q` was among the commands; and at every collision
pass of the run (a frame whose command does not `break` and leaves a game
scene `sc1`) the objects after the pass are the Player, the three Platforms
and the Enemy with `enemy.y - player.y >= 1`, so `checkCollision(player,
enemy)` returns false, the game-over message is not printed and the pass
leaves `gameOver` false. -/
theorem gameOver_unreachable (inputs : List Char) (c : Char) (sc1 : Scene)
    (hfl : (dispatch { run inputs with out := (run inputs).out ++ [Event.commandRequest] }
      c).1 = Flow.next)
    (hsc : (dispatch { run inputs with out := (run inputs).out ++ [Event.commandRequest] }
      c).2.sceneManager.currentScene = some sc1)
    (hk : sc1.kind = SceneKind.GameScene) :
    (run inputs).gameOver = false ∧
    ((run inputs).terminated = true → 'q' ∈ inputs) ∧
    (dispatch { run inputs with out := (run inputs).out ++ [Event.commandRequest] }
      c).2.gameOver = false ∧
    (∃ p e, (framePass sc1.objects false).objects =
        [p, Platform.new 4 7, Platform.new 5 7, Platform.new 6 7, e] ∧
      p.kind = Kind.Player ∧ e.kind = Kind.Enemy ∧
      1 ≤ e.position.y - p.position.y ∧
      (checkCollision p e).result = false) ∧
    Event.hitEnemy ∉ (framePass sc1.objects false).out ∧
    (framePass sc1.objects false).gameOver = false := by
  obtain ⟨hok, hq⟩ := run_runOK inputs
  obtain ⟨hgo1, p, e, heq, hd⟩ := dispatch_runOK (run inputs) c sc1 hok hfl hsc hk
  have hdt : (0 : ℚ) ≤ frameDt := by norm_num [frameDt]
  have h1 := duelOK_landed _ _ (duelOK_applyPhysics p e frameDt hdt hd)
  obtain ⟨hres, hout, _⟩ := duelOK_no_hit _ _ h1
  have hpass : framePass sc1.objects false =
      { objects := [landed (applyPhysics p frameDt), Platform.new 4 7, Platform.new 5 7,
          Platform.new 6 7, applyPhysics e frameDt],
        gameOver := false ||
          (checkCollision (landed (applyPhysics p frameDt)) (applyPhysics e frameDt)).result,
        out := landedOut (applyPhysics p frameDt) ++
          (checkCollision (landed (applyPhysics p frameDt)) (applyPhysics e frameDt)).out,
        calls := allPairs 5 } := by
    have hphys : List.map (fun obj => applyPhysics obj frameDt)
        [p, Platform.new 4 7, Platform.new 5 7, Platform.new 6 7, e] =
        [applyPhysics p frameDt, Platform.new 4 7, Platform.new 5 7, Platform.new 6 7,
          applyPhysics e frameDt] := by
      simp [applyPhysics, Platform.new]
    have hp1 : (applyPhysics p frameDt).kind = Kind.Player :=
      (congrArg Prod.fst (staticView_applyPhysics p frameDt)).trans hd.1
    have he1 : (applyPhysics e frameDt).kind = Kind.Enemy :=
      (congrArg Prod.fst (staticView_applyPhysics e frameDt)).trans hd.2.1
    rw [heq, framePass]
    simp only
    rw [hphys, collisionPass_duel _ _ _ hp1 he1]
  refine ⟨hok.1, hq, hgo1, ⟨_, _, by rw [hpass], h1.1, h1.2.1, h1.2.2.1, hres⟩, ?_, ?_⟩
  · rw [hpass]
    simp only [hout, List.append_nil]
    exact hitEnemy_not_mem_landedOut _
  · rw [hpass]
    simp [hres]

/-- C16 on the run `s`, `d` followed by the command `w`. -/
theorem gameOver_unreachable_witness :
    (run ['s', 'd']).gameOver = false ∧
    Event.hitEnemy ∉ (framePass
      [GameObject.mk Kind.Player ⟨633 / 125, 391801 / 78125⟩ ⟨2, -5⟩,
        Platform.new 4 7, Platform.new 5 7, Platform.new 6 7,
        GameObject.mk Kind.Enemy ⟨992 / 125, 469926 / 78125⟩ ⟨-1, 196 / 625⟩] false).out ∧
    (framePass
      [GameObject.mk Kind.Player ⟨633 / 125, 391801 / 78125⟩ ⟨2, -5⟩,
        Platform.new 4 7, Platform.new 5 7, Platform.new 6 7,
        GameObject.mk Kind.Enemy ⟨992 / 125, 469926 / 78125⟩ ⟨-1, 196 / 625⟩] false).gameOver =
      false :=
  have h := gameOver_unreachable ['s', 'd'] 'w'
    (Scene.mk SceneKind.GameScene
      [GameObject.mk Kind.Player ⟨633 / 125, 391801 / 78125⟩ ⟨2, -5⟩,
        Platform.new 4 7, Platform.new 5 7, Platform.new 6 7,
        GameObject.mk Kind.Enemy ⟨992 / 125, 469926 / 78125⟩ ⟨-1, 196 / 625⟩] ⟨0, 0⟩)
    (by decide!) (by decide!) rfl
  ⟨h.1, h.2.2.2.2.1, h.2.2.2.2.2⟩

/-! ## Standing on the platforms -/

/-- A Player just above height 6 whose `x` is strictly between 3 and 7
overlaps one of the three Platforms and is snapped to height 6, where it
overlaps none. -/
theorem landed_on_platforms (q : GameObject) (hq : q.kind = Kind.Player)
    (hx3 : 3 < q.position.x) (hx7 : q.position.x < 7)
    (hy6 : 6 < q.position.y) (hy8 : q.position.y < 8) :
    landed q = GameObject.mk Kind.Player ⟨q.position.x, 6⟩ ⟨q.velocity.x, 0⟩ ∧
    collided (landed q).position ⟨4, 7⟩ = false ∧
    collided (landed q).position ⟨5, 7⟩ = false ∧
    collided (landed q).position ⟨6, 7⟩ = false := by
  have hl : landed q = GameObject.mk Kind.Player ⟨q.position.x, 6⟩ ⟨q.velocity.x, 0⟩ := by
    rcases landed_cases q hq with ⟨_, c1, c2, c3⟩ | ⟨h1, _, _⟩
    · exfalso
      simp only [collided, decide_eq_false_iff_not, not_and, not_lt] at c1 c2 c3
      by_cases b1 : q.position.x < 4 + 1
      · linarith [c1 b1 (by linarith) (by linarith)]
      · by_cases b2 : q.position.x < 5 + 1
        · linarith [c2 b2 (by linarith) (by linarith)]
        · linarith [c3 (by linarith) (by linarith) (by linarith)]
    · exact h1
  rw [hl]
  exact ⟨rfl, collided_at_six _ _, collided_at_six _ _, collided_at_six _ _⟩

/-- The test of line 193 after a body does not touch the scene manager. -/
theorem leave_or_stay_scene (g2 : Game) :
    (if g2.gameOver then leave g2 else g2).sceneManager = g2.sceneManager := by
  split_ifs <;> rfl

/-- C19 (standing on the platforms is a fixed point): in a scene of the
shape built by `GameScene()`, in exact arithmetic with `dt = 0.016`, if the
frame starts with the Player at `y = 6` with `velocity.y = 0`, the command is
`a`, `d` or `s`, and the Player's `x` after `applyPhysics` is strictly
between 3 and 7, then gravity moves the Player to `y = 6 + 196/78125`, the
platform calls snap it back to `y = 6` with `velocity.y = 0`, after the snap
it overlaps no Platform, and the frame ends with the Player at `y = 6` with
`velocity.y = 0`. -/
theorem standing_fixed_point (g : Game) (p e : GameObject) (c : Char)
    (ht : g.terminated = false)
    (hsc : g.sceneManager.currentScene = some (Scene.mk SceneKind.GameScene
      [p, Platform.new 4 7, Platform.new 5 7, Platform.new 6 7, e] ⟨0, 0⟩))
    (hp : p.kind = Kind.Player) (he : e.kind = Kind.Enemy)
    (hy : p.position.y = 6) (hvy : p.velocity.y = 0)
    (hc : c = 'a' ∨ c = 'd' ∨ c = 's')
    (hx3 : 3 < p.position.x + (if c = 'a' then -2 else if c = 'd' then 2 else 0) * frameDt)
    (hx7 : p.position.x + (if c = 'a' then -2 else if c = 'd' then 2 else 0) * frameDt < 7) :
    (applyPhysics (GameObject.mk Kind.Player p.position
        ⟨if c = 'a' then -2 else if c = 'd' then 2 else 0, 0⟩) frameDt).position =
      ⟨p.position.x + (if c = 'a' then -2 else if c = 'd' then 2 else 0) * frameDt,
       6 + 196 / 78125⟩ ∧
    (landed (applyPhysics (GameObject.mk Kind.Player p.position
        ⟨if c = 'a' then -2 else if c = 'd' then 2 else 0, 0⟩) frameDt)).position.y = 6 ∧
    (landed (applyPhysics (GameObject.mk Kind.Player p.position
        ⟨if c = 'a' then -2 else if c = 'd' then 2 else 0, 0⟩) frameDt)).velocity.y = 0 ∧
    (collided (landed (applyPhysics (GameObject.mk Kind.Player p.position
        ⟨if c = 'a' then -2 else if c = 'd' then 2 else 0, 0⟩) frameDt)).position ⟨4, 7⟩ = false ∧
     collided (landed (applyPhysics (GameObject.mk Kind.Player p.position
        ⟨if c = 'a' then -2 else if c = 'd' then 2 else 0, 0⟩) frameDt)).position ⟨5, 7⟩ = false ∧
     collided (landed (applyPhysics (GameObject.mk Kind.Player p.position
        ⟨if c = 'a' then -2 else if c = 'd' then 2 else 0, 0⟩) frameDt)).position ⟨6, 7⟩ = false) ∧
    (step g c).sceneManager.currentScene.map (fun s => s.objects.map GameObject.kind) =
      some [Kind.Player, Kind.Platform, Kind.Platform, Kind.Platform, Kind.Enemy] ∧
    (step g c).sceneManager.currentScene.map
        (fun s => s.objects[0]?.map (fun o => (o.position.y, o.velocity.y))) =
      some (some (6, 0)) := by
  have hq : c ≠ 'q' := by rcases hc with h | h | h <;> subst h <;> decide
  have hw : c ≠ 'w' := by rcases hc with h | h | h <;> subst h <;> decide
  have hv : validCommand c = true := validCommand_intent c (Or.inr hc)
  have hf : findPlayer [p, Platform.new 4 7, Platform.new 5 7, Platform.new 6 7, e] = some 0 := by
    simp [findPlayer, hp]
  have hint : (if c = 'w' then Player.jump p
      else if c = 'a' then Player.moveLeft p
      else if c = 'd' then Player.moveRight p
      else Player.stopHorizontal p) =
      GameObject.mk Kind.Player p.position
        ⟨if c = 'a' then -2 else if c = 'd' then 2 else 0, 0⟩ := by
    obtain ⟨k, pos, ⟨vx, vy⟩⟩ := p
    simp only at hp hvy
    subst hp hvy
    rw [if_neg hw]
    split_ifs <;> rfl
  have hdis := dispatch_game_intent { g with out := g.out ++ [Event.commandRequest] }
    _ 0 p c hsc rfl hf rfl hq
  rw [hint] at hdis
  have hphys : applyPhysics (GameObject.mk Kind.Player p.position
      ⟨if c = 'a' then -2 else if c = 'd' then 2 else 0, 0⟩) frameDt =
      GameObject.mk Kind.Player
        ⟨p.position.x + (if c = 'a' then -2 else if c = 'd' then 2 else 0) * frameDt,
         6 + 196 / 78125⟩
        ⟨if c = 'a' then -2 else if c = 'd' then 2 else 0, 98 / 625⟩ := by
    have hne : ¬ (Kind.Player = Kind.Platform) := by decide
    simp only [applyPhysics, hne, if_false, GameObject.setVelocity, GameObject.setPosition,
      Vector2.add, Vector2.mul, hy, gravity, frameDt]
    norm_num
  obtain ⟨hl, c4, c5, c6⟩ := landed_on_platforms
    (applyPhysics (GameObject.mk Kind.Player p.position
      ⟨if c = 'a' then -2 else if c = 'd' then 2 else 0, 0⟩) frameDt)
    (by rw [hphys]) (by rw [hphys]; exact hx3)
    (by rw [hphys]; exact hx7) (by rw [hphys]; norm_num) (by rw [hphys]; norm_num)
  obtain ⟨f1, _, _, _, _⟩ := frame_duel
    (setPlayer { g with out := g.out ++ [Event.commandRequest] }
      (Scene.mk SceneKind.GameScene
        [p, Platform.new 4 7, Platform.new 5 7, Platform.new 6 7, e] ⟨0, 0⟩) 0
      (GameObject.mk Kind.Player p.position
        ⟨if c = 'a' then -2 else if c = 'd' then 2 else 0, 0⟩))
    (GameObject.mk Kind.Player p.position
      ⟨if c = 'a' then -2 else if c = 'd' then 2 else 0, 0⟩) e rfl rfl he
  have hscene : (step g c).sceneManager.currentScene = some (Scene.mk SceneKind.GameScene
      [(landed (applyPhysics (GameObject.mk Kind.Player p.position
          ⟨if c = 'a' then -2 else if c = 'd' then 2 else 0, 0⟩) frameDt)).update frameDt,
        Platform.new 4 7, Platform.new 5 7, Platform.new 6 7,
        (applyPhysics e frameDt).update frameDt] ⟨0, 0⟩) := by
    rw [step_of_next g _ c ht (Or.inl (loopBody_next g _ c hv hdis)), leave_or_stay_scene, f1]
  have hlk : (landed (applyPhysics (GameObject.mk Kind.Player p.position
      ⟨if c = 'a' then -2 else if c = 'd' then 2 else 0, 0⟩) frameDt)).kind = Kind.Player := by
    rw [hl]
  obtain ⟨uk, uv, uy⟩ := Player_update_spec _ frameDt hlk
  have he1 : (applyPhysics e frameDt).kind = Kind.Enemy :=
    (congrArg Prod.fst (staticView_applyPhysics e frameDt)).trans he
  refine ⟨by rw [hphys], by rw [hl], by rw [hl], ⟨c4, c5, c6⟩, ?_, ?_⟩
  · rw [hscene]
    simp only [Option.map_some', List.map_cons, List.map_nil, uk,
      (Enemy_update_spec _ frameDt he1).1]
    rfl
  · rw [hscene]
    simp only [Option.map_some', List.getElem?_cons_zero, uv, uy]
    rw [hl]
    norm_num


/-- C19 on a Player standing at `(5, 6)` with the command `d`: the frame ends
with the Player at `y = 6` and `velocity.y = 0`. -/
theorem standing_fixed_point_witness :
    (step (Game.mk (SceneManager.mk (some (Scene.mk SceneKind.GameScene
        [GameObject.mk Kind.Player ⟨5, 6⟩ ⟨0, 0⟩,
          Platform.new 4 7, Platform.new 5 7, Platform.new 6 7, Enemy.new 8 6]
        ⟨0, 0⟩))) false false []) 'd').sceneManager.currentScene.map
        (fun s => s.objects[0]?.map (fun o => (o.position.y, o.velocity.y))) =
      some (some (6, 0)) :=
  (standing_fixed_point
    (Game.mk (SceneManager.mk (some (Scene.mk SceneKind.GameScene
      [GameObject.mk Kind.Player ⟨5, 6⟩ ⟨0, 0⟩,
        Platform.new 4 7, Platform.new 5 7, Platform.new 6 7, Enemy.new 8 6]
      ⟨0, 0⟩))) false false [])
    (GameObject.mk Kind.Player ⟨5, 6⟩ ⟨0, 0⟩) (Enemy.new 8 6) 'd'
    rfl rfl rfl rfl rfl rfl (Or.inr (Or.inl rfl)) (by decide!) (by decide!)).2.2.2.2.2

end Game2D
